import Mathlib

/-!
cluster-operator: diff engine, state conversion and equality predicates

A shallow embedding of the patch computation of the cluster-operator resources
(certconfig v4, configmap v6, chartconfig v2, clusterconfigmap v17, cpnamespace), of the
ensure-style resources (keepforinfrarefs, machinedeploymentstatus, clusterstatus,
workercount, tenantclients), of the current-state readers (chart v3, configmap v7), of
the desired state of chartconfig v5, of the resource-set router predicate, of the
configmap service constructor, of the version bundles and of the server domain of
certconfig v3, together with the properties the specification states about them.

Conventions of the embedding:

* a Go slice is a Lean list (a nil slice and an empty slice are both the empty list);
* a Go pointer to a struct that the code dereferences is the struct itself; a pointer
  that may be nil is an `Option`;
* a Go `map[string]string` is an `Option StringMap`: `none` is the nil map, `some m`
  a non-nil map whose entries carry pairwise distinct keys;
* a Go `interface{}` state value is a `Value`, tagged by its dynamic type;
* a Go `error` is its microerror cause (`microerror.Mask` keeps the cause);
  `(x, nil)` is `Except.ok x` and `(zero, err)` is `Except.error err`;
* a Go function returning only an error returns an `Option Error` (`none` is nil);
* the signals a resource raises on its context, the objects of the control plane and
  the calls made to an API are explicit state, passed in and returned;
* a collaborator behind an interface (a client, a conversion function held by the
  resource) is a function field of the resource: the theorems hold for every behaviour
  of it;
* logging and the emission of events are dropped.
-/

namespace ClusterOperator

/-! ## Data model -/

/-- Causes of the errors the embedded packages return. -/
inductive Error where
  | wrongTypeError
  | notFoundError
  | invalidConfigError
  | apiNotFound
  | tenantAPINotAvailable
  | tenantClientNotAvailable
  | baseDomainNotFound
  | guestClusterNotFound
  | releaseNotFound
  | timeout
  | other (message : String)
  deriving DecidableEq, Repr

/-- Matcher of the wrong-type error: the cause of the error is wrongTypeError. -/
def IsWrongType (err : Error) : Bool :=
  decide (err = Error.wrongTypeError)

/-- Matcher of the not-found error: the cause of the error is notFoundError. -/
def IsNotFound (err : Error) : Bool :=
  decide (err = Error.notFoundError)

/-- A non-nil Go map from strings to strings: its entries, with pairwise distinct keys. -/
structure StringMap where
  entries : List (String × String)
  nodupKeys : (entries.map Prod.fst).Nodup

instance : DecidableEq StringMap := fun a b =>
  decidable_of_iff (a.entries = b.entries)
    ⟨fun h => by cases a; cases b; cases h; rfl, fun h => by rw [h]⟩

namespace StringMap

/-- Number of keys of the map (Go len). -/
def len (m : StringMap) : Nat := m.entries.length

/-- Map index expression with the comma-ok form: the value stored under a key, if any. -/
def lookup (m : StringMap) (k : String) : Option String :=
  (m.entries.find? (fun e => decide (e.1 = k))).map Prod.snd

/-- The empty non-nil map. -/
def empty : StringMap := ⟨[], List.nodup_nil⟩

end StringMap

/-- The function reflect.DeepEqual at type map[string]string: both nil or both non-nil,
the same length, and every key of the first maps to an equal value in the second. -/
def deepEqualStringMap : Option StringMap → Option StringMap → Bool
  | none, none => true
  | some a, some b =>
    decide (a.len = b.len) && a.entries.all (fun e => decide (b.lookup e.1 = some e.2))
  | _, _ => false

/-- The fields of metav1.ObjectMeta that the embedded code reads or that the
specification names as server-generated. -/
structure ObjectMeta where
  Name : String := ""
  Namespace : String := ""
  Labels : Option StringMap := none
  Annotations : Option StringMap := none
  ResourceVersion : String := ""
  UID : String := ""
  Generation : Int := 0
  CreationTimestamp : Int := 0
  DeletionTimestamp : Option Int := none
  deriving DecidableEq

/-- The type corev1.ConfigMap. -/
structure ConfigMap extends ObjectMeta where
  Data : Option StringMap := none
  BinaryData : Option (List (String × List Nat)) := none
  deriving DecidableEq

/-- The type corev1.Namespace (metadata only). -/
structure Namespace extends ObjectMeta where
  deriving DecidableEq

/-- The spec of a v1alpha1.CertConfig. -/
structure CertConfigSpec where
  ClusterID : String := ""
  ClusterComponent : String := ""
  CommonName : String := ""
  AltNames : List String := []
  VersionBundleVersion : String := ""
  deriving DecidableEq

/-- The type v1alpha1.CertConfig. -/
structure CertConfig extends ObjectMeta where
  Spec : CertConfigSpec := {}
  deriving DecidableEq

/-- The spec of a v1alpha1.ChartConfig. -/
structure ChartConfigSpec where
  ChartName : String := ""
  ChartChannel : String := ""
  ChartNamespace : String := ""
  ChartRelease : String := ""
  VersionBundleVersion : String := ""
  deriving DecidableEq

/-- The type v1alpha1.ChartConfig: the type meta (Kind, APIVersion), the object meta
and the spec. -/
structure ChartConfig extends ObjectMeta where
  Kind : String := ""
  APIVersion : String := ""
  Spec : ChartConfigSpec := {}
  deriving DecidableEq

/-- The type corev1.ObjectReference, reduced to the fields the code reads. -/
structure ObjectReference where
  APIVersion : String := ""
  Kind : String := ""
  Name : String := ""
  Namespace : String := ""
  deriving DecidableEq

/-- The type types.NamespacedName. -/
structure NamespacedName where
  Name : String := ""
  Namespace : String := ""
  deriving DecidableEq

/-- The status of a Cluster API Cluster, reduced to the two flags the code reads. -/
structure ClusterStatus where
  ControlPlaneInitialized : Bool := false
  InfrastructureReady : Bool := false
  deriving DecidableEq

/-- The Cluster API type Cluster. The infrastructure reference is a pointer that the code
dereferences unconditionally; it is taken to be non-nil. -/
structure Cluster extends ObjectMeta where
  InfrastructureRef : ObjectReference := {}
  Status : ClusterStatus := {}
  deriving DecidableEq

/-- The status of a Cluster API MachineDeployment, reduced to the replica counts. -/
structure MachineDeploymentStatus where
  Replicas : Int := 0
  ReadyReplicas : Int := 0
  deriving DecidableEq

/-- The Cluster API type MachineDeployment. -/
structure MachineDeployment extends ObjectMeta where
  InfrastructureRef : ObjectReference := {}
  Status : MachineDeploymentStatus := {}
  deriving DecidableEq

/-- A Go interface value holding a resource state, tagged by its dynamic type.
The constructor nil is the untyped nil interface; the ConfigMap and Namespace pointer
constructors carry none for a typed nil pointer; a Cluster or MachineDeployment pointer
is taken to be non-nil, the key functions copy the object it points to. -/
inductive Value where
  | nil
  | configMapPtr (p : Option ConfigMap)
  | namespacePtr (p : Option Namespace)
  | configMaps (l : List ConfigMap)
  | certConfigs (l : List CertConfig)
  | chartConfigs (l : List ChartConfig)
  | strings (l : List String)
  | clusterPtr (p : Cluster)
  | machineDeploymentPtr (p : MachineDeployment)
  | other (typeName : String)
  deriving DecidableEq

/-- The patch of operatorkit: three change payloads, the nil interface when unset. -/
structure Patch where
  createChange : Value := Value.nil
  updateChange : Value := Value.nil
  deleteChange : Value := Value.nil
  deriving DecidableEq

/-- The constructor NewPatch of operatorkit: nothing set. -/
def NewPatch : Patch := {}

/-- The setter SetCreateChange of operatorkit. -/
def Patch.SetCreateChange (p : Patch) (v : Value) : Patch := { p with createChange := v }

/-- The setter SetUpdateChange of operatorkit. -/
def Patch.SetUpdateChange (p : Patch) (v : Value) : Patch := { p with updateChange := v }

/-- The setter SetDeleteChange of operatorkit. -/
def Patch.SetDeleteChange (p : Patch) (v : Value) : Patch := { p with deleteChange := v }

/-! ## pkg/v17/resource/clusterconfigmap -/

namespace V17.Clusterconfigmap

/-- The function equals of resource.go: equality of ConfigMaps with regard to the
distinguishing fields Name, Namespace, Annotations, Data and Labels. -/
def equals (a b : ConfigMap) : Bool :=
  if a.Name ≠ b.Name then false
  else if a.Namespace ≠ b.Namespace then false
  else if !deepEqualStringMap a.Annotations b.Annotations then false
  else if !deepEqualStringMap a.Data b.Data then false
  else if !deepEqualStringMap a.Labels b.Labels then false
  else true

/-- The function toConfigMap of resource.go: the nil interface gives a nil pointer and no
error, a ConfigMap pointer is returned as it is, every other value is a wrong-type error. -/
def toConfigMap : Value → Except Error (Option ConfigMap)
  | Value.nil => Except.ok none
  | Value.configMapPtr p => Except.ok p
  | _ => Except.error Error.wrongTypeError

end V17.Clusterconfigmap

/-! ## service/controller/resource/cpnamespace -/

namespace Cpnamespace

/-- Modelled from the spec: toNamespace of the cpnamespace package is not among the
sources; it is the type assertion of a state value to a Namespace pointer, with the nil
state giving a nil pointer and an unexpected shape giving the wrong-type error. -/
def toNamespace : Value → Except Error (Option Namespace)
  | Value.nil => Except.ok none
  | Value.namespacePtr p => Except.ok p
  | _ => Except.error Error.wrongTypeError

/-- The method newDeleteChange of delete.go: the current namespace, whatever the object and
the desired state are. -/
def newDeleteChange (currentState _desiredState : Value) : Except Error (Option Namespace) :=
  match toNamespace currentState with
  | Except.error err => Except.error err
  | Except.ok currentNamespace => Except.ok currentNamespace

/-- The method NewDeletePatch of delete.go: a fresh patch whose delete change is the
result of newDeleteChange (stored as a Namespace pointer in the interface). -/
def NewDeletePatch (currentState desiredState : Value) : Except Error Patch :=
  match newDeleteChange currentState desiredState with
  | Except.error err => Except.error err
  | Except.ok delete => Except.ok (NewPatch.SetDeleteChange (Value.namespacePtr delete))

end Cpnamespace

/-! ## pkg/v4/resource/certconfig -/

namespace V4.Certconfig

/-- Modelled from the spec: toCertConfigs of the v4 certconfig package is not among the
sources; it is the type assertion of a state value to a list of CertConfigs, with the nil
state giving the empty list and an unexpected shape giving the wrong-type error. -/
def toCertConfigs : Value → Except Error (List CertConfig)
  | Value.nil => Except.ok []
  | Value.certConfigs l => Except.ok l
  | _ => Except.error Error.wrongTypeError

/-- Modelled from the spec: containsCertConfig of the v4 certconfig package is not among
the sources; identity is by name, so a list contains an item when one of its elements
carries the name of the item. -/
def containsCertConfig (list : List CertConfig) (item : CertConfig) : Bool :=
  list.any (fun l => decide (l.Name = item.Name))

/-- Modelled from the spec: newDeleteChangeForDeletePatch of the v4 certconfig package is
not among the sources (only its test is); the delete change of a delete patch is the
converted current state, the desired state is not looked at. -/
def newDeleteChangeForDeletePatch (currentState _desiredState : Value) :
    Except Error (List CertConfig) :=
  match toCertConfigs currentState with
  | Except.error err => Except.error err
  | Except.ok currentCertConfigs => Except.ok currentCertConfigs

/-- Modelled from the spec: newDeleteChangeForUpdatePatch of the v4 certconfig package is
not among the sources (only its test is); both states are converted, then the current
items are walked in order and each one whose name is absent from desired is appended. -/
def newDeleteChangeForUpdatePatch (currentState desiredState : Value) :
    Except Error (List CertConfig) :=
  match toCertConfigs currentState with
  | Except.error err => Except.error err
  | Except.ok currentCertConfigs =>
    match toCertConfigs desiredState with
    | Except.error err => Except.error err
    | Except.ok desiredCertConfigs =>
      Except.ok (currentCertConfigs.foldl
        (fun certConfigsToDelete currentCertConfig =>
          if !containsCertConfig desiredCertConfigs currentCertConfig then
            certConfigsToDelete ++ [currentCertConfig]
          else certConfigsToDelete) [])

/-- The helper newCertConfig of the test files, reduced to the fields the patch
computation reads: the name is the cluster ID, a dash and the certificate. -/
def newCertConfig (clusterID cert : String) : CertConfig :=
  { Name := clusterID ++ "-" ++ cert,
    Spec := { ClusterID := clusterID, ClusterComponent := cert } }

end V4.Certconfig

/-! ## pkg/v6/configmap -/

namespace V6.Configmap

/-- Modelled from the spec: containsConfigMap of the v6 configmap package is not among the
sources; identity is by name, so a list contains an item when one of its elements carries
the name of the item. -/
def containsConfigMap (list : List ConfigMap) (item : ConfigMap) : Bool :=
  list.any (fun l => decide (l.Name = item.Name))

/-- The method newCreateChange of create.go: the desired ConfigMaps are walked in order and
each one that the current list does not contain is appended; the error is always nil. -/
def newCreateChange (currentConfigMaps desiredConfigMaps : List ConfigMap) :
    Except Error (List ConfigMap) :=
  Except.ok (desiredConfigMaps.foldl
    (fun configMapsToCreate desiredConfigMap =>
      if !containsConfigMap currentConfigMaps desiredConfigMap then
        configMapsToCreate ++ [desiredConfigMap]
      else configMapsToCreate) [])

end V6.Configmap

/-! ## pkg/v2/resource/chartconfig -/

namespace V2.Chartconfig

/-- Modelled from the spec: toChartConfigs of the v2 chartconfig package is not among the
sources; it is the type assertion of a state value to a list of ChartConfigs, with the nil
state giving the empty list and an unexpected shape giving the wrong-type error. -/
def toChartConfigs : Value → Except Error (List ChartConfig)
  | Value.nil => Except.ok []
  | Value.chartConfigs l => Except.ok l
  | _ => Except.error Error.wrongTypeError

/-- Modelled from the spec: getChartConfigByName of the v2 chartconfig package is not among
the sources; it is the lookup of the name to item mapping: the item of the list carrying
the name (the first one, names being unique by precondition), the not-found error when
there is none. -/
def getChartConfigByName : List ChartConfig → String → Except Error ChartConfig
  | [], _ => Except.error Error.notFoundError
  | l :: rest, name => if l.Name = name then Except.ok l else getChartConfigByName rest name

/-- Modelled from the spec: containsChartConfig of the v2 chartconfig package is not among
the sources; identity is by name. -/
def containsChartConfig (list : List ChartConfig) (item : ChartConfig) : Bool :=
  list.any (fun l => decide (l.Name = item.Name))

/-- Modelled from the spec: isChartConfigModified of the v2 chartconfig package is not
among the sources; it is the negated equality predicate of the resource kind, comparing
labels, annotations and payload and ignoring generated metadata. -/
def isChartConfigModified (a b : ChartConfig) : Bool :=
  !(deepEqualStringMap a.Labels b.Labels && deepEqualStringMap a.Annotations b.Annotations
    && decide (a.Spec = b.Spec))

/-- The loop of newUpdateChange in update.go, started with the items collected so far: for
each current item the desired item of the same name is looked up; a not-found error skips
the item, another error is returned, and the desired item is appended when modified
reports a difference from the current one. -/
def newUpdateChangeLoop (modified : ChartConfig → ChartConfig → Bool)
    (desiredChartConfigs : List ChartConfig) :
    List ChartConfig → List ChartConfig → Except Error (List ChartConfig)
  | [], chartConfigsToUpdate => Except.ok chartConfigsToUpdate
  | currentChartConfig :: rest, chartConfigsToUpdate =>
    match getChartConfigByName desiredChartConfigs currentChartConfig.Name with
    | Except.error err =>
      if IsNotFound err then
        newUpdateChangeLoop modified desiredChartConfigs rest chartConfigsToUpdate
      else Except.error err
    | Except.ok desiredChartConfig =>
      if modified desiredChartConfig currentChartConfig then
        newUpdateChangeLoop modified desiredChartConfigs rest
          (chartConfigsToUpdate ++ [desiredChartConfig])
      else newUpdateChangeLoop modified desiredChartConfigs rest chartConfigsToUpdate

/-- The method newUpdateChange of update.go, with the modification predicate of the
package as a parameter: both states are converted, then the loop runs from the empty
list. -/
def newUpdateChangeWith (modified : ChartConfig → ChartConfig → Bool)
    (currentState desiredState : Value) : Except Error (List ChartConfig) :=
  match toChartConfigs currentState with
  | Except.error err => Except.error err
  | Except.ok currentChartConfigs =>
    match toChartConfigs desiredState with
    | Except.error err => Except.error err
    | Except.ok desiredChartConfigs =>
      newUpdateChangeLoop modified desiredChartConfigs currentChartConfigs []

/-- The method newUpdateChange of update.go. -/
def newUpdateChange (currentState desiredState : Value) : Except Error (List ChartConfig) :=
  newUpdateChangeWith isChartConfigModified currentState desiredState

/-- Modelled from the spec: newCreateChange of the v2 chartconfig package is not among the
sources; both states are converted, then the desired items are walked in order and each
one whose name is absent from current is appended. -/
def newCreateChange (currentState desiredState : Value) : Except Error (List ChartConfig) :=
  match toChartConfigs currentState with
  | Except.error err => Except.error err
  | Except.ok currentChartConfigs =>
    match toChartConfigs desiredState with
    | Except.error err => Except.error err
    | Except.ok desiredChartConfigs =>
      Except.ok (desiredChartConfigs.foldl
        (fun chartConfigsToCreate desiredChartConfig =>
          if !containsChartConfig currentChartConfigs desiredChartConfig then
            chartConfigsToCreate ++ [desiredChartConfig]
          else chartConfigsToCreate) [])

/-- Modelled from the spec: newDeleteChangeForUpdatePatch of the v2 chartconfig package is
not among the sources; both states are converted, then the current items are walked in
order and each one whose name is absent from desired is appended. -/
def newDeleteChangeForUpdatePatch (currentState desiredState : Value) :
    Except Error (List ChartConfig) :=
  match toChartConfigs currentState with
  | Except.error err => Except.error err
  | Except.ok currentChartConfigs =>
    match toChartConfigs desiredState with
    | Except.error err => Except.error err
    | Except.ok desiredChartConfigs =>
      Except.ok (currentChartConfigs.foldl
        (fun chartConfigsToDelete currentChartConfig =>
          if !containsChartConfig desiredChartConfigs currentChartConfig then
            chartConfigsToDelete ++ [currentChartConfig]
          else chartConfigsToDelete) [])

/-- The method NewUpdatePatch of update.go: the create, update and delete changes are
computed in this order, the first error is returned, and otherwise the three lists are
stored in a fresh patch. -/
def NewUpdatePatch (currentState desiredState : Value) : Except Error Patch :=
  match newCreateChange currentState desiredState with
  | Except.error err => Except.error err
  | Except.ok create =>
    match newUpdateChange currentState desiredState with
    | Except.error err => Except.error err
    | Except.ok update =>
      match newDeleteChangeForUpdatePatch currentState desiredState with
      | Except.error err => Except.error err
      | Except.ok delete =>
        Except.ok (((NewPatch.SetCreateChange (Value.chartConfigs create)).SetUpdateChange
          (Value.chartConfigs update)).SetDeleteChange (Value.chartConfigs delete))

/-- The names carried by a change payload of the chartconfig patch. -/
def changeNames : Value → List String
  | Value.chartConfigs l => l.map (fun c => c.Name)
  | _ => []

end V2.Chartconfig

/-! ## Context signals, labels and key functions -/

/-- The three signals a resource can raise on the context of a reconciliation pass. -/
structure Signals where
  reconciliationCanceled : Bool := false
  resourceCanceled : Bool := false
  finalizersKept : Bool := false
  deriving DecidableEq

namespace Reconciliationcanceledcontext

/-- The function SetCanceled of operatorkit's reconciliationcanceledcontext. -/
def SetCanceled (s : Signals) : Signals := { s with reconciliationCanceled := true }

end Reconciliationcanceledcontext

namespace Resourcecanceledcontext

/-- The function SetCanceled of operatorkit's resourcecanceledcontext. -/
def SetCanceled (s : Signals) : Signals := { s with resourceCanceled := true }

end Resourcecanceledcontext

namespace Finalizerskeptcontext

/-- The function SetKept of operatorkit's finalizerskeptcontext. -/
def SetKept (s : Signals) : Signals := { s with finalizersKept := true }

end Finalizerskeptcontext

/-- A call made to the API of the control plane, recorded in the order of the calls. -/
inductive APICall where
  | get (apiVersion kind : String) (key : NamespacedName)
  | statusUpdate (key : NamespacedName)
  deriving DecidableEq

namespace Label

/-- Modelled from the spec: the constant OperatorVersion of pkg/label is not among the
sources; it is the key of the operator-version label. No theorem depends on its value. -/
def OperatorVersion : String := "cluster-operator.giantswarm.io/version"

/-- Modelled from the spec: the constant MachineDeployment of pkg/label is not among the
sources; it is the key of the machine-deployment label. No theorem depends on its value. -/
def MachineDeployment : String := "giantswarm.io/machine-deployment"

/-- Modelled from the spec: the constant MasterNodeRole of pkg/label is not among the
sources; it is the key of the master role label. No theorem depends on its value. -/
def MasterNodeRole : String := "node-role.kubernetes.io/master"

/-- Modelled from the spec: the constant ServiceType of pkg/label is not among the
sources; it is the key of the service-type label. -/
def ServiceType : String := "giantswarm.io/service-type"

/-- Modelled from the spec: the constant ServiceTypeManaged of pkg/label is not among the
sources; it is the service-type value of managed objects. -/
def ServiceTypeManaged : String := "managed"

/-- Modelled from the spec: the constant ManagedBy of pkg/label is not among the sources;
it is the key of the managed-by label. -/
def ManagedBy : String := "giantswarm.io/managed-by"

/-- Modelled from the spec: the constant App of pkg/label is not among the sources; it is
the key of the app label. -/
def App : String := "app"

/-- Modelled from the spec: the constant Cluster of pkg/label is not among the sources; it
is the key of the cluster label. -/
def Cluster : String := "giantswarm.io/cluster"

/-- Modelled from the spec: the constant Organization of pkg/label is not among the
sources; it is the key of the organization label. -/
def Organization : String := "giantswarm.io/organization"

/-- Modelled from the spec: the constant ProviderAzure of pkg/label is not among the
sources; it is the provider tag of Azure. -/
def ProviderAzure : String := "azure"

end Label

/-- The index expression of a Go label map with the plain form: the value under the key,
the empty string when the map is nil or has no such key. -/
def labelValue (labels : Option StringMap) (key : String) : String :=
  match labels with
  | none => ""
  | some m => (m.lookup key).getD ""

/-- Matcher IsNotFound of apimachinery's api errors. -/
def Apierrors.IsNotFound (err : Error) : Bool := decide (err = Error.apiNotFound)

/-- Matcher IsAPINotAvailable of the tenant errors package. -/
def Tenant.IsAPINotAvailable (err : Error) : Bool := decide (err = Error.tenantAPINotAvailable)

/-- Matcher IsNotAvailable of the internal tenantclient package. -/
def Tenantclient.IsNotAvailable (err : Error) : Bool :=
  decide (err = Error.tenantClientNotAvailable)

/-- Matcher IsNotFound of the internal basedomain package. -/
def Basedomain.IsNotFound (err : Error) : Bool := decide (err = Error.baseDomainNotFound)

/-- Matcher IsNotFound of the guestcluster package. -/
def Guestcluster.IsNotFound (err : Error) : Bool := decide (err = Error.guestClusterNotFound)

/-- Matcher IsReleaseNotFound of helmclient. -/
def Helmclient.IsReleaseNotFound (err : Error) : Bool := decide (err = Error.releaseNotFound)

/-- Matcher IsInvalidConfig: the cause of the error is invalidConfigError. -/
def IsInvalidConfig (err : Error) : Bool := decide (err = Error.invalidConfigError)

namespace Key

/-- Modelled from the spec: ToCluster of the key packages is not among the sources; it is
ToG8sControlPlane of g8s_control_plane.go at the type Cluster: the nil interface and every
value that is not a Cluster pointer give the wrong-type error, a Cluster pointer gives a
copy of the object. -/
def ToCluster : Value → Except Error Cluster
  | Value.clusterPtr p => Except.ok p
  | _ => Except.error Error.wrongTypeError

/-- Modelled from the spec: ToMachineDeployment of the key package is not among the
sources; it is ToG8sControlPlane of g8s_control_plane.go at the type MachineDeployment. -/
def ToMachineDeployment : Value → Except Error MachineDeployment
  | Value.machineDeploymentPtr p => Except.ok p
  | _ => Except.error Error.wrongTypeError

/-- The function ObjRefFromCluster of infrastructure.go. -/
def ObjRefFromCluster (cl : Cluster) : ObjectReference := cl.InfrastructureRef

/-- The function ObjRefFromMachineDeployment of infrastructure.go. -/
def ObjRefFromMachineDeployment (md : MachineDeployment) : ObjectReference :=
  md.InfrastructureRef

/-- The function ObjRefToNamespacedName of infrastructure.go. -/
def ObjRefToNamespacedName (ref : ObjectReference) : NamespacedName :=
  { Name := ref.Name, Namespace := ref.Namespace }

/-- The function IsDeleted of key/common.go: the deletion timestamp is set. -/
def IsDeleted (meta : ObjectMeta) : Bool := meta.DeletionTimestamp.isSome

/-- The function OperatorVersion of key/common.go: the value of the operator-version
label. -/
def OperatorVersion (meta : ObjectMeta) : String := labelValue meta.Labels Label.OperatorVersion

/-- The function ClusterID of key/common.go: the value of the cluster label. -/
def ClusterID (meta : ObjectMeta) : String := labelValue meta.Labels Label.Cluster

/-- The function MachineDeployment of key/common.go: the value of the machine-deployment
label. -/
def MachineDeployment (meta : ObjectMeta) : String :=
  labelValue meta.Labels Label.MachineDeployment

end Key

/-! ## service/controller/resource/keepforinfrarefs -/

namespace Keepforinfrarefs

/-- The resource: the conversion function of its configuration and the Get call of its
controller-runtime client, which returns nil when the object exists. -/
structure Resource where
  toObjRef : Value → Except Error ObjectReference
  ctrlClientGet : String → String → NamespacedName → Option Error

/-- The state of a deletion pass: the signals of the context and the calls made so far. -/
structure State where
  signals : Signals := {}
  calls : List APICall := []
  deriving DecidableEq

/-- The method EnsureDeleted of delete.go: a failed conversion is returned; an empty name
or namespace ends the resource with nil; otherwise the referenced object is fetched, a
not-found error ends the resource with nil, another error is returned, and when the
object was found the finalizers are kept. -/
def EnsureDeleted (r : Resource) (st : State) (obj : Value) : Option Error × State :=
  match r.toObjRef obj with
  | Except.error err => (some err, st)
  | Except.ok ref =>
    if ref.Name = "" then (none, st)
    else if ref.Namespace = "" then (none, st)
    else
      let st1 : State :=
        { st with calls := st.calls ++
            [APICall.get ref.APIVersion ref.Kind (Key.ObjRefToNamespacedName ref)] }
      match r.ctrlClientGet ref.APIVersion ref.Kind (Key.ObjRefToNamespacedName ref) with
      | some err => if Apierrors.IsNotFound err then (none, st1) else (some err, st1)
      | none => (none, { st1 with signals := Finalizerskeptcontext.SetKept st1.signals })

end Keepforinfrarefs

/-! ## service/controller/resource/machinedeploymentstatus -/

namespace Machinedeploymentstatus

/-- The type WorkerCount of the internal nodecount package. -/
structure WorkerCount where
  Nodes : Int := 0
  Ready : Int := 0
  deriving DecidableEq

/-- The index expression of the worker count map: the entry under the key, the zero value
when there is none. -/
def workerCountAt (workerCount : List (String × WorkerCount)) (key : String) : WorkerCount :=
  ((workerCount.find? (fun e => decide (e.1 = key))).map Prod.snd).getD {}

/-- The resource: the worker count service and the failures the control plane answers a
Get or a status update with (none when the call goes through). -/
structure Resource where
  workerCount : MachineDeployment → Except Error (List (String × WorkerCount))
  getError : NamespacedName → Option Error
  statusUpdateError : MachineDeployment → Option Error

/-- The state of a pass: the signals of the context, the machine deployments stored in
the control plane, and the objects handed to the status update call so far, whether the
call went through or not. -/
structure State where
  signals : Signals := {}
  machineDeployments : List MachineDeployment := []
  statusUpdates : List MachineDeployment := []
  deriving DecidableEq

/-- The Get call of the controller-runtime client: the injected failure if any, else the
stored machine deployment of that name and namespace, else a not-found error. -/
def ctrlClientGet (r : Resource) (st : State) (key : NamespacedName) :
    Except Error MachineDeployment :=
  match r.getError key with
  | some err => Except.error err
  | none =>
    match st.machineDeployments.find?
        (fun m => decide (m.Name = key.Name ∧ m.Namespace = key.Namespace)) with
    | none => Except.error Error.apiNotFound
    | some cr => Except.ok cr

/-- The status update of the controller-runtime client once it goes through: the status
of the stored machine deployment of the same name and namespace is replaced. -/
def storeStatus (stored : List MachineDeployment) (cr : MachineDeployment) :
    List MachineDeployment :=
  stored.map (fun m =>
    if m.Name = cr.Name ∧ m.Namespace = cr.Namespace then { m with Status := cr.Status } else m)

/-- The method ensure of resource.go: the machine deployment is fetched afresh and its
worker count computed; a tenant client or base domain that is not there yet cancels the
resource; when neither replica count changed nothing is done; otherwise the status is
set from the worker count and written, finalizers are kept when the object is deleted,
and the reconciliation is canceled. -/
def ensure (r : Resource) (st : State) (obj : Value) : Option Error × State :=
  match Key.ToMachineDeployment obj with
  | Except.error err => (some err, st)
  | Except.ok md =>
    match ctrlClientGet r st { Name := md.Name, Namespace := md.Namespace } with
    | Except.error err => (some err, st)
    | Except.ok cr =>
      match r.workerCount cr with
      | Except.error err =>
        if Tenantclient.IsNotAvailable err then
          (none, { st with signals := Resourcecanceledcontext.SetCanceled st.signals })
        else if Basedomain.IsNotFound err then
          (none, { st with signals := Resourcecanceledcontext.SetCanceled st.signals })
        else (some err, st)
      | Except.ok workerCount =>
        let count := workerCountAt workerCount (labelValue cr.Labels Label.MachineDeployment)
        let replicasChanged := decide (cr.Status.Replicas ≠ count.Nodes)
        let readyReplicasChanged := decide (cr.Status.ReadyReplicas ≠ count.Ready)
        if !replicasChanged && !readyReplicasChanged then (none, st)
        else
          let cr1 : MachineDeployment :=
            { cr with Status := { Replicas := count.Nodes, ReadyReplicas := count.Ready } }
          match r.statusUpdateError cr1 with
          | some err => (some err, { st with statusUpdates := st.statusUpdates ++ [cr1] })
          | none =>
            let kept := if Key.IsDeleted cr1.toObjectMeta then
              Finalizerskeptcontext.SetKept st.signals else st.signals
            (none, { signals := Reconciliationcanceledcontext.SetCanceled kept,
                     machineDeployments := storeStatus st.machineDeployments cr1,
                     statusUpdates := st.statusUpdates ++ [cr1] })

/-- A value of one of the interfaces that the resource depends on (recorder.Interface,
k8sclient.Interface, micrologger.Logger, nodecount.Interface), identified by a number. -/
structure Dependency where
  id : Nat
  deriving DecidableEq

/-- The type Config of resource.go; a nil interface is none. -/
structure Config where
  Event : Option Dependency := none
  K8sClient : Option Dependency := none
  Logger : Option Dependency := none
  NodeCount : Option Dependency := none
  deriving DecidableEq

/-- The fields of the type Resource of resource.go, as New sets them; a nil interface is
none. -/
structure ResourceFields where
  event : Option Dependency
  k8sClient : Option Dependency
  logger : Option Dependency
  nodeCount : Option Dependency
  deriving DecidableEq

/-- The function New of resource.go: each of the four dependencies must be set, else the
error is invalidConfigError; the resource pointer is returned with nil error. -/
def New (config : Config) : Except Error ResourceFields :=
  if config.Event = none then Except.error Error.invalidConfigError
  else if config.K8sClient = none then Except.error Error.invalidConfigError
  else if config.Logger = none then Except.error Error.invalidConfigError
  else if config.NodeCount = none then Except.error Error.invalidConfigError
  else Except.ok { event := config.Event, k8sClient := config.K8sClient,
                   logger := config.Logger, nodeCount := config.NodeCount }

end Machinedeploymentstatus

/-! ## service/controller: the machine deployment pipeline -/

/-- The resources of the machine deployment controller. -/
inductive MachineDeploymentResource where
  | releaseVersion
  | tenantClients
  | workerCount
  | keepForInfraRefs
  | machineDeploymentStatus
  | updateInfraRefs
  deriving DecidableEq, Repr

/-- The type MachineDeploymentConfig of machine_deployment.go; a nil interface is none. -/
structure MachineDeploymentConfig where
  BaseDomain : Option Machinedeploymentstatus.Dependency := none
  K8sClient : Option Machinedeploymentstatus.Dependency := none
  Logger : Option Machinedeploymentstatus.Dependency := none
  Tenant : Option Machinedeploymentstatus.Dependency := none
  Provider : String := ""
  deriving DecidableEq

/-- The constructors and wrappers that newMachineDeploymentResources calls and that are
not among the sources, each reduced to the error it returns (none when it returns its
resource) for the fields of the configuration that it is handed: the functions New of
keepforinfrarefs (K8sClient, Logger), releaseversions (K8sClient, Logger), tenantclients
(BaseDomain, Logger, Tenant), updateinfrarefs (K8sClient, Logger, Provider) and
workercount (Logger), and the functions Wrap of retryresource (the slice, Logger) and of
metricsresource (the slice). The conversion functions that the configurations hold as
well (ToObjRef, ToClusterFunc) are function values that are never nil and are left out. A
wrapper that returns no error returns the slice with every resource wrapped in place. -/
structure MachineDeploymentConstructors where
  keepforinfrarefsNew : Option Machinedeploymentstatus.Dependency →
    Option Machinedeploymentstatus.Dependency → Option Error
  releaseversionsNew : Option Machinedeploymentstatus.Dependency →
    Option Machinedeploymentstatus.Dependency → Option Error
  tenantclientsNew : Option Machinedeploymentstatus.Dependency →
    Option Machinedeploymentstatus.Dependency → Option Machinedeploymentstatus.Dependency →
    Option Error
  updateinfrarefsNew : Option Machinedeploymentstatus.Dependency →
    Option Machinedeploymentstatus.Dependency → String → Option Error
  workercountNew : Option Machinedeploymentstatus.Dependency → Option Error
  retryresourceWrap : List MachineDeploymentResource →
    Option Machinedeploymentstatus.Dependency → Option Error
  metricsresourceWrap : List MachineDeploymentResource → Option Error

/-- The slice literal resources of newMachineDeploymentResources (machine_deployment.go,
lines 182 to 197), in its order. -/
def machineDeploymentResourceSlice : List MachineDeploymentResource :=
  [MachineDeploymentResource.releaseVersion, MachineDeploymentResource.tenantClients,
   MachineDeploymentResource.workerCount, MachineDeploymentResource.keepForInfraRefs,
   MachineDeploymentResource.machineDeploymentStatus,
   MachineDeploymentResource.updateInfraRefs]

/-- The function newMachineDeploymentResources of machine_deployment.go: the six
resources are constructed in the order of the source, the first error ends the function;
then the slice is built and wrapped twice, an error of a wrapper ending the function as
well. The configuration handed to machinedeploymentstatus.New sets K8sClient and Logger
only. -/
def newMachineDeploymentResources (c : MachineDeploymentConstructors)
    (config : MachineDeploymentConfig) : Except Error (List MachineDeploymentResource) :=
  match c.keepforinfrarefsNew config.K8sClient config.Logger with
  | some err => Except.error err
  | none =>
    match Machinedeploymentstatus.New
        { K8sClient := config.K8sClient, Logger := config.Logger } with
    | Except.error err => Except.error err
    | Except.ok _ =>
      match c.releaseversionsNew config.K8sClient config.Logger with
      | some err => Except.error err
      | none =>
        match c.tenantclientsNew config.BaseDomain config.Logger config.Tenant with
        | some err => Except.error err
        | none =>
          match c.updateinfrarefsNew config.K8sClient config.Logger config.Provider with
          | some err => Except.error err
          | none =>
            match c.workercountNew config.Logger with
            | some err => Except.error err
            | none =>
              match c.retryresourceWrap machineDeploymentResourceSlice config.Logger with
              | some err => Except.error err
              | none =>
                match c.metricsresourceWrap machineDeploymentResourceSlice with
                | some err => Except.error err
                | none => Except.ok machineDeploymentResourceSlice

/-! ## service/controller/resource/clusterstatus -/

namespace Clusterstatus

/-- The provider specific cluster object behind the infrastructure reference, reduced to
the answer of GetCommonClusterStatus().HasCreatedCondition(). -/
structure CommonCluster where
  HasCreatedCondition : Bool := false
  deriving DecidableEq

/-- The resource: the calls of its controller-runtime client. The two Get calls answer
with the object or an error, the status update with nil when it goes through. -/
structure Resource where
  getCluster : NamespacedName → Except Error Cluster
  getCommonCluster : NamespacedName → Except Error CommonCluster
  statusUpdate : Cluster → Option Error

/-- The state of a pass: the signals of the context and the cluster objects whose status
update went through, in the order of the updates. -/
structure State where
  signals : Signals := {}
  statusWrites : List Cluster := []
  deriving DecidableEq

/-- The method EnsureCreated of create.go: the cluster is fetched afresh; when both flags
are set already nothing is done; otherwise the infrastructure object is fetched and,
once it has the Created condition, both flags are set and the status is written, after
which the reconciliation is canceled. -/
def EnsureCreated (r : Resource) (st : State) (obj : Value) : Option Error × State :=
  match Key.ToCluster obj with
  | Except.error err => (some err, st)
  | Except.ok cl =>
    match r.getCluster { Name := cl.Name, Namespace := cl.Namespace } with
    | Except.error err => (some err, st)
    | Except.ok cr =>
      if cr.Status.ControlPlaneInitialized && cr.Status.InfrastructureReady then (none, st)
      else
        match r.getCommonCluster (Key.ObjRefToNamespacedName (Key.ObjRefFromCluster cr)) with
        | Except.error err => (some err, st)
        | Except.ok cc =>
          if !cc.HasCreatedCondition then (none, st)
          else
            let cr1 : Cluster :=
              { cr with Status := { ControlPlaneInitialized := true,
                                    InfrastructureReady := true } }
            match r.statusUpdate cr1 with
            | some err => (some err, st)
            | none =>
              (none, { signals := Reconciliationcanceledcontext.SetCanceled st.signals,
                       statusWrites := st.statusWrites ++ [cr1] })

end Clusterstatus

/-! ## pkg/v3/resource/chart -/

namespace V3.Chart

/-- Modelled from the spec: the constant chartOperatorRelease of the chart package is not
among the sources; it is the name of the chart-operator release. No theorem depends on
its value. -/
def chartOperatorRelease : String := "chart-operator"

/-- Modelled from the spec: the constant chartOperatorChart of the chart package is not
among the sources; it is the name of the chart-operator chart. No theorem depends on its
value. -/
def chartOperatorChart : String := "chart-operator-chart"

/-- The type ReleaseContent of helmclient. -/
structure ReleaseContent where
  Name : String := ""
  Status : String := ""
  deriving DecidableEq

/-- The type ReleaseHistory of helmclient. -/
structure ReleaseHistory where
  Name : String := ""
  Version : String := ""
  deriving DecidableEq

/-- The two calls of the Helm client that the code makes. -/
structure HelmClient where
  GetReleaseContent : String → Except Error ReleaseContent
  GetReleaseHistory : String → Except Error ReleaseHistory

/-- The type ResourceState of the chart package. -/
structure ResourceState where
  ChartName : String := ""
  ReleaseName : String := ""
  ReleaseStatus : String := ""
  ReleaseVersion : String := ""
  deriving DecidableEq

/-- The resource: its method getGuestHelmClient, which is not among the sources and
creates the Helm client of the guest cluster of an object. -/
structure Resource where
  getGuestHelmClient : Value → Except Error HelmClient

/-- The method GetCurrentState of current.go; the state is none for the nil interface.
A guest cluster that is not found cancels the resource and gives the nil state; a release
that is not found gives the nil state; every other error is returned. -/
def GetCurrentState (r : Resource) (signals : Signals) (obj : Value) :
    Except Error (Option ResourceState) × Signals :=
  match r.getGuestHelmClient obj with
  | Except.error err =>
    if Guestcluster.IsNotFound err then
      (Except.ok none, Resourcecanceledcontext.SetCanceled signals)
    else (Except.error err, signals)
  | Except.ok guestHelmClient =>
    match guestHelmClient.GetReleaseContent chartOperatorRelease with
    | Except.error err =>
      if Helmclient.IsReleaseNotFound err then (Except.ok none, signals)
      else (Except.error err, signals)
    | Except.ok releaseContent =>
      match guestHelmClient.GetReleaseHistory chartOperatorRelease with
      | Except.error err => (Except.error err, signals)
      | Except.ok releaseHistory =>
        (Except.ok (some { ChartName := chartOperatorChart,
                           ReleaseName := chartOperatorRelease,
                           ReleaseStatus := releaseContent.Status,
                           ReleaseVersion := releaseHistory.Version }), signals)

/-- The type helmMock of mock_test.go: every call returns the default error when there is
one, else the default value. -/
def helmMock (defaultReleaseContent : ReleaseContent) (defaultReleaseHistory : ReleaseHistory)
    (defaultError : Option Error) : HelmClient :=
  { GetReleaseContent := fun _ =>
      match defaultError with
      | some err => Except.error err
      | none => Except.ok defaultReleaseContent,
    GetReleaseHistory := fun _ =>
      match defaultError with
      | some err => Except.error err
      | none => Except.ok defaultReleaseHistory }

end V3.Chart

/-! ## service/controller/clusterapi/v20/resources/workercount -/

namespace Clusterapi.V20.Workercount

/-- A condition of a node: its type (the field Type of corev1.NodeCondition) and its
status. -/
structure NodeCondition where
  Type_ : String := ""
  Status : String := ""
  deriving DecidableEq

/-- The type corev1.Node, reduced to its name and its conditions. -/
structure Node where
  Name : String := ""
  Conditions : List NodeCondition := []
  deriving DecidableEq

/-- The constant NodeReady of corev1. -/
def NodeReady : String := "Ready"

/-- The constant ConditionTrue of corev1. -/
def ConditionTrue : String := "True"

/-- The tenant cluster K8s client: the node list call, by label selector. -/
structure TenantK8sClient where
  listNodes : String → Except Error (List Node)

/-- The controller context of the clusterapi v20 package, reduced to the tenant K8s client
(none when nil) and the worker counts of the status. -/
structure ControllerContext where
  tenantK8s : Option TenantK8sClient := none
  workerNodes : Nat := 0
  workerReady : Nat := 0

/-- The state of a pass: the signals and the controller context held by the context
(none when the context carries no controller context). -/
structure State where
  signals : Signals := {}
  cc : Option ControllerContext := none

/-- The resource: the conversion function of its configuration. -/
structure Resource where
  toClusterFunc : Value → Except Error Cluster

/-- Modelled from the spec: FromContext of the controllercontext package is not among the
sources; it returns the controller context held by the context and an error when there
is none. -/
def FromContext (st : State) : Except Error ControllerContext :=
  match st.cc with
  | none => Except.error Error.notFoundError
  | some cc => Except.ok cc

/-- The loops of EnsureCreated over the nodes and their conditions: a node is appended to
the ready list for each of its conditions of type Ready with status True. -/
def readyNodes (nodes : List Node) : List Node :=
  nodes.foldl (fun ready n =>
    n.Conditions.foldl (fun ready c =>
      if c.Type_ = NodeReady ∧ c.Status = ConditionTrue then ready ++ [n] else ready) ready) []

/-- The method EnsureCreated of create.go: without a tenant K8s client, or when the node
list reports that the tenant API is not available, the resource ends with nil; another
error is returned; otherwise the numbers of listed and of ready nodes are written to the
controller context. -/
def EnsureCreated (r : Resource) (st : State) (obj : Value) : Option Error × State :=
  match r.toClusterFunc obj with
  | Except.error err => (some err, st)
  | Except.ok _ =>
    match FromContext st with
    | Except.error err => (some err, st)
    | Except.ok cc =>
      match cc.tenantK8s with
      | none => (none, st)
      | some k8s =>
        match k8s.listNodes ("!" ++ Label.MasterNodeRole) with
        | Except.error err =>
          if Tenant.IsAPINotAvailable err then (none, st) else (some err, st)
        | Except.ok nodes =>
          (none, { st with cc := some { cc with workerNodes := nodes.length,
                                                workerReady := (readyNodes nodes).length } })

end Clusterapi.V20.Workercount

/-! ## service/controller/clusterapi/v19: the handles predicate of the resource set -/

namespace Clusterapi.V19

/-- The function handlesFunc of cluster_resource_set.go, with the version of the version
bundle of the package as a parameter: an object that does not convert to a cluster is not
handled, a cluster is handled when its operator-version label is the version. -/
def handlesFunc (version : String) (obj : Value) : Bool :=
  match Key.ToCluster obj with
  | Except.error _ => false
  | Except.ok cr => if Key.OperatorVersion cr.toObjectMeta = version then true else false

end Clusterapi.V19

/-! ## pkg/v5/configmap -/

namespace V5.Configmap

/-- A value of the interface guestcluster.Interface, identified by a number. -/
structure GuestInterface where
  id : Nat
  deriving DecidableEq

/-- A value of the interface micrologger.Logger, identified by a number. -/
structure Logger where
  id : Nat
  deriving DecidableEq

/-- The type Config of configmap.go; a nil interface is none. -/
structure Config where
  Guest : Option GuestInterface := none
  Logger : Option Logger := none
  ProjectName : String := ""
  deriving DecidableEq

/-- The type Service of configmap.go; a nil interface is none. -/
structure Service where
  guest : Option GuestInterface
  logger : Option Logger
  projectName : String
  deriving DecidableEq

/-- The function New of configmap.go; the service pointer is returned with nil error, and
with an error the pointer is nil. -/
def New (config : Config) : Except Error Service :=
  if config.Guest = none then Except.error Error.invalidConfigError
  else if config.Logger = none then Except.error Error.invalidConfigError
  else if config.ProjectName = "" then Except.error Error.invalidConfigError
  else Except.ok { guest := config.Guest, logger := config.Logger,
                   projectName := config.ProjectName }

end V5.Configmap

/-! ## pkg/v7/configmap -/

namespace V7.Configmap

/-- The constant NamespaceSystem of metav1. -/
def NamespaceSystem : String := "kube-system"

/-- The constant NamespaceAll of metav1: the empty namespace name, for which a list call
covers every namespace. -/
def NamespaceAll : String := ""

/-- The type ListOptions of metav1, reduced to the field that the code sets: the label
selector, in its string form. -/
structure ListOptions where
  LabelSelector : String := ""
  deriving DecidableEq

/-- A list call made to the tenant cluster: the namespace and the list options. -/
structure ListCall where
  namespace_ : String
  options : ListOptions
  deriving DecidableEq

/-- The tenant cluster K8s client: the list call for config maps of a namespace. -/
structure K8sClient where
  listConfigMaps : String → ListOptions → Except Error (List ConfigMap)

/-- The tenant cluster service: the creation of a K8s client for a cluster ID and an API
domain. -/
structure Guest where
  NewK8sClient : String → String → Except Error K8sClient

/-- The type Service of the package, reduced to the fields GetCurrentState reads. -/
structure Service where
  guest : Guest
  projectName : String

/-- The type ConfigMapConfig of the package. -/
structure ConfigMapConfig where
  ClusterID : String := ""
  GuestAPIDomain : String := ""
  Namespaces : List String := []

/-- The keys of the map that GetCurrentState builds for deduping: the system namespace,
then every configured namespace that is not a key yet. -/
def namespaceKeys (config : ConfigMapConfig) : List String :=
  config.Namespaces.foldl (fun keys namespace_ =>
    if namespace_ ∈ keys then keys else keys ++ [namespace_]) [NamespaceSystem]

/-- The list options of GetCurrentState: the selector is the string that fmt.Sprintf
builds from the format "%s=%s, %s=%s", the service type label, its value managed, the
managed-by label and the project name. -/
def listOptions (s : Service) : ListOptions :=
  { LabelSelector := Label.ServiceType ++ "=" ++ Label.ServiceTypeManaged ++ ", "
      ++ Label.ManagedBy ++ "=" ++ s.projectName }

/-- The loop of GetCurrentState over the namespaces still to visit: the config maps of
each namespace are listed and appended; a failed list call ends the loop with its
error. The calls made are recorded. -/
def listNamespaces (k8s : K8sClient) (options : ListOptions) :
    List String → List ConfigMap → List ListCall →
      Except Error (List ConfigMap) × List ListCall
  | [], currentConfigMaps, calls => (Except.ok currentConfigMaps, calls)
  | namespace_ :: rest, currentConfigMaps, calls =>
    match k8s.listConfigMaps namespace_ options with
    | Except.error err => (Except.error err, calls ++ [⟨namespace_, options⟩])
    | Except.ok items =>
      listNamespaces k8s options rest (currentConfigMaps ++ items)
        (calls ++ [⟨namespace_, options⟩])

/-- The method GetCurrentState of current.go. The range over the map of namespaces yields
its keys in an order the language leaves open: the order is a parameter, a permutation of
namespaceKeys. The result comes with the list calls made. -/
def GetCurrentState (s : Service) (config : ConfigMapConfig) (order : List String) :
    Except Error (List ConfigMap) × List ListCall :=
  match s.guest.NewK8sClient config.ClusterID config.GuestAPIDomain with
  | Except.error err => (Except.error err, [])
  | Except.ok guestK8sClient => listNamespaces guestK8sClient (listOptions s) order [] []

/-- The property of labels that the specification names: they hold the managed service
type and the project name as manager. -/
def carriesManagedLabels (projectName : String) (labels : Option StringMap) : Bool :=
  match labels with
  | none => false
  | some m =>
    decide (m.lookup Label.ServiceType = some Label.ServiceTypeManaged)
      && decide (m.lookup Label.ManagedBy = some projectName)

/-- The pieces of a text between the occurrences of a separator (strings.Split). -/
def splitChars (sep : Char) : List Char → List (List Char)
  | [] => [[]]
  | c :: rest =>
    if c = sep then [] :: splitChars sep rest
    else
      match splitChars sep rest with
      | [] => [[c]]
      | piece :: pieces => (c :: piece) :: pieces

/-- A text without the white space at its two ends. -/
def trimBlanks (cs : List Char) : List Char :=
  ((cs.dropWhile Char.isWhitespace).reverse.dropWhile Char.isWhitespace).reverse

/-- The name part of a label key, and a non-empty label value, as apimachinery validates
them: at most 63 characters out of letters, digits, dash, underscore and dot, the first
and the last one a letter or a digit. -/
def isLabelName (cs : List Char) : Bool :=
  decide (cs.length ≤ 63)
    && cs.all (fun c => c.isAlphanum || c == '-' || c == '_' || c == '.')
    && (cs.head?.map Char.isAlphanum).getD false
    && (cs.reverse.head?.map Char.isAlphanum).getD false

/-- A label value as apimachinery validates it: empty, or as isLabelName. -/
def isLabelValue (cs : List Char) : Bool := cs.isEmpty || isLabelName cs

/-- A label of a DNS subdomain: lower case letters, digits and dashes, the first and the
last character no dash. -/
def isDNSLabel (cs : List Char) : Bool :=
  cs.all (fun c => c.isLower || c.isDigit || c == '-')
    && (cs.head?.map (fun c => c.isLower || c.isDigit)).getD false
    && (cs.reverse.head?.map (fun c => c.isLower || c.isDigit)).getD false

/-- A label key as apimachinery validates it: a name, or a DNS subdomain of at most 253
characters, a slash and a name. -/
def isLabelKey (cs : List Char) : Bool :=
  match splitChars '/' cs with
  | [name] => isLabelName name
  | [domain, name] =>
    decide (domain.length ≤ 253) && (splitChars '.' domain).all isDNSLabel
      && isLabelName name
  | _ => false

/-- One requirement of a selector in the form key=value, white space around it dropped. -/
def parseRequirement (cs : List Char) : Option (String × String) :=
  match splitChars '=' (trimBlanks cs) with
  | [key, value] =>
    if isLabelKey key && isLabelValue value then some (String.mk key, String.mk value)
    else none
  | _ => none

/-- The requirements of the pieces of a selector, none when a piece is not of the form
key=value. -/
def parseRequirements : List (List Char) → Option (List (String × String))
  | [] => some []
  | piece :: pieces =>
    match parseRequirement piece, parseRequirements pieces with
    | some requirement, some requirements => some (requirement :: requirements)
    | _, _ => none

/-- The label selector parser of apimachinery, which is not among the sources, on the
selectors that are empty or a comma separated list of requirements key=value with a valid
label key and a valid label value; every other selector gives none, whether the
apimachinery parser rejects it or reads one of its further forms. -/
def parseSelector (selector : String) : Option (List (String × String)) :=
  if selector = "" then some [] else parseRequirements (splitChars ',' selector.data)

/-- The labels meet every requirement: each key is present with the required value. -/
def matchesRequirements (requirements : List (String × String))
    (labels : Option StringMap) : Bool :=
  requirements.all (fun requirement =>
    match labels with
    | none => false
    | some m => decide (m.lookup requirement.1 = some requirement.2))

/-- The fake clientset of client-go that the tests use, which is not among the sources,
holding the present config maps: a list call gives, in the order of the store, the
config maps of the namespace, or of every namespace for the empty namespace name, whose
labels meet the selector. A selector for which parseSelector gives none is answered with
an error. -/
def fakeK8sClient (present : List ConfigMap) : K8sClient :=
  { listConfigMaps := fun namespace_ options =>
      match parseSelector options.LabelSelector with
      | none => Except.error (Error.other "selector not supported")
      | some requirements =>
        Except.ok (present.filter (fun cm =>
          (decide (namespace_ = NamespaceAll) || decide (cm.Namespace = namespace_))
            && matchesRequirements requirements cm.Labels)) }

/-- The guest mock of mock_test.go: every cluster gets the fake clientset. -/
def guestMock (present : List ConfigMap) : Guest :=
  { NewK8sClient := fun _ _ => Except.ok (fakeK8sClient present) }

end V7.Configmap

/-! ## pkg/v5/resource/chartconfig -/

namespace V5.Chartconfig

/-- The constant chartConfigAPIVersion of desired.go. -/
def chartConfigAPIVersion : String := "core.giantswarm.io"

/-- The constant chartConfigKind of desired.go. -/
def chartConfigKind : String := "ChartConfig"

/-- The constant chartConfigVersionBundleVersion of desired.go. -/
def chartConfigVersionBundleVersion : String := "0.1.0"

/-- The type v1alpha1.ClusterGuestConfig, reduced to its identity. -/
structure ClusterGuestConfig where
  ID : String := ""
  Owner : String := ""
  deriving DecidableEq

/-- The type cluster.Config, reduced to the fields the chart configs read. -/
structure ClusterConfig where
  ClusterID : String := ""
  Organization : String := ""
  deriving DecidableEq

/-- The resource: the conversion function of its configuration, the base cluster
configuration, the project name and the provider. -/
structure Resource where
  toClusterGuestConfigFunc : Value → Except Error ClusterGuestConfig
  baseClusterConfig : ClusterConfig
  projectName : String
  provider : String

/-- The function newChartConfigLabels of desired.go: a map of five labels. -/
def newChartConfigLabels (clusterConfig : ClusterConfig) (appName projectName : String) :
    Option StringMap :=
  some ⟨[(Label.App, appName), (Label.Cluster, clusterConfig.ClusterID),
         (Label.ManagedBy, projectName), (Label.Organization, clusterConfig.Organization),
         (Label.ServiceType, Label.ServiceTypeManaged)],
        show [Label.App, Label.Cluster, Label.ManagedBy, Label.Organization,
          Label.ServiceType].Nodup from by decide⟩

/-- The chart config that the four constructors of desired.go build from a chart name, a
channel name and a release name. -/
def newChartConfig (clusterConfig : ClusterConfig) (projectName : String)
    (chartName channelName releaseName : String) : ChartConfig :=
  { Kind := chartConfigKind, APIVersion := chartConfigAPIVersion,
    Name := chartName,
    Labels := newChartConfigLabels clusterConfig releaseName projectName,
    Spec := { ChartName := chartName, ChartChannel := channelName,
              ChartNamespace := "kube-system", ChartRelease := releaseName,
              VersionBundleVersion := chartConfigVersionBundleVersion } }

/-- The function newIngressControllerChartConfig of desired.go. -/
def newIngressControllerChartConfig (clusterConfig : ClusterConfig) (projectName : String) :
    ChartConfig :=
  newChartConfig clusterConfig projectName "kubernetes-nginx-ingress-controller-chart"
    "0-1-stable" "nginx-ingress-controller"

/-- The function newExternalDNSChartConfig of desired.go. -/
def newExternalDNSChartConfig (clusterConfig : ClusterConfig) (projectName : String) :
    ChartConfig :=
  newChartConfig clusterConfig projectName "kubernetes-external-dns-chart" "0-1-stable"
    "external-dns"

/-- The function newKubeStateMetricsChartConfig of desired.go. -/
def newKubeStateMetricsChartConfig (clusterConfig : ClusterConfig) (projectName : String) :
    ChartConfig :=
  newChartConfig clusterConfig projectName "kubernetes-kube-state-metrics-chart" "0-1-stable"
    "kube-state-metrics"

/-- The function newNodeExporterChartConfig of desired.go. -/
def newNodeExporterChartConfig (clusterConfig : ClusterConfig) (projectName : String) :
    ChartConfig :=
  newChartConfig clusterConfig projectName "kubernetes-node-exporter-chart" "0-1-stable"
    "node-exporter"

/-- The method GetDesiredState of desired.go. The function prepareClusterConfig of the
package is not among the sources and is a parameter. The kube-state-metrics and the
node-exporter chart configs are appended, then, each under its own test of the provider,
the ingress controller and the external DNS chart configs. -/
def GetDesiredState
    (prepareClusterConfig : ClusterConfig → ClusterGuestConfig → Except Error ClusterConfig)
    (r : Resource) (obj : Value) : Except Error Value :=
  match r.toClusterGuestConfigFunc obj with
  | Except.error err => Except.error err
  | Except.ok clusterGuestConfig =>
    match prepareClusterConfig r.baseClusterConfig clusterGuestConfig with
    | Except.error err => Except.error err
    | Except.ok clusterConfig =>
      let desired0 : List ChartConfig := []
      let desired1 := desired0 ++ [newKubeStateMetricsChartConfig clusterConfig r.projectName]
      let desired2 := desired1 ++ [newNodeExporterChartConfig clusterConfig r.projectName]
      let desired3 :=
        if r.provider = Label.ProviderAzure then
          desired2 ++ [newIngressControllerChartConfig clusterConfig r.projectName]
        else desired2
      let desired4 :=
        if r.provider = Label.ProviderAzure then
          desired3 ++ [newExternalDNSChartConfig clusterConfig r.projectName]
        else desired3
      Except.ok (Value.chartConfigs desired4)

end V5.Chartconfig

/-! ## service/controller: version bundles -/

namespace Versionbundle

/-- The type Bundle of the versionbundle library, reduced to its name, provider and
version; the changelogs and components are left out. -/
structure Bundle where
  Name : String := ""
  Provider : String := ""
  Version : String := ""
  deriving DecidableEq

/-- The fields of a version string: the runs of characters between its dots. -/
def splitDots : List Char → List (List Char)
  | [] => [[]]
  | c :: rest =>
    if c = '.' then [] :: splitDots rest
    else
      match splitDots rest with
      | [] => [[c]]
      | field :: fields => (c :: field) :: fields

/-- The number a field of decimal digits stands for, none when the field is empty or
holds another character. -/
def parseField (field : List Char) : Option Nat :=
  if field = [] then none
  else field.foldl (fun acc c =>
    match acc with
    | none => none
    | some n => if c.isDigit then some (10 * n + (c.toNat - 48)) else none) (some 0)

/-- The numeric fields of a version string, none when a field is not a number. -/
def parseVersion (version : String) : Option (List Nat) :=
  (splitDots version.data).mapM parseField

/-- The lexicographic order on lists of numbers. -/
def fieldsLess : List Nat → List Nat → Bool
  | [], [] => false
  | [], _ :: _ => true
  | _ :: _, [] => false
  | a :: as, b :: bs => decide (a < b) || (decide (a = b) && fieldsLess as bs)

/-- The semantic-version ordering of the specification: numeric comparison of the
dot-separated fields. Strings that are not versions are not ordered. -/
def semverLess (a b : String) : Bool :=
  match parseVersion a, parseVersion b with
  | some x, some y => fieldsLess x y
  | _, _ => false

end Versionbundle

namespace Aws.V2

/-- The function VersionBundle of aws/v2/version_bundle.go. -/
def VersionBundle : Versionbundle.Bundle :=
  { Name := "cluster-operator", Provider := "aws", Version := "0.2.0" }

end Aws.V2

namespace Aws.V19

/-- The function VersionBundle of aws/v19/version_bundle.go. -/
def VersionBundle : Versionbundle.Bundle :=
  { Name := "cluster-operator", Provider := "aws", Version := "0.19.0" }

end Aws.V19

namespace Azure.V16

/-- The function VersionBundle of azure/v16/version_bundle.go. -/
def VersionBundle : Versionbundle.Bundle :=
  { Name := "cluster-operator", Provider := "azure", Version := "0.16.0" }

end Azure.V16

namespace Kvm.V16

/-- The function VersionBundle of kvm/v16/version_bundle.go. -/
def VersionBundle : Versionbundle.Bundle :=
  { Name := "cluster-operator", Provider := "kvm", Version := "0.16.0" }

end Kvm.V16

/-! ## service/controller/clusterapi/v18/resources/tenantclients -/

namespace Clusterapi.V18.Tenantclients

/-- A tenant cluster G8s client, identified by a number. -/
structure G8sClient where
  id : Nat
  deriving DecidableEq

/-- A tenant cluster K8s client, identified by a number. -/
structure K8sClient where
  id : Nat
  deriving DecidableEq

/-- The controller context of the clusterapi v18 package, reduced to the two tenant
cluster clients (none when nil). -/
structure ControllerContext where
  tenantG8s : Option G8sClient := none
  tenantK8s : Option K8sClient := none
  deriving DecidableEq

/-- The state of a pass: the signals and the controller context held by the context
(none when the context carries no controller context). -/
structure State where
  signals : Signals := {}
  cc : Option ControllerContext := none
  deriving DecidableEq

/-- The resource: the conversion function of its configuration and the two client
constructors of the tenant cluster service, called with a cluster ID and an API
endpoint. The function ClusterAPIEndpoint of the key package is not among the sources
and is a field as well. -/
structure Resource where
  toClusterFunc : Value → Except Error Cluster
  clusterAPIEndpoint : Cluster → String
  NewG8sClient : String → String → Except Error G8sClient
  NewK8sClient : String → String → Except Error K8sClient

/-- Matcher IsTimeout of the tenantcluster library. -/
def IsTimeout (err : Error) : Bool := decide (err = Error.timeout)

/-- Modelled from the spec: FromContext of the controllercontext package is not among the
sources; it returns the controller context held by the context and an error when there
is none. -/
def FromContext (st : State) : Except Error ControllerContext :=
  match st.cc with
  | none => Except.error Error.notFoundError
  | some cc => Except.ok cc

/-- The method ensure of resource.go: the G8s client and then the K8s client are created;
a timeout of either ends the resource with nil, another error is returned; only when both
are there are they written to the controller context. -/
def ensure (r : Resource) (st : State) (obj : Value) : Option Error × State :=
  match r.toClusterFunc obj with
  | Except.error err => (some err, st)
  | Except.ok cr =>
    match FromContext st with
    | Except.error err => (some err, st)
    | Except.ok cc =>
      match r.NewG8sClient (Key.ClusterID cr.toObjectMeta) (r.clusterAPIEndpoint cr) with
      | Except.error err => if IsTimeout err then (none, st) else (some err, st)
      | Except.ok g8sClient =>
        match r.NewK8sClient (Key.ClusterID cr.toObjectMeta) (r.clusterAPIEndpoint cr) with
        | Except.error err => if IsTimeout err then (none, st) else (some err, st)
        | Except.ok k8sClient =>
          (none, { st with cc := some { cc with tenantG8s := some g8sClient,
                                                tenantK8s := some k8sClient } })

end Clusterapi.V18.Tenantclients

/-! ## pkg/v3/resource/certconfig -/

namespace Strings

/-- The call strings.Contains with a one-character substring: the character occurs in
the string. -/
def ContainsChar (s : String) (c : Char) : Bool := s.data.contains c

/-- The function strings.TrimLeft: the string without its leading characters that are in
the cutset. -/
def TrimLeft (s cutset : String) : String :=
  String.mk (s.data.dropWhile (fun c => cutset.data.contains c))

end Strings

namespace V3.Certconfig

/-- The function newServerDomain of desired.go, with the certificate as its string: a
common domain without a dot is an invalid-config error (with the empty string);
otherwise the result is the certificate, a dot and the common domain trimmed on the left
of tabs, spaces and dots. -/
def newServerDomain (commonDomain cert : String) : Except Error String :=
  if !Strings.ContainsChar commonDomain '.' then Except.error Error.invalidConfigError
  else Except.ok (cert ++ "." ++ Strings.TrimLeft commonDomain "\t .")

/-- The part of a server domain after the certificate and its separating dot; the empty
string when the domain does not start with them. -/
def parentDomain (domain cert : String) : String :=
  String.mk (domain.data.drop (cert.data.length + 1))

end V3.Certconfig

/-! ## Shared lemmas -/

section Lemmas

variable {α : Type}

/-- A loop that appends the elements not satisfying a test computes a filter. -/
theorem foldl_append_unless (p : α → Bool) (l acc : List α) :
    l.foldl (fun out x => if !p x then out ++ [x] else out) acc
      = acc ++ l.filter (fun x => !p x) := by
  induction l generalizing acc with
  | nil => simp
  | cons x rest ih =>
    simp only [List.foldl_cons, ih, List.filter_cons]
    cases p x <;> simp

/-- Membership of a name among the names of a list, as the any-test of the code. -/
theorem any_name_eq_iff (name : α → String) (list : List α) (item : α) :
    list.any (fun l => decide (name l = name item)) = true ↔ name item ∈ list.map name := by
  simp only [List.any_eq_true, decide_eq_true_eq, List.mem_map]

end Lemmas

/-! ## Diff engine: delete changes of certconfig v4 -/

namespace V4.Certconfig

theorem containsCertConfig_iff (list : List CertConfig) (item : CertConfig) :
    containsCertConfig list item = true ↔ item.Name ∈ list.map (fun c => c.Name) :=
  any_name_eq_iff (fun c : CertConfig => c.Name) list item

/-- C1: for all lists of current and desired CertConfigs, newDeleteChangeForUpdatePatch
returns without error the current items whose name is absent from desired, in the order
of current: every item occurs in the result as often as in current when its name is not
desired and not at all otherwise, and no desired item is in the result. -/
theorem newDeleteChangeForUpdatePatch_spec (current desired : List CertConfig) :
    ∃ result, newDeleteChangeForUpdatePatch (Value.certConfigs current)
        (Value.certConfigs desired) = Except.ok result
      ∧ result = current.filter (fun c => decide (c.Name ∉ desired.map (fun d => d.Name)))
      ∧ (∀ c, result.count c
          = if c.Name ∈ desired.map (fun d => d.Name) then 0 else current.count c)
      ∧ (∀ c, c ∈ result ↔ c ∈ current ∧ c.Name ∉ desired.map (fun d => d.Name))
      ∧ (∀ c, c ∈ desired → c ∉ result) := by
  have hfilter : (fun c : CertConfig => !containsCertConfig desired c)
      = (fun c => decide (c.Name ∉ desired.map (fun d => d.Name))) := by
    funext c
    by_cases h : c.Name ∈ desired.map (fun d => d.Name)
    · simp [(containsCertConfig_iff desired c).2 h, h]
    · have hc : containsCertConfig desired c = false := by
        cases hb : containsCertConfig desired c
        · rfl
        · exact absurd ((containsCertConfig_iff desired c).1 hb) h
      simp [hc, h]
  refine ⟨_, rfl, ?_, ?_, ?_, ?_⟩
  · rw [foldl_append_unless (containsCertConfig desired) current [], hfilter]
    simp
  · intro c
    rw [foldl_append_unless (containsCertConfig desired) current [], hfilter]
    by_cases h : c.Name ∈ desired.map (fun d => d.Name)
    · simp only [List.nil_append, h, if_true]
      rw [List.count_eq_zero]
      intro hmem
      have := (List.mem_filter.1 hmem).2
      simp [h] at this
    · simp only [List.nil_append, h, if_false]
      rw [List.count_filter]
      simp [h]
  · intro c
    rw [foldl_append_unless (containsCertConfig desired) current [], hfilter]
    simp [List.mem_filter]
  · intro c hc
    rw [foldl_append_unless (containsCertConfig desired) current [], hfilter]
    simp only [List.nil_append, List.mem_filter, decide_eq_true_eq, not_and, not_not]
    intro _
    exact List.mem_map.2 ⟨c, hc, rfl⟩

/-- Test table of newDeleteChangeForUpdatePatch, case 2: of seven current items the three
leftovers that are not desired are returned. -/
theorem newDeleteChangeForUpdatePatch_test_case_2 :
    newDeleteChangeForUpdatePatch
      (Value.certConfigs [newCertConfig "cluster-1" "api", newCertConfig "cluster-1" "calico",
        newCertConfig "cluster-1" "etcd", newCertConfig "cluster-1" "legacy-cert-1",
        newCertConfig "cluster-1" "legacy-cert-2",
        newCertConfig "cluster-1" "not needed anymore",
        newCertConfig "cluster-1" "flanneld-etcd-client"])
      (Value.certConfigs [newCertConfig "cluster-1" "api", newCertConfig "cluster-1" "calico",
        newCertConfig "cluster-1" "etcd", newCertConfig "cluster-1" "flanneld-etcd-client",
        newCertConfig "cluster-1" "node-operator", newCertConfig "cluster-1" "prometheus",
        newCertConfig "cluster-1" "service-account", newCertConfig "cluster-1" "worker"])
    = Except.ok [newCertConfig "cluster-1" "legacy-cert-1",
        newCertConfig "cluster-1" "legacy-cert-2",
        newCertConfig "cluster-1" "not needed anymore"] := by
  rfl

end V4.Certconfig

/-! ## Delete patches: the whole current state -/

/-- Test table of newDeleteChangeForDeletePatch, case 2: the three current items are
returned although all of them are desired. -/
theorem newDeleteChangeForDeletePatch_test_case_2 :
    V4.Certconfig.newDeleteChangeForDeletePatch
      (Value.certConfigs [V4.Certconfig.newCertConfig "cluster-1" "api",
        V4.Certconfig.newCertConfig "cluster-1" "calico",
        V4.Certconfig.newCertConfig "cluster-1" "etcd"])
      (Value.certConfigs [V4.Certconfig.newCertConfig "cluster-1" "api",
        V4.Certconfig.newCertConfig "cluster-1" "calico",
        V4.Certconfig.newCertConfig "cluster-1" "etcd",
        V4.Certconfig.newCertConfig "cluster-1" "worker"])
    = Except.ok [V4.Certconfig.newCertConfig "cluster-1" "api",
        V4.Certconfig.newCertConfig "cluster-1" "calico",
        V4.Certconfig.newCertConfig "cluster-1" "etcd"] := by
  rfl

/-- C2: the delete change of a delete patch is the whole current state whatever the
desired state is: newDeleteChangeForDeletePatch returns exactly the current list of
CertConfigs, and NewDeletePatch of cpnamespace returns a patch whose delete change is
the current namespace and whose create and update changes are unset. -/
theorem delete_patch_deletes_whole_current_state (current : List CertConfig)
    (currentNamespace : Option Namespace) (desiredState : Value) :
    V4.Certconfig.newDeleteChangeForDeletePatch (Value.certConfigs current) desiredState
        = Except.ok current
      ∧ Cpnamespace.NewDeletePatch (Value.namespacePtr currentNamespace) desiredState
        = Except.ok { createChange := Value.nil, updateChange := Value.nil,
                      deleteChange := Value.namespacePtr currentNamespace } :=
  ⟨rfl, rfl⟩

/-! ## Diff engine: create change of configmap v6 -/

namespace V6.Configmap

theorem containsConfigMap_iff (list : List ConfigMap) (item : ConfigMap) :
    containsConfigMap list item = true ↔ item.Name ∈ list.map (fun c => c.Name) :=
  any_name_eq_iff (fun c : ConfigMap => c.Name) list item

theorem not_containsConfigMap_eq (current : List ConfigMap) :
    (fun d : ConfigMap => !containsConfigMap current d)
      = (fun d => decide (d.Name ∉ current.map (fun c => c.Name))) := by
  funext d
  by_cases h : d.Name ∈ current.map (fun c => c.Name)
  · simp [(containsConfigMap_iff current d).2 h, h]
  · have hc : containsConfigMap current d = false := by
      cases hb : containsConfigMap current d
      · rfl
      · exact absurd ((containsConfigMap_iff current d).1 hb) h
    simp [hc, h]

/-- C3: for all lists of current and desired ConfigMaps, newCreateChange returns without
error the desired items whose name is absent from current, in the order of desired: every
item occurs in the result as often as in desired when its name is not current and not at
all otherwise; with an empty current list the result is the desired list and with an
empty desired list it is empty. -/
theorem newCreateChange_spec (current desired : List ConfigMap) :
    ∃ result, newCreateChange current desired = Except.ok result
      ∧ result = desired.filter (fun d => decide (d.Name ∉ current.map (fun c => c.Name)))
      ∧ (∀ d, result.count d
          = if d.Name ∈ current.map (fun c => c.Name) then 0 else desired.count d)
      ∧ (∀ d, d ∈ result ↔ d ∈ desired ∧ d.Name ∉ current.map (fun c => c.Name))
      ∧ newCreateChange [] desired = Except.ok desired
      ∧ newCreateChange current [] = Except.ok [] := by
  have hres : desired.foldl (fun out d => if !containsConfigMap current d then out ++ [d]
      else out) [] = desired.filter (fun d => decide (d.Name ∉ current.map (fun c => c.Name))) := by
    rw [foldl_append_unless (containsConfigMap current) desired [],
      not_containsConfigMap_eq]
    simp
  refine ⟨_, rfl, hres, ?_, ?_, ?_, rfl⟩
  · intro d
    rw [hres]
    by_cases h : d.Name ∈ current.map (fun c => c.Name)
    · simp only [h, if_true]
      rw [List.count_eq_zero]
      intro hmem
      have := (List.mem_filter.1 hmem).2
      simp [h] at this
    · simp only [h, if_false]
      rw [List.count_filter]
      simp [h]
  · intro d
    rw [hres]
    simp [List.mem_filter]
  · unfold newCreateChange
    rw [foldl_append_unless (containsConfigMap []) desired [], not_containsConfigMap_eq]
    simp

end V6.Configmap

/-! ## Deep equality of string maps -/

/-- In an entry list with pairwise distinct keys the first entry found under a key is the
only one: the lookup gives a value exactly when the pair is an entry. -/
theorem find_key_eq_some_iff (l : List (String × String)) (h : (l.map Prod.fst).Nodup)
    (k v : String) :
    (l.find? (fun e => decide (e.1 = k))).map Prod.snd = some v ↔ (k, v) ∈ l := by
  induction l with
  | nil => simp
  | cons e rest ih =>
    rw [List.map_cons, List.nodup_cons] at h
    by_cases hk : e.1 = k
    · have hnot : (k, v) ∉ rest := fun hmem =>
        h.1 (List.mem_map.2 ⟨(k, v), hmem, hk.symm⟩)
      rw [List.find?_cons_of_pos _ (by simpa using hk)]
      simp only [Option.map_some', Option.some.injEq, List.mem_cons, hnot, or_false]
      constructor
      · intro hv
        exact Prod.ext hk.symm hv.symm
      · intro he
        rw [← he]
    · have hne : (k, v) ≠ e := fun he => hk (by rw [← he])
      rw [List.find?_cons_of_neg _ (by simpa using hk), ih h.2]
      simp [hne]

theorem StringMap.lookup_eq_some_iff (m : StringMap) (k v : String) :
    m.lookup k = some v ↔ (k, v) ∈ m.entries :=
  find_key_eq_some_iff m.entries m.nodupKeys k v

/-- A duplicate-free list included in a list of the same length includes it. -/
theorem subset_symm_of_nodup {β : Type} (a b : List β) (ha : a.Nodup)
    (hlen : a.length = b.length) (hsub : ∀ e ∈ a, e ∈ b) : ∀ e ∈ b, e ∈ a := by
  have hsp : a.Subperm b := List.subperm_of_subset ha hsub
  have hp : a.Perm b := hsp.perm_of_length_le (le_of_eq hlen.symm)
  intro e he
  exact hp.symm.subset he

/-- Two non-nil maps are deeply equal exactly when they have the same number of entries
and every entry of the first is an entry of the second. -/
theorem deepEqualStringMap_some_iff (a b : StringMap) :
    deepEqualStringMap (some a) (some b) = true
      ↔ a.entries.length = b.entries.length ∧ ∀ e ∈ a.entries, e ∈ b.entries := by
  simp only [deepEqualStringMap, StringMap.len, Bool.and_eq_true, decide_eq_true_eq,
    List.all_eq_true, StringMap.lookup_eq_some_iff]

theorem deepEqualStringMap_refl (a : Option StringMap) : deepEqualStringMap a a = true := by
  cases a with
  | none => rfl
  | some m => exact (deepEqualStringMap_some_iff m m).2 ⟨rfl, fun _ h => h⟩

theorem deepEqualStringMap_comm (a b : Option StringMap) :
    deepEqualStringMap a b = deepEqualStringMap b a := by
  cases a with
  | none => cases b <;> rfl
  | some m =>
    cases b with
    | none => rfl
    | some n =>
      rw [Bool.eq_iff_iff, deepEqualStringMap_some_iff, deepEqualStringMap_some_iff]
      constructor
      · rintro ⟨hlen, hsub⟩
        exact ⟨hlen.symm, subset_symm_of_nodup _ _ (List.Nodup.of_map _ m.nodupKeys) hlen hsub⟩
      · rintro ⟨hlen, hsub⟩
        exact ⟨hlen.symm, subset_symm_of_nodup _ _ (List.Nodup.of_map _ n.nodupKeys) hlen hsub⟩

/-! ## Diff engine: update change and update patch of chartconfig v2 -/

namespace V2.Chartconfig

theorem getChartConfigByName_error (list : List ChartConfig) (name : String) (err : Error)
    (h : getChartConfigByName list name = Except.error err) :
    err = Error.notFoundError ∧ name ∉ list.map (fun c => c.Name) := by
  induction list with
  | nil =>
    simp only [getChartConfigByName, Except.error.injEq] at h
    exact ⟨h.symm, by simp⟩
  | cons l rest ih =>
    by_cases hl : l.Name = name
    · simp [getChartConfigByName, hl] at h
    · simp only [getChartConfigByName, hl, if_false] at h
      refine ⟨(ih h).1, ?_⟩
      simp only [List.map_cons, List.mem_cons, not_or]
      exact ⟨fun hn => hl hn.symm, (ih h).2⟩

theorem getChartConfigByName_ok (list : List ChartConfig) (name : String) (d : ChartConfig)
    (h : getChartConfigByName list name = Except.ok d) : d ∈ list ∧ d.Name = name := by
  induction list with
  | nil => simp [getChartConfigByName] at h
  | cons l rest ih =>
    by_cases hl : l.Name = name
    · simp only [getChartConfigByName, hl, if_true, Except.ok.injEq] at h
      subst h
      exact ⟨List.mem_cons_self _ _, hl⟩
    · simp only [getChartConfigByName, hl, if_false] at h
      exact ⟨List.mem_cons_of_mem _ (ih h).1, (ih h).2⟩

theorem getChartConfigByName_of_mem (list : List ChartConfig)
    (hnodup : (list.map (fun c => c.Name)).Nodup) (d : ChartConfig) (hd : d ∈ list) :
    getChartConfigByName list d.Name = Except.ok d := by
  induction list with
  | nil => simp at hd
  | cons l rest ih =>
    rw [List.map_cons, List.nodup_cons] at hnodup
    rcases List.mem_cons.1 hd with heq | hmem
    · subst heq
      simp [getChartConfigByName]
    · have hne : l.Name ≠ d.Name := fun hn =>
        hnodup.1 (List.mem_map.2 ⟨d, hmem, hn.symm⟩)
      simp only [getChartConfigByName, hne, if_false]
      exact ih hnodup.2 hmem

/-- The loop of newUpdateChange always returns: it extends the collected items by the
desired items found under the name of a current item and reported as modified, in the
order of the current items. -/
theorem newUpdateChangeLoop_spec (modified : ChartConfig → ChartConfig → Bool)
    (desired current acc : List ChartConfig) :
    ∃ out, newUpdateChangeLoop modified desired current acc = Except.ok (acc ++ out)
      ∧ (∀ x, x ∈ out ↔ ∃ c ∈ current,
          getChartConfigByName desired c.Name = Except.ok x ∧ modified x c = true)
      ∧ (out.map (fun c => c.Name)).Sublist (current.map (fun c => c.Name)) := by
  induction current generalizing acc with
  | nil => exact ⟨[], by simp [newUpdateChangeLoop], by simp, by simp⟩
  | cons c rest ih =>
    cases hget : getChartConfigByName desired c.Name with
    | error err =>
      have herr := (getChartConfigByName_error desired c.Name err hget).1
      obtain ⟨out, hout, hmem, hsub⟩ := ih acc
      refine ⟨out, ?_, ?_, ?_⟩
      · simp [newUpdateChangeLoop, hget, herr, IsNotFound, hout]
      · intro x
        rw [hmem]
        simp [hget]
      · simpa using hsub.cons c.Name
    | ok d =>
      have hname := (getChartConfigByName_ok desired c.Name d hget).2
      by_cases hmod : modified d c = true
      · obtain ⟨out, hout, hmem, hsub⟩ := ih (acc ++ [d])
        refine ⟨d :: out, ?_, ?_, ?_⟩
        · simp [newUpdateChangeLoop, hget, hmod, hout]
        · intro x
          simp only [List.mem_cons, hmem, exists_eq_or_imp, hget, Except.ok.injEq]
          constructor
          · rintro (hx | hx)
            · left
              subst hx
              exact ⟨rfl, hmod⟩
            · exact Or.inr hx
          · rintro (⟨hx, _⟩ | hx)
            · exact Or.inl hx.symm
            · exact Or.inr hx
        · simp only [List.map_cons, hname]
          exact hsub.cons₂ c.Name
      · obtain ⟨out, hout, hmem, hsub⟩ := ih acc
        refine ⟨out, ?_, ?_, ?_⟩
        · simp [newUpdateChangeLoop, hget, hmod, hout]
        · intro x
          rw [hmem]
          simp only [List.mem_cons, exists_eq_or_imp, hget, Except.ok.injEq]
          constructor
          · exact Or.inr
          · rintro (⟨hx, hm⟩ | hx)
            · subst hx
              exact absurd hm hmod
            · exact hx
        · simpa using hsub.cons c.Name

theorem containsChartConfig_iff (list : List ChartConfig) (item : ChartConfig) :
    containsChartConfig list item = true ↔ item.Name ∈ list.map (fun c => c.Name) :=
  any_name_eq_iff (fun c : ChartConfig => c.Name) list item

theorem not_containsChartConfig_eq (list : List ChartConfig) :
    (fun d : ChartConfig => !containsChartConfig list d)
      = (fun d => decide (d.Name ∉ list.map (fun c => c.Name))) := by
  funext d
  by_cases h : d.Name ∈ list.map (fun c => c.Name)
  · simp [(containsChartConfig_iff list d).2 h, h]
  · have hc : containsChartConfig list d = false := by
      cases hb : containsChartConfig list d
      · rfl
      · exact absurd ((containsChartConfig_iff list d).1 hb) h
    simp [hc, h]

theorem isChartConfigModified_self (a : ChartConfig) : isChartConfigModified a a = false := by
  simp [isChartConfigModified, deepEqualStringMap_refl]

/-- C4: for current and desired lists of ChartConfigs with unique names newUpdateChange
returns without error, and an item is in the result if and only if it is a desired item
for which current holds an item of the same name that the modification predicate reports
as different; every returned item is a desired one whose name occurs in both lists. The
statement holds for every modification predicate, the one of the package included. -/
theorem newUpdateChange_mem_iff (modified : ChartConfig → ChartConfig → Bool)
    (current desired : List ChartConfig)
    (hcurrent : (current.map (fun c => c.Name)).Nodup)
    (hdesired : (desired.map (fun c => c.Name)).Nodup) :
    ∃ result, newUpdateChangeWith modified (Value.chartConfigs current)
        (Value.chartConfigs desired) = Except.ok result
      ∧ (∀ x, x ∈ result ↔
          x ∈ desired ∧ ∃ c, c ∈ current ∧ c.Name = x.Name ∧ modified x c = true)
      ∧ (∀ x, x ∈ result → x ∈ desired ∧ x.Name ∈ current.map (fun c => c.Name)
          ∧ x.Name ∈ desired.map (fun c => c.Name)) := by
  have _ := hcurrent
  obtain ⟨out, hout, hmem, _⟩ := newUpdateChangeLoop_spec modified desired current []
  have hiff : ∀ x, x ∈ out ↔
      x ∈ desired ∧ ∃ c, c ∈ current ∧ c.Name = x.Name ∧ modified x c = true := by
    intro x
    rw [hmem]
    constructor
    · rintro ⟨c, hc, hget, hmod⟩
      have hx := getChartConfigByName_ok desired c.Name x hget
      exact ⟨hx.1, c, hc, hx.2.symm, hmod⟩
    · rintro ⟨hx, c, hc, hname, hmod⟩
      refine ⟨c, hc, ?_, hmod⟩
      rw [hname]
      exact getChartConfigByName_of_mem desired hdesired x hx
  refine ⟨out, by simpa [newUpdateChangeWith, toChartConfigs] using hout, hiff, ?_⟩
  intro x hx
  obtain ⟨hxd, c, hc, hname, _⟩ := (hiff x).1 hx
  exact ⟨hxd, List.mem_map.2 ⟨c, hc, hname⟩, List.mem_map.2 ⟨x, hxd, rfl⟩⟩

/-- Witness of C4: current holds a and b, desired holds a changed a and a new c; the
update change is the desired a. -/
theorem newUpdateChange_mem_iff_witness :
    ([({ Name := "a" } : ChartConfig), { Name := "b" }].map (fun c => c.Name)).Nodup
    ∧ ([({ Name := "a", Spec := { ChartChannel := "stable" } } : ChartConfig),
        { Name := "c" }].map (fun c => c.Name)).Nodup
    ∧ ∃ result, newUpdateChangeWith isChartConfigModified
        (Value.chartConfigs [{ Name := "a" }, { Name := "b" }])
        (Value.chartConfigs [{ Name := "a", Spec := { ChartChannel := "stable" } },
          { Name := "c" }]) = Except.ok result
      ∧ (∀ x, x ∈ result ↔
          x ∈ [({ Name := "a", Spec := { ChartChannel := "stable" } } : ChartConfig),
              { Name := "c" }]
            ∧ ∃ c, c ∈ [({ Name := "a" } : ChartConfig), { Name := "b" }]
              ∧ c.Name = x.Name ∧ isChartConfigModified x c = true)
      ∧ (∀ x, x ∈ result →
          x ∈ [({ Name := "a", Spec := { ChartChannel := "stable" } } : ChartConfig),
              { Name := "c" }]
          ∧ x.Name ∈ [({ Name := "a" } : ChartConfig), { Name := "b" }].map (fun c => c.Name)
          ∧ x.Name ∈ [({ Name := "a", Spec := { ChartChannel := "stable" } } : ChartConfig),
              { Name := "c" }].map (fun c => c.Name)) :=
  ⟨by decide, by decide,
    newUpdateChange_mem_iff isChartConfigModified [{ Name := "a" }, { Name := "b" }]
      [{ Name := "a", Spec := { ChartChannel := "stable" } }, { Name := "c" }]
      (by decide) (by decide)⟩

/-- The update change of the end-to-end scenario of the specification: current holds a,
desired holds a changed a and a new b; the update change is the desired a. -/
theorem newUpdateChange_scenario :
    newUpdateChange (Value.chartConfigs [{ Name := "a" }])
      (Value.chartConfigs [{ Name := "a", Spec := { ChartChannel := "stable" } },
        { Name := "b" }])
    = Except.ok [{ Name := "a", Spec := { ChartChannel := "stable" } }] := by
  rfl

/-- C5, as stated, fails: with current holding b then a and desired holding a changed a
then a changed b (unique names on both sides), newUpdateChange returns the desired b
before the desired a, which is not a subsequence of desired. -/
theorem newUpdateChange_not_in_desired_order :
    ([({ Name := "b" } : ChartConfig), { Name := "a" }].map (fun c => c.Name)).Nodup
    ∧ ([({ Name := "a", Spec := { ChartChannel := "stable" } } : ChartConfig),
        { Name := "b", Spec := { ChartChannel := "stable" } }].map (fun c => c.Name)).Nodup
    ∧ ∃ result, newUpdateChange (Value.chartConfigs [{ Name := "b" }, { Name := "a" }])
        (Value.chartConfigs [{ Name := "a", Spec := { ChartChannel := "stable" } },
          { Name := "b", Spec := { ChartChannel := "stable" } }]) = Except.ok result
      ∧ result = [{ Name := "b", Spec := { ChartChannel := "stable" } },
          { Name := "a", Spec := { ChartChannel := "stable" } }]
      ∧ ¬ result.Sublist [{ Name := "a", Spec := { ChartChannel := "stable" } },
          { Name := "b", Spec := { ChartChannel := "stable" } }] := by
  refine ⟨by decide, by decide, _, rfl, rfl, ?_⟩
  decide

/-- C5, amended: for current and desired lists of ChartConfigs with unique names the
update change returned by newUpdateChange lists desired items in the order of the current
sequence: every item of the result is a desired item and the names of the result are a
subsequence of the names of current. -/
theorem newUpdateChange_in_current_order (current desired : List ChartConfig)
    (hcurrent : (current.map (fun c => c.Name)).Nodup)
    (hdesired : (desired.map (fun c => c.Name)).Nodup) :
    ∃ result, newUpdateChange (Value.chartConfigs current) (Value.chartConfigs desired)
        = Except.ok result
      ∧ (∀ x, x ∈ result → x ∈ desired)
      ∧ (result.map (fun c => c.Name)).Sublist (current.map (fun c => c.Name)) := by
  have _ := hcurrent
  have _ := hdesired
  obtain ⟨out, hout, hmem, hsub⟩ :=
    newUpdateChangeLoop_spec isChartConfigModified desired current []
  refine ⟨out, by simpa [newUpdateChange, newUpdateChangeWith, toChartConfigs] using hout,
    ?_, hsub⟩
  intro x hx
  obtain ⟨c, _, hget, _⟩ := (hmem x).1 hx
  exact (getChartConfigByName_ok desired c.Name x hget).1

/-- Witness of the amended C5 at the input of the counterexample. -/
theorem newUpdateChange_in_current_order_witness :
    ([({ Name := "b" } : ChartConfig), { Name := "a" }].map (fun c => c.Name)).Nodup
    ∧ ([({ Name := "a", Spec := { ChartChannel := "stable" } } : ChartConfig),
        { Name := "b", Spec := { ChartChannel := "stable" } }].map (fun c => c.Name)).Nodup
    ∧ ∃ result, newUpdateChange (Value.chartConfigs [{ Name := "b" }, { Name := "a" }])
        (Value.chartConfigs [{ Name := "a", Spec := { ChartChannel := "stable" } },
          { Name := "b", Spec := { ChartChannel := "stable" } }]) = Except.ok result
      ∧ (∀ x, x ∈ result →
          x ∈ [({ Name := "a", Spec := { ChartChannel := "stable" } } : ChartConfig),
            { Name := "b", Spec := { ChartChannel := "stable" } }])
      ∧ (result.map (fun c => c.Name)).Sublist
          ([({ Name := "b" } : ChartConfig), { Name := "a" }].map (fun c => c.Name)) :=
  ⟨by decide, by decide,
    newUpdateChange_in_current_order [{ Name := "b" }, { Name := "a" }]
      [{ Name := "a", Spec := { ChartChannel := "stable" } },
        { Name := "b", Spec := { ChartChannel := "stable" } }] (by decide) (by decide)⟩

/-- C6: for current and desired lists of ChartConfigs with unique names NewUpdatePatch
returns a patch whose create change holds the desired items with a name absent from
current, whose delete change holds the current items with a name absent from desired,
and in which no name occurs in two of the create, update and delete changes; no object
of the create change is in the delete change. -/
theorem NewUpdatePatch_changes_disjoint (current desired : List ChartConfig)
    (hcurrent : (current.map (fun c => c.Name)).Nodup)
    (hdesired : (desired.map (fun c => c.Name)).Nodup) :
    ∃ create update delete,
      NewUpdatePatch (Value.chartConfigs current) (Value.chartConfigs desired)
        = Except.ok { createChange := Value.chartConfigs create,
                      updateChange := Value.chartConfigs update,
                      deleteChange := Value.chartConfigs delete }
      ∧ newUpdateChange (Value.chartConfigs current) (Value.chartConfigs desired)
        = Except.ok update
      ∧ create = desired.filter (fun d => decide (d.Name ∉ current.map (fun c => c.Name)))
      ∧ delete = current.filter (fun c => decide (c.Name ∉ desired.map (fun d => d.Name)))
      ∧ (create.map (fun c => c.Name)).Disjoint (update.map (fun c => c.Name))
      ∧ (create.map (fun c => c.Name)).Disjoint (delete.map (fun c => c.Name))
      ∧ (update.map (fun c => c.Name)).Disjoint (delete.map (fun c => c.Name))
      ∧ create.Disjoint delete := by
  have _ := hcurrent
  have _ := hdesired
  obtain ⟨update, hupdate, hmem, _⟩ :=
    newUpdateChangeLoop_spec isChartConfigModified desired current []
  have hupd : newUpdateChange (Value.chartConfigs current) (Value.chartConfigs desired)
      = Except.ok update := by
    simpa [newUpdateChange, newUpdateChangeWith, toChartConfigs] using hupdate
  have hcreate : newCreateChange (Value.chartConfigs current) (Value.chartConfigs desired)
      = Except.ok (desired.filter
          (fun d => decide (d.Name ∉ current.map (fun c => c.Name)))) := by
    simp only [newCreateChange, toChartConfigs]
    rw [foldl_append_unless (containsChartConfig current) desired [],
      not_containsChartConfig_eq]
    simp
  have hdelete : newDeleteChangeForUpdatePatch (Value.chartConfigs current)
      (Value.chartConfigs desired)
      = Except.ok (current.filter
          (fun c => decide (c.Name ∉ desired.map (fun d => d.Name)))) := by
    simp only [newDeleteChangeForUpdatePatch, toChartConfigs]
    rw [foldl_append_unless (containsChartConfig desired) current [],
      not_containsChartConfig_eq]
    simp
  have hcreateName : ∀ n, n ∈ (desired.filter
      (fun d => decide (d.Name ∉ current.map (fun c => c.Name)))).map (fun c => c.Name) →
      n ∈ desired.map (fun c => c.Name) ∧ n ∉ current.map (fun c => c.Name) := by
    intro n hn
    obtain ⟨d, hd, rfl⟩ := List.mem_map.1 hn
    have hd' := List.mem_filter.1 hd
    exact ⟨List.mem_map.2 ⟨d, hd'.1, rfl⟩, by simpa using hd'.2⟩
  have hdeleteName : ∀ n, n ∈ (current.filter
      (fun c => decide (c.Name ∉ desired.map (fun d => d.Name)))).map (fun c => c.Name) →
      n ∈ current.map (fun c => c.Name) ∧ n ∉ desired.map (fun c => c.Name) := by
    intro n hn
    obtain ⟨c, hc, rfl⟩ := List.mem_map.1 hn
    have hc' := List.mem_filter.1 hc
    exact ⟨List.mem_map.2 ⟨c, hc'.1, rfl⟩, by simpa using hc'.2⟩
  have hupdateName : ∀ n, n ∈ update.map (fun c => c.Name) →
      n ∈ desired.map (fun c => c.Name) ∧ n ∈ current.map (fun c => c.Name) := by
    intro n hn
    obtain ⟨x, hx, rfl⟩ := List.mem_map.1 hn
    obtain ⟨c, hc, hget, _⟩ := (hmem x).1 hx
    have hxd := getChartConfigByName_ok desired c.Name x hget
    exact ⟨List.mem_map.2 ⟨x, hxd.1, rfl⟩, List.mem_map.2 ⟨c, hc, hxd.2.symm⟩⟩
  refine ⟨_, update, _, ?_, hupd, rfl, rfl, ?_, ?_, ?_, ?_⟩
  · simp only [NewUpdatePatch, hcreate, hupd, hdelete]
    rfl
  · intro n hc hu
    exact (hcreateName n hc).2 (hupdateName n hu).2
  · intro n hc hd
    exact (hdeleteName n hd).2 (hcreateName n hc).1
  · intro n hu hd
    exact (hdeleteName n hd).2 (hupdateName n hu).1
  · intro x hc hd
    exact (hdeleteName x.Name (List.mem_map.2 ⟨x, hd, rfl⟩)).2
      (hcreateName x.Name (List.mem_map.2 ⟨x, hc, rfl⟩)).1

/-- Witness of C6 at the end-to-end scenario of the specification: current holds a,
desired holds a changed a and a new b. -/
theorem NewUpdatePatch_changes_disjoint_witness :
    ([({ Name := "a" } : ChartConfig)].map (fun c => c.Name)).Nodup
    ∧ ([({ Name := "a", Spec := { ChartChannel := "stable" } } : ChartConfig),
        { Name := "b" }].map (fun c => c.Name)).Nodup
    ∧ ∃ create update delete,
      NewUpdatePatch (Value.chartConfigs [{ Name := "a" }])
          (Value.chartConfigs [{ Name := "a", Spec := { ChartChannel := "stable" } },
            { Name := "b" }])
        = Except.ok { createChange := Value.chartConfigs create,
                      updateChange := Value.chartConfigs update,
                      deleteChange := Value.chartConfigs delete }
      ∧ newUpdateChange (Value.chartConfigs [{ Name := "a" }])
          (Value.chartConfigs [{ Name := "a", Spec := { ChartChannel := "stable" } },
            { Name := "b" }])
        = Except.ok update
      ∧ create = [({ Name := "a", Spec := { ChartChannel := "stable" } } : ChartConfig),
          { Name := "b" }].filter
            (fun d => decide (d.Name ∉ [({ Name := "a" } : ChartConfig)].map (fun c => c.Name)))
      ∧ delete = [({ Name := "a" } : ChartConfig)].filter
            (fun c => decide (c.Name ∉
              [({ Name := "a", Spec := { ChartChannel := "stable" } } : ChartConfig),
                { Name := "b" }].map (fun d => d.Name)))
      ∧ (create.map (fun c => c.Name)).Disjoint (update.map (fun c => c.Name))
      ∧ (create.map (fun c => c.Name)).Disjoint (delete.map (fun c => c.Name))
      ∧ (update.map (fun c => c.Name)).Disjoint (delete.map (fun c => c.Name))
      ∧ create.Disjoint delete :=
  ⟨by decide, by decide,
    NewUpdatePatch_changes_disjoint [{ Name := "a" }]
      [{ Name := "a", Spec := { ChartChannel := "stable" } }, { Name := "b" }]
      (by decide) (by decide)⟩

/-- The patch of the first end-to-end scenario of the specification: current holds a,
desired holds a changed a and a new b; b is created, the desired a is the update and
nothing is deleted. -/
theorem NewUpdatePatch_scenario_create_update :
    NewUpdatePatch (Value.chartConfigs [{ Name := "a" }])
      (Value.chartConfigs [{ Name := "a", Spec := { ChartChannel := "stable" } },
        { Name := "b" }])
    = Except.ok
        { createChange := Value.chartConfigs [{ Name := "b" }],
          updateChange :=
            Value.chartConfigs [{ Name := "a", Spec := { ChartChannel := "stable" } }],
          deleteChange := Value.chartConfigs [] } := by
  rfl

/-- The patch of the second end-to-end scenario of the specification: current holds a
and b, desired holds the same a; b is deleted, nothing is created or updated. -/
theorem NewUpdatePatch_scenario_delete :
    NewUpdatePatch (Value.chartConfigs [{ Name := "a" }, { Name := "b" }])
      (Value.chartConfigs [{ Name := "a" }])
    = Except.ok
        { createChange := Value.chartConfigs [],
          updateChange := Value.chartConfigs [],
          deleteChange := Value.chartConfigs [{ Name := "b" }] } := by
  rfl

/-- C7: when the current state is the same list of ChartConfigs as the desired state and
its names are unique, newUpdateChange returns the empty list without error. -/
theorem newUpdateChange_same_state_empty (state : List ChartConfig)
    (hstate : (state.map (fun c => c.Name)).Nodup) :
    newUpdateChange (Value.chartConfigs state) (Value.chartConfigs state) = Except.ok [] := by
  obtain ⟨out, hout, hmem, _⟩ :=
    newUpdateChangeLoop_spec isChartConfigModified state state []
  have hnil : out = [] := by
    rw [List.eq_nil_iff_forall_not_mem]
    intro x hx
    obtain ⟨c, hc, hget, hmod⟩ := (hmem x).1 hx
    rw [getChartConfigByName_of_mem state hstate c hc] at hget
    cases hget
    rw [isChartConfigModified_self] at hmod
    exact Bool.noConfusion hmod
  subst hnil
  simpa [newUpdateChange, newUpdateChangeWith, toChartConfigs] using hout

/-- Witness of C7: a state of two chart configs with the names a and b. -/
theorem newUpdateChange_same_state_empty_witness :
    ([({ Name := "a", Spec := { ChartChannel := "stable" } } : ChartConfig),
        { Name := "b" }].map (fun c => c.Name)).Nodup
    ∧ newUpdateChange
        (Value.chartConfigs [{ Name := "a", Spec := { ChartChannel := "stable" } },
          { Name := "b" }])
        (Value.chartConfigs [{ Name := "a", Spec := { ChartChannel := "stable" } },
          { Name := "b" }]) = Except.ok [] :=
  ⟨by decide,
    newUpdateChange_same_state_empty
      [{ Name := "a", Spec := { ChartChannel := "stable" } }, { Name := "b" }] (by decide)⟩

/-- Without unique names the same state on both sides can give an update: of two items
named a the first is found for the second and differs from it. -/
theorem newUpdateChange_same_state_duplicate_names :
    newUpdateChange
      (Value.chartConfigs [{ Name := "a" }, { Name := "a", Spec := { ChartChannel := "beta" } }])
      (Value.chartConfigs [{ Name := "a" }, { Name := "a", Spec := { ChartChannel := "beta" } }])
    = Except.ok [{ Name := "a" }] := by
  rfl

end V2.Chartconfig

/-! ## Conversion of state values -/

/-- C8: a state value of an unexpected type is rejected with the wrong-type error and no
result: for a non-nil value that is not a ConfigMap pointer toConfigMap returns
wrongTypeError, and for a non-nil value that is not a list of CertConfigs both delete
changes return an error matching IsWrongType when it is the current state, and
newDeleteChangeForUpdatePatch also when it is the desired state. -/
theorem wrong_type_state_rejected (v w current desired : Value)
    (hv : v ≠ Value.nil) (hvptr : ∀ p, v ≠ Value.configMapPtr p)
    (hw : w ≠ Value.nil) (hwlist : ∀ l, w ≠ Value.certConfigs l) :
    V17.Clusterconfigmap.toConfigMap v = Except.error Error.wrongTypeError
      ∧ (∃ err, V4.Certconfig.newDeleteChangeForDeletePatch w desired = Except.error err
          ∧ IsWrongType err = true)
      ∧ (∃ err, V4.Certconfig.newDeleteChangeForUpdatePatch w desired = Except.error err
          ∧ IsWrongType err = true)
      ∧ (∃ err, V4.Certconfig.newDeleteChangeForUpdatePatch current w = Except.error err
          ∧ IsWrongType err = true) := by
  have hconv : V4.Certconfig.toCertConfigs w = Except.error Error.wrongTypeError := by
    cases w with
    | nil => exact absurd rfl hw
    | certConfigs l => exact absurd rfl (hwlist l)
    | _ => rfl
  refine ⟨?_, ⟨Error.wrongTypeError, ?_, rfl⟩, ⟨Error.wrongTypeError, ?_, rfl⟩,
    ⟨Error.wrongTypeError, ?_, rfl⟩⟩
  · cases v with
    | nil => exact absurd rfl hv
    | configMapPtr p => exact absurd rfl (hvptr p)
    | _ => rfl
  · simp [V4.Certconfig.newDeleteChangeForDeletePatch, hconv]
  · simp [V4.Certconfig.newDeleteChangeForUpdatePatch, hconv]
  · cases hcur : V4.Certconfig.toCertConfigs current with
    | error err =>
      have herr : err = Error.wrongTypeError := by
        cases current <;> simp [V4.Certconfig.toCertConfigs] at hcur <;> exact hcur.symm
      simp [V4.Certconfig.newDeleteChangeForUpdatePatch, hcur, herr]
    | ok l => simp [V4.Certconfig.newDeleteChangeForUpdatePatch, hcur, hconv]

/-- Witness of C8 at the list of strings of the test tables. -/
theorem wrong_type_state_rejected_witness :
    Value.strings ["foo", "bar", "baz"] ≠ Value.nil
      ∧ (∀ p, Value.strings ["foo", "bar", "baz"] ≠ Value.configMapPtr p)
      ∧ (∀ l, Value.strings ["foo", "bar", "baz"] ≠ Value.certConfigs l)
      ∧ V17.Clusterconfigmap.toConfigMap (Value.strings ["foo", "bar", "baz"])
          = Except.error Error.wrongTypeError
      ∧ (∃ err, V4.Certconfig.newDeleteChangeForDeletePatch
            (Value.strings ["foo", "bar", "baz"])
            (Value.certConfigs [V4.Certconfig.newCertConfig "cluster-1" "api"])
            = Except.error err ∧ IsWrongType err = true)
      ∧ (∃ err, V4.Certconfig.newDeleteChangeForUpdatePatch
            (Value.strings ["foo", "bar", "baz"])
            (Value.certConfigs [V4.Certconfig.newCertConfig "cluster-1" "api"])
            = Except.error err ∧ IsWrongType err = true)
      ∧ (∃ err, V4.Certconfig.newDeleteChangeForUpdatePatch
            (Value.certConfigs [V4.Certconfig.newCertConfig "cluster-1" "api"])
            (Value.strings ["foo", "bar", "baz"])
            = Except.error err ∧ IsWrongType err = true) :=
  ⟨fun h => Value.noConfusion h, fun _ h => Value.noConfusion h,
    fun _ h => Value.noConfusion h,
    wrong_type_state_rejected (Value.strings ["foo", "bar", "baz"])
      (Value.strings ["foo", "bar", "baz"])
      (Value.certConfigs [V4.Certconfig.newCertConfig "cluster-1" "api"])
      (Value.certConfigs [V4.Certconfig.newCertConfig "cluster-1" "api"])
      (fun h => Value.noConfusion h) (fun _ h => Value.noConfusion h)
      (fun h => Value.noConfusion h) (fun _ h => Value.noConfusion h)⟩

/-- C9: a nil state is treated as the empty state: toConfigMap of the nil value is the nil
ConfigMap without error, and for every desired list both delete changes called with a nil
current state return the empty list without error, as they do for an empty current list. -/
theorem nil_state_is_empty_state (desired : List CertConfig) :
    V17.Clusterconfigmap.toConfigMap Value.nil = Except.ok none
      ∧ V4.Certconfig.newDeleteChangeForUpdatePatch Value.nil (Value.certConfigs desired)
          = Except.ok []
      ∧ V4.Certconfig.newDeleteChangeForDeletePatch Value.nil (Value.certConfigs desired)
          = Except.ok []
      ∧ V4.Certconfig.newDeleteChangeForUpdatePatch Value.nil (Value.certConfigs desired)
          = V4.Certconfig.newDeleteChangeForUpdatePatch (Value.certConfigs [])
              (Value.certConfigs desired)
      ∧ V4.Certconfig.newDeleteChangeForDeletePatch Value.nil (Value.certConfigs desired)
          = V4.Certconfig.newDeleteChangeForDeletePatch (Value.certConfigs [])
              (Value.certConfigs desired) :=
  ⟨rfl, rfl, rfl, rfl, rfl⟩

/-! ## Equality predicate of clusterconfigmap v17 -/

namespace V17.Clusterconfigmap

/-- C10: the equality predicate equals is reflexive and symmetric: equals of a ConfigMap
and itself is true, and equals of a and b is equals of b and a. -/
theorem equals_refl_symm (a b : ConfigMap) :
    equals a a = true ∧ equals a b = equals b a := by
  constructor
  · simp [equals, deepEqualStringMap_refl]
  · unfold equals
    rw [deepEqualStringMap_comm a.Annotations b.Annotations,
      deepEqualStringMap_comm a.Data b.Data, deepEqualStringMap_comm a.Labels b.Labels]
    by_cases hn : a.Name = b.Name
    · by_cases hs : a.Namespace = b.Namespace
      · simp [hn, hs]
      · have hs' : ¬ b.Namespace = a.Namespace := fun h => hs h.symm
        simp [hn, hs, hs']
    · have hn' : ¬ b.Name = a.Name := fun h => hn h.symm
      simp [hn, hn']

/-- The predicate equals on two ConfigMaps whose labels hold the same two entries in a
different order: the maps are deeply equal, so the ConfigMaps are equal both ways. -/
theorem equals_ignores_entry_order :
    equals
      { Name := "cluster-1", Labels := some ⟨[("a", "1"), ("b", "2")], by decide⟩ }
      { Name := "cluster-1", Labels := some ⟨[("b", "2"), ("a", "1")], by decide⟩ } = true
    ∧ equals
      { Name := "cluster-1", Labels := some ⟨[("b", "2"), ("a", "1")], by decide⟩ }
      { Name := "cluster-1", Labels := some ⟨[("a", "1"), ("b", "2")], by decide⟩ } = true :=
  ⟨by rfl, by rfl⟩

end V17.Clusterconfigmap

/-! ## Equality predicate of clusterconfigmap v17: ignored fields -/

namespace V17.Clusterconfigmap

/-- C11: equals ignores every field other than Name, Namespace, Annotations, Data and
Labels: when a' agrees with a and b' agrees with b on these five fields, whatever their
resource version, UID, generation, timestamps and binary data are, equals gives the same
value on a' and b' as on a and b. -/
theorem equals_ignores_generated_fields (a a' b b' : ConfigMap)
    (haName : a'.Name = a.Name) (haNamespace : a'.Namespace = a.Namespace)
    (haAnnotations : a'.Annotations = a.Annotations) (haData : a'.Data = a.Data)
    (haLabels : a'.Labels = a.Labels)
    (hbName : b'.Name = b.Name) (hbNamespace : b'.Namespace = b.Namespace)
    (hbAnnotations : b'.Annotations = b.Annotations) (hbData : b'.Data = b.Data)
    (hbLabels : b'.Labels = b.Labels) :
    equals a' b' = equals a b := by
  unfold equals
  rw [haName, haNamespace, haAnnotations, haData, haLabels,
    hbName, hbNamespace, hbAnnotations, hbData, hbLabels]

/-- Witness of C11: a ConfigMap as written and as read back from the server, with
resource version, UID, generation, creation timestamp and binary data set, compared with
a ConfigMap of another name. -/
theorem equals_ignores_generated_fields_witness :
    (({ Name := "cluster-1-cluster-values", Namespace := "default",
        ResourceVersion := "4711", UID := "0f1e2d", Generation := 3,
        CreationTimestamp := 1546300800, BinaryData := some [("k", [1, 2])] } : ConfigMap).Name
      = ({ Name := "cluster-1-cluster-values", Namespace := "default" } : ConfigMap).Name)
    ∧ equals
        { Name := "cluster-1-cluster-values", Namespace := "default",
          ResourceVersion := "4711", UID := "0f1e2d", Generation := 3,
          CreationTimestamp := 1546300800, BinaryData := some [("k", [1, 2])] }
        { Name := "cluster-2-cluster-values", Namespace := "default", ResourceVersion := "1" }
      = equals { Name := "cluster-1-cluster-values", Namespace := "default" }
          { Name := "cluster-2-cluster-values", Namespace := "default" } :=
  ⟨rfl,
    equals_ignores_generated_fields
      { Name := "cluster-1-cluster-values", Namespace := "default" }
      { Name := "cluster-1-cluster-values", Namespace := "default",
        ResourceVersion := "4711", UID := "0f1e2d", Generation := 3,
        CreationTimestamp := 1546300800, BinaryData := some [("k", [1, 2])] }
      { Name := "cluster-2-cluster-values", Namespace := "default" }
      { Name := "cluster-2-cluster-values", Namespace := "default", ResourceVersion := "1" }
      rfl rfl rfl rfl rfl rfl rfl rfl rfl rfl⟩

/-- Replacing the generated fields of both ConfigMaps by arbitrary values does not change
the value of equals. -/
theorem equals_with_generated_fields_replaced (a b : ConfigMap)
    (resourceVersion resourceVersion' uid uid' : String)
    (generation generation' creationTimestamp creationTimestamp' : Int)
    (deletionTimestamp deletionTimestamp' : Option Int)
    (binaryData binaryData' : Option (List (String × List Nat))) :
    equals
        { a with ResourceVersion := resourceVersion, UID := uid, Generation := generation,
                 CreationTimestamp := creationTimestamp,
                 DeletionTimestamp := deletionTimestamp, BinaryData := binaryData }
        { b with ResourceVersion := resourceVersion', UID := uid', Generation := generation',
                 CreationTimestamp := creationTimestamp',
                 DeletionTimestamp := deletionTimestamp', BinaryData := binaryData' }
      = equals a b := by
  rfl

/-- The predicate equals on a ConfigMap as written and as read back from the server with
generated metadata: they are equal. -/
theorem equals_after_server_round_trip :
    equals { Name := "cluster-1-cluster-values", Namespace := "default" }
      { Name := "cluster-1-cluster-values", Namespace := "default",
        ResourceVersion := "4711", UID := "0f1e2d", Generation := 3,
        CreationTimestamp := 1546300800 } = true := by
  rfl

end V17.Clusterconfigmap

/-! ## keepforinfrarefs: keeping finalizers while the infrastructure object exists -/

namespace Keepforinfrarefs

theorem EnsureDeleted_conversion_error (r : Resource) (st : State) (obj : Value) (err : Error)
    (href : r.toObjRef obj = Except.error err) : EnsureDeleted r st obj = (some err, st) := by
  simp [EnsureDeleted, href]

theorem EnsureDeleted_empty_reference (r : Resource) (st : State) (obj : Value)
    (ref : ObjectReference) (href : r.toObjRef obj = Except.ok ref)
    (hempty : ref.Name = "" ∨ ref.Namespace = "") : EnsureDeleted r st obj = (none, st) := by
  rcases hempty with h | h
  · simp [EnsureDeleted, href, h]
  · by_cases hname : ref.Name = ""
    · simp [EnsureDeleted, href, hname]
    · simp [EnsureDeleted, href, hname, h]

theorem EnsureDeleted_found (r : Resource) (st : State) (obj : Value)
    (ref : ObjectReference) (href : r.toObjRef obj = Except.ok ref)
    (hname : ref.Name ≠ "") (hns : ref.Namespace ≠ "")
    (hget : r.ctrlClientGet ref.APIVersion ref.Kind (Key.ObjRefToNamespacedName ref) = none) :
    EnsureDeleted r st obj
      = (none, { signals := Finalizerskeptcontext.SetKept st.signals,
                 calls := st.calls ++
                   [APICall.get ref.APIVersion ref.Kind (Key.ObjRefToNamespacedName ref)] }) := by
  simp [EnsureDeleted, href, hname, hns, hget]

theorem EnsureDeleted_get_error (r : Resource) (st : State) (obj : Value)
    (ref : ObjectReference) (err : Error) (href : r.toObjRef obj = Except.ok ref)
    (hname : ref.Name ≠ "") (hns : ref.Namespace ≠ "")
    (hget : r.ctrlClientGet ref.APIVersion ref.Kind (Key.ObjRefToNamespacedName ref)
      = some err) :
    EnsureDeleted r st obj
      = (if Apierrors.IsNotFound err = true then none else some err,
         { signals := st.signals,
           calls := st.calls ++
             [APICall.get ref.APIVersion ref.Kind (Key.ObjRefToNamespacedName ref)] }) := by
  by_cases hnf : Apierrors.IsNotFound err = true
  · simp [EnsureDeleted, href, hname, hns, hget, hnf]
  · simp [EnsureDeleted, href, hname, hns, hget, hnf]

/-- C12: after EnsureDeleted the finalizersKept signal is set if and only if it was set
before or the object converts to a reference with a non-empty name and a non-empty
namespace and the Get call for the referenced object returns no error; in that case
EnsureDeleted returns no error. The other signals are never touched. -/
theorem EnsureDeleted_keeps_finalizers_iff (r : Resource) (st : State) (obj : Value) :
    ((EnsureDeleted r st obj).2.signals.finalizersKept = true ↔
        st.signals.finalizersKept = true ∨
          ∃ ref, r.toObjRef obj = Except.ok ref ∧ ref.Name ≠ "" ∧ ref.Namespace ≠ ""
            ∧ r.ctrlClientGet ref.APIVersion ref.Kind (Key.ObjRefToNamespacedName ref) = none)
      ∧ (∀ ref, r.toObjRef obj = Except.ok ref → ref.Name ≠ "" → ref.Namespace ≠ ""
          → r.ctrlClientGet ref.APIVersion ref.Kind (Key.ObjRefToNamespacedName ref) = none
          → (EnsureDeleted r st obj).1 = none)
      ∧ (EnsureDeleted r st obj).2.signals.reconciliationCanceled
          = st.signals.reconciliationCanceled
      ∧ (EnsureDeleted r st obj).2.signals.resourceCanceled = st.signals.resourceCanceled := by
  cases href : r.toObjRef obj with
  | error err =>
    rw [EnsureDeleted_conversion_error r st obj err href]
    simp
  | ok ref =>
    by_cases hempty : ref.Name = "" ∨ ref.Namespace = ""
    · rw [EnsureDeleted_empty_reference r st obj ref href hempty]
      refine ⟨⟨Or.inl, ?_⟩, ?_, rfl, rfl⟩
      · rintro (h | ⟨ref', hr, hn, hs, _⟩)
        · exact h
        · cases hr
          rcases hempty with h | h
          · exact absurd h hn
          · exact absurd h hs
      · intro ref' hr hn hs _
        cases hr
        rcases hempty with h | h
        · exact absurd h hn
        · exact absurd h hs
    · have hname : ref.Name ≠ "" := fun h => hempty (Or.inl h)
      have hns : ref.Namespace ≠ "" := fun h => hempty (Or.inr h)
      cases hget : r.ctrlClientGet ref.APIVersion ref.Kind (Key.ObjRefToNamespacedName ref) with
      | none =>
        rw [EnsureDeleted_found r st obj ref href hname hns hget]
        refine ⟨⟨fun _ => Or.inr ⟨ref, rfl, hname, hns, hget⟩, fun _ => rfl⟩,
          fun _ _ _ _ _ => rfl, rfl, rfl⟩
      | some err =>
        rw [EnsureDeleted_get_error r st obj ref err href hname hns hget]
        refine ⟨⟨Or.inl, ?_⟩, ?_, rfl, rfl⟩
        · rintro (h | ⟨ref', hr, _, _, hg⟩)
          · exact h
          · cases hr
            rw [hget] at hg
            cases hg
        · intro ref' hr _ _ hg
          cases hr
          rw [hget] at hg
          cases hg

/-- C13: EnsureDeleted returns an error exactly when the conversion of the object fails
(with that error) or the Get call for a reference with name and namespace fails with an
error that is not a not-found error; with an empty name or namespace it returns nil and
leaves the state as it was, so that no call is made; with a not-found error of the Get
call it returns nil; in both cases the signals are as before. -/
theorem EnsureDeleted_errors_and_cancellations (r : Resource) (st : State) (obj : Value) :
    (∀ err, (EnsureDeleted r st obj).1 = some err ↔
        r.toObjRef obj = Except.error err ∨
          ∃ ref, r.toObjRef obj = Except.ok ref ∧ ref.Name ≠ "" ∧ ref.Namespace ≠ ""
            ∧ r.ctrlClientGet ref.APIVersion ref.Kind (Key.ObjRefToNamespacedName ref)
                = some err
            ∧ Apierrors.IsNotFound err = false)
      ∧ (∀ ref, r.toObjRef obj = Except.ok ref → ref.Name = "" ∨ ref.Namespace = ""
          → EnsureDeleted r st obj = (none, st))
      ∧ (∀ ref err, r.toObjRef obj = Except.ok ref → ref.Name ≠ "" → ref.Namespace ≠ ""
          → r.ctrlClientGet ref.APIVersion ref.Kind (Key.ObjRefToNamespacedName ref) = some err
          → Apierrors.IsNotFound err = true
          → (EnsureDeleted r st obj).1 = none
            ∧ (EnsureDeleted r st obj).2.signals = st.signals) := by
  refine ⟨fun err' => ?_, fun ref href hempty =>
    EnsureDeleted_empty_reference r st obj ref href hempty, ?_⟩
  · cases href : r.toObjRef obj with
    | error err =>
      rw [EnsureDeleted_conversion_error r st obj err href]
      constructor
      · intro h
        have he : err = err' := by simpa using h
        exact Or.inl (by rw [he])
      · rintro (h | ⟨ref, hr, _⟩)
        · have he : err = err' := by simpa using h
          rw [he]
        · cases hr
    | ok ref =>
      by_cases hempty : ref.Name = "" ∨ ref.Namespace = ""
      · rw [EnsureDeleted_empty_reference r st obj ref href hempty]
        constructor
        · intro h
          cases h
        · rintro (h | ⟨ref', hr, hn, hs, _⟩)
          · cases h
          · cases hr
            rcases hempty with h | h
            · exact absurd h hn
            · exact absurd h hs
      · have hname : ref.Name ≠ "" := fun h => hempty (Or.inl h)
        have hns : ref.Namespace ≠ "" := fun h => hempty (Or.inr h)
        cases hget : r.ctrlClientGet ref.APIVersion ref.Kind
            (Key.ObjRefToNamespacedName ref) with
        | none =>
          rw [EnsureDeleted_found r st obj ref href hname hns hget]
          constructor
          · intro h
            cases h
          · rintro (h | ⟨ref', hr, _, _, hg, _⟩)
            · cases h
            · cases hr
              rw [hget] at hg
              cases hg
        | some err =>
          rw [EnsureDeleted_get_error r st obj ref err href hname hns hget]
          by_cases hnf : Apierrors.IsNotFound err = true
          · simp only [hnf, if_true]
            constructor
            · intro h
              cases h
            · rintro (h | ⟨ref', hr, _, _, hg, hf⟩)
              · cases h
              · cases hr
                rw [hget] at hg
                cases hg
                rw [hnf] at hf
                exact Bool.noConfusion hf
          · simp only [hnf, if_false]
            constructor
            · intro h
              have he : err = err' := by simpa using h
              cases he
              exact Or.inr ⟨ref, rfl, hname, hns, hget, by simpa using hnf⟩
            · rintro (h | ⟨ref', hr, _, _, hg, _⟩)
              · cases h
              · cases hr
                rw [hget] at hg
                cases hg
                rfl
  · intro ref err href hname hns hget hnf
    rw [EnsureDeleted_get_error r st obj ref err href hname hns hget]
    simp [hnf]

/-- A deletion pass over an object whose infrastructure reference still resolves: the
finalizers are kept and one Get call is made. -/
theorem EnsureDeleted_keeps_finalizers_example :
    EnsureDeleted
      { toObjRef := fun _ => Except.ok
          { APIVersion := "infrastructure.giantswarm.io/v1alpha3", Kind := "AWSCluster",
            Name := "al9qy", Namespace := "default" },
        ctrlClientGet := fun _ _ _ => none }
      {} Value.nil
    = (none, { signals := { finalizersKept := true },
               calls := [APICall.get "infrastructure.giantswarm.io/v1alpha3" "AWSCluster"
                 { Name := "al9qy", Namespace := "default" }] }) := by
  rfl

/-- A deletion pass over an object whose infrastructure reference has no namespace: the
resource ends without a call and without a signal. -/
theorem EnsureDeleted_incomplete_reference_example :
    EnsureDeleted
      { toObjRef := fun _ => Except.ok { Kind := "AWSCluster", Name := "al9qy" },
        ctrlClientGet := fun _ _ _ => none }
      {} Value.nil
    = (none, {}) := by
  rfl

end Keepforinfrarefs

/-! ## machinedeploymentstatus: signals of ensure, and the order of the pipeline -/

namespace Machinedeploymentstatus

theorem ensure_conversion_error (r : Resource) (st : State) (obj : Value) (err : Error)
    (hmd : Key.ToMachineDeployment obj = Except.error err) :
    ensure r st obj = (some err, st) := by
  simp [ensure, hmd]

theorem ensure_get_error (r : Resource) (st : State) (obj : Value) (md : MachineDeployment)
    (err : Error) (hmd : Key.ToMachineDeployment obj = Except.ok md)
    (hget : ctrlClientGet r st { Name := md.Name, Namespace := md.Namespace }
      = Except.error err) :
    ensure r st obj = (some err, st) := by
  simp [ensure, hmd, hget]

theorem ensure_count_error (r : Resource) (st : State) (obj : Value)
    (md cr : MachineDeployment) (err : Error)
    (hmd : Key.ToMachineDeployment obj = Except.ok md)
    (hget : ctrlClientGet r st { Name := md.Name, Namespace := md.Namespace } = Except.ok cr)
    (hcount : r.workerCount cr = Except.error err) :
    ensure r st obj
      = if Tenantclient.IsNotAvailable err = true ∨ Basedomain.IsNotFound err = true then
          (none, { st with signals := Resourcecanceledcontext.SetCanceled st.signals })
        else (some err, st) := by
  by_cases h1 : Tenantclient.IsNotAvailable err = true
  · simp [ensure, hmd, hget, hcount, h1]
  · by_cases h2 : Basedomain.IsNotFound err = true
    · simp [ensure, hmd, hget, hcount, h1, h2]
    · simp [ensure, hmd, hget, hcount, h1, h2]

theorem ensure_unchanged (r : Resource) (st : State) (obj : Value)
    (md cr : MachineDeployment) (workerCount : List (String × WorkerCount))
    (hmd : Key.ToMachineDeployment obj = Except.ok md)
    (hget : ctrlClientGet r st { Name := md.Name, Namespace := md.Namespace } = Except.ok cr)
    (hcount : r.workerCount cr = Except.ok workerCount)
    (hreplicas : cr.Status.Replicas
      = (workerCountAt workerCount (labelValue cr.Labels Label.MachineDeployment)).Nodes)
    (hready : cr.Status.ReadyReplicas
      = (workerCountAt workerCount (labelValue cr.Labels Label.MachineDeployment)).Ready) :
    ensure r st obj = (none, st) := by
  simp [ensure, hmd, hget, hcount, hreplicas, hready]

theorem ensure_changed (r : Resource) (st : State) (obj : Value)
    (md cr : MachineDeployment) (workerCount : List (String × WorkerCount))
    (hmd : Key.ToMachineDeployment obj = Except.ok md)
    (hget : ctrlClientGet r st { Name := md.Name, Namespace := md.Namespace } = Except.ok cr)
    (hcount : r.workerCount cr = Except.ok workerCount)
    (hchanged : cr.Status.Replicas
        ≠ (workerCountAt workerCount (labelValue cr.Labels Label.MachineDeployment)).Nodes
      ∨ cr.Status.ReadyReplicas
        ≠ (workerCountAt workerCount (labelValue cr.Labels Label.MachineDeployment)).Ready) :
    ensure r st obj
      = match r.statusUpdateError
          { cr with Status :=
            { Replicas :=
                (workerCountAt workerCount (labelValue cr.Labels Label.MachineDeployment)).Nodes,
              ReadyReplicas :=
                (workerCountAt workerCount
                  (labelValue cr.Labels Label.MachineDeployment)).Ready } } with
        | some err =>
          (some err,
            { st with statusUpdates := st.statusUpdates ++
                [{ cr with Status :=
                  { Replicas :=
                      (workerCountAt workerCount
                        (labelValue cr.Labels Label.MachineDeployment)).Nodes,
                    ReadyReplicas :=
                      (workerCountAt workerCount
                        (labelValue cr.Labels Label.MachineDeployment)).Ready } }] })
        | none =>
          (none,
            { signals := Reconciliationcanceledcontext.SetCanceled
                (if Key.IsDeleted cr.toObjectMeta then Finalizerskeptcontext.SetKept st.signals
                 else st.signals),
              machineDeployments := storeStatus st.machineDeployments
                { cr with Status :=
                  { Replicas :=
                      (workerCountAt workerCount
                        (labelValue cr.Labels Label.MachineDeployment)).Nodes,
                    ReadyReplicas :=
                      (workerCountAt workerCount
                        (labelValue cr.Labels Label.MachineDeployment)).Ready } },
              statusUpdates := st.statusUpdates ++
                [{ cr with Status :=
                  { Replicas :=
                      (workerCountAt workerCount
                        (labelValue cr.Labels Label.MachineDeployment)).Nodes,
                    ReadyReplicas :=
                      (workerCountAt workerCount
                        (labelValue cr.Labels Label.MachineDeployment)).Ready } }] }) := by
  have hcond : (!decide (cr.Status.Replicas
        ≠ (workerCountAt workerCount (labelValue cr.Labels Label.MachineDeployment)).Nodes)
      && !decide (cr.Status.ReadyReplicas
        ≠ (workerCountAt workerCount (labelValue cr.Labels Label.MachineDeployment)).Ready))
      = false := by
    rcases hchanged with h | h
    · simp [h]
    · simp [h]
  simp only [ensure, hmd, hget, hcount, hcond]
  rfl

/-- C14 fails on the code: the comment on the slice of newMachineDeploymentResources says
that machineDeploymentStatus does not keep finalizers, yet ensure raises finalizersKept
for a machine deployment that carries a deletion timestamp and whose status (2 replicas)
differs from the worker count (no entry, so 0 nodes): the status is written, the
finalizers are kept and the reconciliation is canceled. -/
theorem ensure_keeps_finalizers_of_deleted_object :
    ensure
        { workerCount := fun _ => Except.ok [], getError := fun _ => none,
          statusUpdateError := fun _ => none }
        { signals := { reconciliationCanceled := false, resourceCanceled := false,
                       finalizersKept := false },
          machineDeployments :=
            [{ Name := "al9qy-md", Namespace := "default", DeletionTimestamp := some 1,
               Status := { Replicas := 2, ReadyReplicas := 2 } }] }
        (Value.machineDeploymentPtr { Name := "al9qy-md", Namespace := "default" })
      = (none,
          { signals := { reconciliationCanceled := true, resourceCanceled := false,
                         finalizersKept := true },
            machineDeployments :=
              [{ Name := "al9qy-md", Namespace := "default", DeletionTimestamp := some 1,
                 Status := { Replicas := 0, ReadyReplicas := 0 } }],
            statusUpdates :=
              [{ Name := "al9qy-md", Namespace := "default", DeletionTimestamp := some 1,
                 Status := { Replicas := 0, ReadyReplicas := 0 } }] }) := by
  rfl

/-- The paths of ensure on which finalizersKept is raised: after ensure the signal is set
if and only if it was set before or ensure wrote a changed status for a freshly fetched
machine deployment that carries a deletion timestamp; on that path ensure returns no
error and reconciliationCanceled is set as well. -/
theorem ensure_keeps_finalizers_iff (r : Resource) (st : State) (obj : Value) :
    ((ensure r st obj).2.signals.finalizersKept = true ↔
        st.signals.finalizersKept = true ∨
          ∃ md cr workerCount,
            Key.ToMachineDeployment obj = Except.ok md
            ∧ ctrlClientGet r st { Name := md.Name, Namespace := md.Namespace } = Except.ok cr
            ∧ r.workerCount cr = Except.ok workerCount
            ∧ (cr.Status.Replicas
                ≠ (workerCountAt workerCount
                    (labelValue cr.Labels Label.MachineDeployment)).Nodes
              ∨ cr.Status.ReadyReplicas
                ≠ (workerCountAt workerCount
                    (labelValue cr.Labels Label.MachineDeployment)).Ready)
            ∧ r.statusUpdateError
                { cr with Status :=
                  { Replicas := (workerCountAt workerCount
                      (labelValue cr.Labels Label.MachineDeployment)).Nodes,
                    ReadyReplicas := (workerCountAt workerCount
                      (labelValue cr.Labels Label.MachineDeployment)).Ready } } = none
            ∧ Key.IsDeleted cr.toObjectMeta = true)
    ∧ ((ensure r st obj).2.signals.finalizersKept = true → st.signals.finalizersKept = false →
        (ensure r st obj).1 = none
          ∧ (ensure r st obj).2.signals.reconciliationCanceled = true) := by
  cases hmd : Key.ToMachineDeployment obj with
  | error err =>
    rw [ensure_conversion_error r st obj err hmd]
    refine ⟨⟨Or.inl, ?_⟩, ?_⟩
    · rintro (h | ⟨md, _, _, h, _⟩)
      · exact h
      · cases h
    · intro h1 h2
      rw [h2] at h1
      exact Bool.noConfusion h1
  | ok md =>
    cases hget : ctrlClientGet r st { Name := md.Name, Namespace := md.Namespace } with
    | error err =>
      rw [ensure_get_error r st obj md err hmd hget]
      refine ⟨⟨Or.inl, ?_⟩, ?_⟩
      · rintro (h | ⟨md', _, _, hm, hg, _⟩)
        · exact h
        · cases hm
          rw [hget] at hg
          cases hg
      · intro h1 h2
        rw [h2] at h1
        exact Bool.noConfusion h1
    | ok cr =>
      cases hcount : r.workerCount cr with
      | error err =>
        rw [ensure_count_error r st obj md cr err hmd hget hcount]
        have hkept : (if Tenantclient.IsNotAvailable err = true
              ∨ Basedomain.IsNotFound err = true then
            ((none : Option Error),
              ({ st with signals := Resourcecanceledcontext.SetCanceled st.signals } : State))
            else (some err, st)).2.signals.finalizersKept = st.signals.finalizersKept := by
          split <;> rfl
        rw [hkept]
        refine ⟨⟨Or.inl, ?_⟩, ?_⟩
        · rintro (h | ⟨md', cr', _, hm, hg, hc, _⟩)
          · exact h
          · cases hm
            rw [hget] at hg
            cases hg
            rw [hcount] at hc
            cases hc
        · intro h1 h2
          rw [h2] at h1
          exact Bool.noConfusion h1
      | ok workerCount =>
        by_cases hchanged : cr.Status.Replicas
            ≠ (workerCountAt workerCount (labelValue cr.Labels Label.MachineDeployment)).Nodes
          ∨ cr.Status.ReadyReplicas
            ≠ (workerCountAt workerCount (labelValue cr.Labels Label.MachineDeployment)).Ready
        · rw [ensure_changed r st obj md cr workerCount hmd hget hcount hchanged]
          cases hupdate : r.statusUpdateError
              { cr with Status :=
                { Replicas := (workerCountAt workerCount
                    (labelValue cr.Labels Label.MachineDeployment)).Nodes,
                  ReadyReplicas := (workerCountAt workerCount
                    (labelValue cr.Labels Label.MachineDeployment)).Ready } } with
          | some err =>
            refine ⟨⟨Or.inl, ?_⟩, ?_⟩
            · rintro (h | ⟨md', cr', wc', hm, hg, hc, _, hu, _⟩)
              · exact h
              · cases hm
                rw [hget] at hg
                cases hg
                rw [hcount] at hc
                cases hc
                rw [hupdate] at hu
                cases hu
            · intro h1 h2
              rw [h2] at h1
              exact Bool.noConfusion h1
          | none =>
            by_cases hdel : Key.IsDeleted cr.toObjectMeta = true
            · rw [if_pos hdel]
              refine ⟨⟨fun _ => Or.inr ⟨md, cr, workerCount, rfl, hget, hcount, hchanged,
                hupdate, hdel⟩, fun _ => rfl⟩, fun _ _ => ⟨rfl, rfl⟩⟩
            · rw [if_neg hdel]
              refine ⟨⟨Or.inl, ?_⟩, ?_⟩
              · rintro (h | ⟨md', cr', wc', hm, hg, hc, _, _, hd⟩)
                · exact h
                · cases hm
                  rw [hget] at hg
                  cases hg
                  exact absurd hd hdel
              · intro h1 h2
                have h3 : st.signals.finalizersKept = true := h1
                rw [h2] at h3
                exact Bool.noConfusion h3
        · have hreplicas : cr.Status.Replicas
              = (workerCountAt workerCount
                  (labelValue cr.Labels Label.MachineDeployment)).Nodes := by
            by_contra h
            exact hchanged (Or.inl h)
          have hready : cr.Status.ReadyReplicas
              = (workerCountAt workerCount
                  (labelValue cr.Labels Label.MachineDeployment)).Ready := by
            by_contra h
            exact hchanged (Or.inr h)
          rw [ensure_unchanged r st obj md cr workerCount hmd hget hcount hreplicas hready]
          refine ⟨⟨Or.inl, ?_⟩, ?_⟩
          · rintro (h | ⟨md', cr', wc', hm, hg, hc, hch, _⟩)
            · exact h
            · cases hm
              rw [hget] at hg
              cases hg
              rw [hcount] at hc
              cases hc
              exact absurd hch hchanged
          · intro h1 h2
            rw [h2] at h1
            exact Bool.noConfusion h1

end Machinedeploymentstatus

/-- The slice of newMachineDeploymentResources lists keepForInfraRefs before
machineDeploymentStatus. -/
theorem machineDeploymentResourceSlice_order :
    machineDeploymentResourceSlice.indexOf MachineDeploymentResource.keepForInfraRefs
      < machineDeploymentResourceSlice.indexOf
          MachineDeploymentResource.machineDeploymentStatus := by
  decide

/-- With the function New of resource.go, newMachineDeploymentResources returns an error
for every configuration and whatever the other constructors do: the configuration it
hands to machinedeploymentstatus.New sets neither Event nor NodeCount, so once
keepforinfrarefs.New has returned its resource the function ends with
invalidConfigError, and the slice is not returned. -/
theorem newMachineDeploymentResources_invalid_config (c : MachineDeploymentConstructors)
    (config : MachineDeploymentConfig) :
    (∃ err, newMachineDeploymentResources c config = Except.error err)
    ∧ (c.keepforinfrarefsNew config.K8sClient config.Logger = none →
        newMachineDeploymentResources c config = Except.error Error.invalidConfigError) := by
  cases hkeep : c.keepforinfrarefsNew config.K8sClient config.Logger with
  | some err =>
    refine ⟨⟨err, ?_⟩, fun h => Option.noConfusion h⟩
    simp only [newMachineDeploymentResources, hkeep]
  | none =>
    have hrun : newMachineDeploymentResources c config
        = Except.error Error.invalidConfigError := by
      simp only [newMachineDeploymentResources, hkeep, Machinedeploymentstatus.New]
      rfl
    exact ⟨⟨_, hrun⟩, fun _ => hrun⟩


/-! ## clusterstatus: writing the status and canceling the reconciliation -/

namespace Clusterstatus

theorem EnsureCreated_conversion_error (r : Resource) (st : State) (obj : Value) (err : Error)
    (hcl : Key.ToCluster obj = Except.error err) : EnsureCreated r st obj = (some err, st) := by
  simp [EnsureCreated, hcl]

theorem EnsureCreated_get_error (r : Resource) (st : State) (obj : Value) (cl : Cluster)
    (err : Error) (hcl : Key.ToCluster obj = Except.ok cl)
    (hget : r.getCluster { Name := cl.Name, Namespace := cl.Namespace } = Except.error err) :
    EnsureCreated r st obj = (some err, st) := by
  simp [EnsureCreated, hcl, hget]

theorem EnsureCreated_already_ready (r : Resource) (st : State) (obj : Value)
    (cl cr : Cluster) (hcl : Key.ToCluster obj = Except.ok cl)
    (hget : r.getCluster { Name := cl.Name, Namespace := cl.Namespace } = Except.ok cr)
    (hready : (cr.Status.ControlPlaneInitialized && cr.Status.InfrastructureReady) = true) :
    EnsureCreated r st obj = (none, st) := by
  simp only [EnsureCreated, hcl, hget, hready, if_true]

theorem EnsureCreated_infrastructure_error (r : Resource) (st : State) (obj : Value)
    (cl cr : Cluster) (err : Error) (hcl : Key.ToCluster obj = Except.ok cl)
    (hget : r.getCluster { Name := cl.Name, Namespace := cl.Namespace } = Except.ok cr)
    (hready : (cr.Status.ControlPlaneInitialized && cr.Status.InfrastructureReady) = false)
    (hinfra : r.getCommonCluster (Key.ObjRefToNamespacedName (Key.ObjRefFromCluster cr))
      = Except.error err) :
    EnsureCreated r st obj = (some err, st) := by
  simp [EnsureCreated, hcl, hget, hready, hinfra]

theorem EnsureCreated_not_created (r : Resource) (st : State) (obj : Value)
    (cl cr : Cluster) (cc : CommonCluster) (hcl : Key.ToCluster obj = Except.ok cl)
    (hget : r.getCluster { Name := cl.Name, Namespace := cl.Namespace } = Except.ok cr)
    (hready : (cr.Status.ControlPlaneInitialized && cr.Status.InfrastructureReady) = false)
    (hinfra : r.getCommonCluster (Key.ObjRefToNamespacedName (Key.ObjRefFromCluster cr))
      = Except.ok cc)
    (hcreated : cc.HasCreatedCondition = false) :
    EnsureCreated r st obj = (none, st) := by
  simp [EnsureCreated, hcl, hget, hready, hinfra, hcreated]

theorem EnsureCreated_update (r : Resource) (st : State) (obj : Value)
    (cl cr : Cluster) (cc : CommonCluster) (hcl : Key.ToCluster obj = Except.ok cl)
    (hget : r.getCluster { Name := cl.Name, Namespace := cl.Namespace } = Except.ok cr)
    (hready : (cr.Status.ControlPlaneInitialized && cr.Status.InfrastructureReady) = false)
    (hinfra : r.getCommonCluster (Key.ObjRefToNamespacedName (Key.ObjRefFromCluster cr))
      = Except.ok cc)
    (hcreated : cc.HasCreatedCondition = true) :
    EnsureCreated r st obj
      = match r.statusUpdate { cr with Status := { ControlPlaneInitialized := true,
                                                   InfrastructureReady := true } } with
        | some err => (some err, st)
        | none =>
          (none, { signals := Reconciliationcanceledcontext.SetCanceled st.signals,
                   statusWrites := st.statusWrites ++
                     [{ cr with Status := { ControlPlaneInitialized := true,
                                            InfrastructureReady := true } }] }) := by
  simp only [EnsureCreated, hcl, hget, hready, hinfra, hcreated]
  rfl

/-- C15, as stated, fails: the freshly fetched cluster has neither flag set and the
infrastructure object has the Created condition, but the status update is answered with
an error; EnsureCreated returns that error, no status is written and
reconciliationCanceled stays unset. -/
theorem EnsureCreated_update_failure_writes_nothing :
    EnsureCreated
      { getCluster := fun key => Except.ok
          { Name := key.Name, Namespace := key.Namespace,
            InfrastructureRef := { Kind := "AWSCluster", Name := "al9qy",
                                   Namespace := "default" },
            Status := { ControlPlaneInitialized := false, InfrastructureReady := false } },
        getCommonCluster := fun _ => Except.ok { HasCreatedCondition := true },
        statusUpdate := fun _ => some (Error.other "conflict") }
      { signals := { reconciliationCanceled := false }, statusWrites := [] }
      (Value.clusterPtr { Name := "al9qy", Namespace := "default" })
    = (some (Error.other "conflict"),
       { signals := { reconciliationCanceled := false }, statusWrites := [] }) := by
  rfl

theorem EnsureCreated_written (r : Resource) (st : State) (obj : Value)
    (cl cr : Cluster) (cc : CommonCluster) (hcl : Key.ToCluster obj = Except.ok cl)
    (hget : r.getCluster { Name := cl.Name, Namespace := cl.Namespace } = Except.ok cr)
    (hready : (cr.Status.ControlPlaneInitialized && cr.Status.InfrastructureReady) = false)
    (hinfra : r.getCommonCluster (Key.ObjRefToNamespacedName (Key.ObjRefFromCluster cr))
      = Except.ok cc)
    (hcreated : cc.HasCreatedCondition = true)
    (hupdate : r.statusUpdate { cr with Status := { ControlPlaneInitialized := true,
                                                    InfrastructureReady := true } } = none) :
    EnsureCreated r st obj
      = (none, { signals := Reconciliationcanceledcontext.SetCanceled st.signals,
                 statusWrites := st.statusWrites ++
                   [{ cr with Status := { ControlPlaneInitialized := true,
                                          InfrastructureReady := true } }] }) := by
  rw [EnsureCreated_update r st obj cl cr cc hcl hget hready hinfra hcreated, hupdate]

theorem EnsureCreated_state_unchanged (r : Resource) (st : State) (obj : Value)
    (hnot : ¬ (∃ cl cr cc,
          Key.ToCluster obj = Except.ok cl
          ∧ r.getCluster { Name := cl.Name, Namespace := cl.Namespace } = Except.ok cr
          ∧ (cr.Status.ControlPlaneInitialized && cr.Status.InfrastructureReady) = false
          ∧ r.getCommonCluster (Key.ObjRefToNamespacedName (Key.ObjRefFromCluster cr))
              = Except.ok cc
          ∧ cc.HasCreatedCondition = true
          ∧ r.statusUpdate { cr with Status := { ControlPlaneInitialized := true,
                                                 InfrastructureReady := true } } = none)) :
    (EnsureCreated r st obj).2 = st := by
  cases hcl : Key.ToCluster obj with
  | error err => rw [EnsureCreated_conversion_error r st obj err hcl]
  | ok cl =>
    cases hget : r.getCluster { Name := cl.Name, Namespace := cl.Namespace } with
    | error err => rw [EnsureCreated_get_error r st obj cl err hcl hget]
    | ok cr =>
      cases hready : (cr.Status.ControlPlaneInitialized && cr.Status.InfrastructureReady) with
      | true => rw [EnsureCreated_already_ready r st obj cl cr hcl hget hready]
      | false =>
        cases hinfra : r.getCommonCluster
            (Key.ObjRefToNamespacedName (Key.ObjRefFromCluster cr)) with
        | error err =>
          rw [EnsureCreated_infrastructure_error r st obj cl cr err hcl hget hready hinfra]
        | ok cc =>
          cases hcreated : cc.HasCreatedCondition with
          | false =>
            rw [EnsureCreated_not_created r st obj cl cr cc hcl hget hready hinfra hcreated]
          | true =>
            rw [EnsureCreated_update r st obj cl cr cc hcl hget hready hinfra hcreated]
            cases hupdate : r.statusUpdate
                { cr with Status := { ControlPlaneInitialized := true,
                                      InfrastructureReady := true } } with
            | some err => rfl
            | none =>
              exact absurd ⟨cl, cr, cc, hcl, hget, hready, hinfra, hcreated, hupdate⟩ hnot

/-- C15, amended: EnsureCreated raises reconciliationCanceled if and only if it wrote the
cluster status with both flags set, which it does exactly when the object converts, the
freshly fetched cluster does not have both flags set, the infrastructure object is
fetched and has the Created condition, and the status update returns no error; on that
path it returns no error and records the cluster with both flags set, and on every other
path the state, the signal included, is as before. -/
theorem EnsureCreated_cancels_iff_written (r : Resource) (st : State) (obj : Value) :
    (∀ cl cr cc,
        Key.ToCluster obj = Except.ok cl
        → r.getCluster { Name := cl.Name, Namespace := cl.Namespace } = Except.ok cr
        → (cr.Status.ControlPlaneInitialized && cr.Status.InfrastructureReady) = false
        → r.getCommonCluster (Key.ObjRefToNamespacedName (Key.ObjRefFromCluster cr))
            = Except.ok cc
        → cc.HasCreatedCondition = true
        → r.statusUpdate { cr with Status := { ControlPlaneInitialized := true,
                                               InfrastructureReady := true } } = none
        → EnsureCreated r st obj
            = (none, { signals := Reconciliationcanceledcontext.SetCanceled st.signals,
                       statusWrites := st.statusWrites ++
                         [{ cr with Status := { ControlPlaneInitialized := true,
                                                InfrastructureReady := true } }] }))
    ∧ ((¬ (∃ cl cr cc,
          Key.ToCluster obj = Except.ok cl
          ∧ r.getCluster { Name := cl.Name, Namespace := cl.Namespace } = Except.ok cr
          ∧ (cr.Status.ControlPlaneInitialized && cr.Status.InfrastructureReady) = false
          ∧ r.getCommonCluster (Key.ObjRefToNamespacedName (Key.ObjRefFromCluster cr))
              = Except.ok cc
          ∧ cc.HasCreatedCondition = true
          ∧ r.statusUpdate { cr with Status := { ControlPlaneInitialized := true,
                                                 InfrastructureReady := true } } = none)) → (EnsureCreated r st obj).2 = st)
    ∧ ((EnsureCreated r st obj).2.signals.reconciliationCanceled = true ↔
        st.signals.reconciliationCanceled = true ∨ (∃ cl cr cc,
          Key.ToCluster obj = Except.ok cl
          ∧ r.getCluster { Name := cl.Name, Namespace := cl.Namespace } = Except.ok cr
          ∧ (cr.Status.ControlPlaneInitialized && cr.Status.InfrastructureReady) = false
          ∧ r.getCommonCluster (Key.ObjRefToNamespacedName (Key.ObjRefFromCluster cr))
              = Except.ok cc
          ∧ cc.HasCreatedCondition = true
          ∧ r.statusUpdate { cr with Status := { ControlPlaneInitialized := true,
                                                 InfrastructureReady := true } } = none))
    ∧ ((EnsureCreated r st obj).2.statusWrites ≠ st.statusWrites ↔ (∃ cl cr cc,
          Key.ToCluster obj = Except.ok cl
          ∧ r.getCluster { Name := cl.Name, Namespace := cl.Namespace } = Except.ok cr
          ∧ (cr.Status.ControlPlaneInitialized && cr.Status.InfrastructureReady) = false
          ∧ r.getCommonCluster (Key.ObjRefToNamespacedName (Key.ObjRefFromCluster cr))
              = Except.ok cc
          ∧ cc.HasCreatedCondition = true
          ∧ r.statusUpdate { cr with Status := { ControlPlaneInitialized := true,
                                                 InfrastructureReady := true } } = none)) := by
  refine ⟨fun cl cr cc hcl hget hready hinfra hcreated hupdate =>
      EnsureCreated_written r st obj cl cr cc hcl hget hready hinfra hcreated hupdate,
    EnsureCreated_state_unchanged r st obj, ?_, ?_⟩
  · by_cases hw : (∃ cl cr cc,
          Key.ToCluster obj = Except.ok cl
          ∧ r.getCluster { Name := cl.Name, Namespace := cl.Namespace } = Except.ok cr
          ∧ (cr.Status.ControlPlaneInitialized && cr.Status.InfrastructureReady) = false
          ∧ r.getCommonCluster (Key.ObjRefToNamespacedName (Key.ObjRefFromCluster cr))
              = Except.ok cc
          ∧ cc.HasCreatedCondition = true
          ∧ r.statusUpdate { cr with Status := { ControlPlaneInitialized := true,
                                                 InfrastructureReady := true } } = none)
    · obtain ⟨cl, cr, cc, hcl, hget, hready, hinfra, hcreated, hupdate⟩ := hw
      rw [EnsureCreated_written r st obj cl cr cc hcl hget hready hinfra hcreated hupdate]
      exact ⟨fun _ => Or.inr ⟨cl, cr, cc, hcl, hget, hready, hinfra, hcreated, hupdate⟩,
        fun _ => rfl⟩
    · rw [EnsureCreated_state_unchanged r st obj hw]
      exact ⟨Or.inl, fun h => h.elim id (fun h' => absurd h' hw)⟩
  · by_cases hw : (∃ cl cr cc,
          Key.ToCluster obj = Except.ok cl
          ∧ r.getCluster { Name := cl.Name, Namespace := cl.Namespace } = Except.ok cr
          ∧ (cr.Status.ControlPlaneInitialized && cr.Status.InfrastructureReady) = false
          ∧ r.getCommonCluster (Key.ObjRefToNamespacedName (Key.ObjRefFromCluster cr))
              = Except.ok cc
          ∧ cc.HasCreatedCondition = true
          ∧ r.statusUpdate { cr with Status := { ControlPlaneInitialized := true,
                                                 InfrastructureReady := true } } = none)
    · refine ⟨fun _ => hw, fun _ => ?_⟩
      obtain ⟨cl, cr, cc, hcl, hget, hready, hinfra, hcreated, hupdate⟩ := hw
      rw [EnsureCreated_written r st obj cl cr cc hcl hget hready hinfra hcreated hupdate]
      intro h
      have hlen := congrArg List.length h
      simp at hlen
    · rw [EnsureCreated_state_unchanged r st obj hw]
      exact ⟨fun h => absurd rfl h, fun h => absurd h hw⟩

end Clusterstatus

/-! ## chart v3: a missing release is an empty current state -/

namespace V3.Chart

/-- C16: once the Helm client of the guest cluster is there, a release-not-found error of
GetReleaseContent gives the nil state without error and leaves the signals, the
resourceCanceled signal included, as they were; every other error of GetReleaseContent
and every error of GetReleaseHistory is returned to the caller. -/
theorem GetCurrentState_release_not_found (r : Resource) (signals : Signals) (obj : Value)
    (guestHelmClient : HelmClient)
    (hclient : r.getGuestHelmClient obj = Except.ok guestHelmClient) :
    (∀ err, guestHelmClient.GetReleaseContent chartOperatorRelease = Except.error err
        → Helmclient.IsReleaseNotFound err = true
        → GetCurrentState r signals obj = (Except.ok none, signals))
    ∧ (∀ err, guestHelmClient.GetReleaseContent chartOperatorRelease = Except.error err
        → Helmclient.IsReleaseNotFound err = false
        → GetCurrentState r signals obj = (Except.error err, signals))
    ∧ (∀ releaseContent err,
        guestHelmClient.GetReleaseContent chartOperatorRelease = Except.ok releaseContent
        → guestHelmClient.GetReleaseHistory chartOperatorRelease = Except.error err
        → GetCurrentState r signals obj = (Except.error err, signals)) := by
  refine ⟨?_, ?_, ?_⟩
  · intro err hcontent hnf
    simp [GetCurrentState, hclient, hcontent, hnf]
  · intro err hcontent hnf
    simp [GetCurrentState, hclient, hcontent, hnf]
  · intro releaseContent err hcontent hhistory
    simp [GetCurrentState, hclient, hcontent, hhistory]

/-- Witness of C16: a Helm mock whose calls report that the release is not found. -/
theorem GetCurrentState_release_not_found_witness :
    (({ getGuestHelmClient := fun _ =>
          Except.ok (helmMock {} {} (some Error.releaseNotFound)) } : Resource).getGuestHelmClient
        Value.nil).isOk = true
    ∧ GetCurrentState
        { getGuestHelmClient := fun _ =>
            Except.ok (helmMock {} {} (some Error.releaseNotFound)) }
        { resourceCanceled := false } Value.nil
      = (Except.ok none, { resourceCanceled := false }) :=
  ⟨rfl,
    (GetCurrentState_release_not_found
      { getGuestHelmClient := fun _ =>
          Except.ok (helmMock {} {} (some Error.releaseNotFound)) }
      { resourceCanceled := false } Value.nil
      (helmMock {} {} (some Error.releaseNotFound)) rfl).1 Error.releaseNotFound rfl rfl⟩

/-- The current state of a guest cluster with a deployed chart-operator release. -/
theorem GetCurrentState_release_found_example :
    GetCurrentState
      { getGuestHelmClient := fun _ =>
          Except.ok (helmMock { Name := "chart-operator", Status := "DEPLOYED" }
            { Name := "chart-operator", Version := "0.1.2" } none) }
      {} Value.nil
    = (Except.ok (some { ChartName := chartOperatorChart, ReleaseName := chartOperatorRelease,
                         ReleaseStatus := "DEPLOYED", ReleaseVersion := "0.1.2" }), {}) := by
  rfl

end V3.Chart

/-! ## workercount v20: a tenant cluster that is not ready yet -/

namespace Clusterapi.V20.Workercount

/-- C17, as stated, fails: with a controller context that holds no tenant K8s client, and
with a node list answered by the tenant-API-not-available error, EnsureCreated returns
nil but the resourceCanceled signal, unset before, is unset afterwards. -/
theorem EnsureCreated_not_ready_raises_no_signal :
    (EnsureCreated { toClusterFunc := Key.ToCluster }
        { signals := { resourceCanceled := false }, cc := some { tenantK8s := none } }
        (Value.clusterPtr { Name := "al9qy" })).1 = none
    ∧ (EnsureCreated { toClusterFunc := Key.ToCluster }
        { signals := { resourceCanceled := false }, cc := some { tenantK8s := none } }
        (Value.clusterPtr { Name := "al9qy" })).2.signals.resourceCanceled = false
    ∧ (EnsureCreated { toClusterFunc := Key.ToCluster }
        { signals := { resourceCanceled := false },
          cc := some { tenantK8s := some (TenantK8sClient.mk
            (fun _ => Except.error Error.tenantAPINotAvailable)) } }
        (Value.clusterPtr { Name := "al9qy" })).1 = none
    ∧ (EnsureCreated { toClusterFunc := Key.ToCluster }
        { signals := { resourceCanceled := false },
          cc := some { tenantK8s := some (TenantK8sClient.mk
            (fun _ => Except.error Error.tenantAPINotAvailable)) } }
        (Value.clusterPtr { Name := "al9qy" })).2.signals.resourceCanceled = false :=
  ⟨rfl, rfl, rfl, rfl⟩

/-- C17, amended: when the tenant cluster is not ready yet, that is when the controller
context holds no tenant K8s client or the node list reports that the tenant API is not
available, EnsureCreated returns nil and leaves the state as it was: no signal is
raised and the worker counts of the controller context are not written. -/
theorem EnsureCreated_not_ready_returns_nil (r : Resource) (st : State) (obj : Value)
    (cl : Cluster) (cc : ControllerContext)
    (hcl : r.toClusterFunc obj = Except.ok cl) (hcc : st.cc = some cc)
    (hnot : cc.tenantK8s = none ∨
      ∃ k8s err, cc.tenantK8s = some k8s
        ∧ k8s.listNodes ("!" ++ Label.MasterNodeRole) = Except.error err
        ∧ Tenant.IsAPINotAvailable err = true) :
    EnsureCreated r st obj = (none, st) := by
  rcases hnot with hnone | ⟨k8s, err, hsome, hlist, hna⟩
  · simp [EnsureCreated, hcl, FromContext, hcc, hnone]
  · simp [EnsureCreated, hcl, FromContext, hcc, hsome, hlist, hna]

/-- Witness of the amended C17: a controller context without tenant K8s client. -/
theorem EnsureCreated_not_ready_returns_nil_witness :
    (({ tenantK8s := none } : ControllerContext).tenantK8s.isNone = true)
    ∧ EnsureCreated { toClusterFunc := Key.ToCluster }
        { signals := {}, cc := some { tenantK8s := none } }
        (Value.clusterPtr { Name := "al9qy" })
      = (none, { signals := {}, cc := some { tenantK8s := none } }) :=
  ⟨rfl,
    EnsureCreated_not_ready_returns_nil { toClusterFunc := Key.ToCluster }
      { signals := {}, cc := some { tenantK8s := none } }
      (Value.clusterPtr { Name := "al9qy" }) { Name := "al9qy" } { tenantK8s := none }
      rfl rfl (Or.inl rfl)⟩

end Clusterapi.V20.Workercount

/-! ## Router: the handles predicate of a resource set -/

namespace Clusterapi.V19

/-- C18: handlesFunc accepts an object if and only if the object converts to a cluster
whose operator-version label equals the version of the resource set; an object that does
not convert is not handled; two resource sets of different versions never both accept an
object, and a cluster labelled 2.0 is accepted by the set of version 2.0 only. -/
theorem handlesFunc_iff (version version' : String) (obj : Value) (cr : Cluster) :
    (handlesFunc version obj = true ↔
        ∃ c, Key.ToCluster obj = Except.ok c ∧ Key.OperatorVersion c.toObjectMeta = version)
    ∧ ((∃ err, Key.ToCluster obj = Except.error err) → handlesFunc version obj = false)
    ∧ (handlesFunc version obj = true → handlesFunc version' obj = true → version = version')
    ∧ (Key.OperatorVersion cr.toObjectMeta = "2.0" →
        (handlesFunc version (Value.clusterPtr cr) = true ↔ version = "2.0")) := by
  have hiff : ∀ v, handlesFunc v obj = true ↔
      ∃ c, Key.ToCluster obj = Except.ok c ∧ Key.OperatorVersion c.toObjectMeta = v := by
    intro v
    unfold handlesFunc
    cases hcl : Key.ToCluster obj with
    | error err => simp
    | ok c =>
      by_cases hv : Key.OperatorVersion c.toObjectMeta = v
      · simp [hv]
      · simp [hv]
  refine ⟨hiff version, ?_, ?_, ?_⟩
  · rintro ⟨err, herr⟩
    simp [handlesFunc, herr]
  · intro h1 h2
    obtain ⟨c1, hc1, hv1⟩ := (hiff version).1 h1
    obtain ⟨c2, hc2, hv2⟩ := (hiff version').1 h2
    rw [hc1] at hc2
    cases hc2
    rw [← hv1, ← hv2]
  · intro hlabel
    simp [handlesFunc, Key.ToCluster, hlabel, eq_comm]

/-- Router selection of the specification: of the resource sets of the versions 1.0 and
2.0, a cluster labelled 2.0 is handled by the second only, and a value that is not a
cluster by neither. -/
theorem handlesFunc_router_example :
    handlesFunc "1.0" (Value.clusterPtr
        { Name := "al9qy", Labels := some ⟨[(Label.OperatorVersion, "2.0")], by decide⟩ })
      = false
    ∧ handlesFunc "2.0" (Value.clusterPtr
        { Name := "al9qy", Labels := some ⟨[(Label.OperatorVersion, "2.0")], by decide⟩ })
      = true
    ∧ handlesFunc "2.0" (Value.strings ["foo"]) = false
    ∧ handlesFunc "2.0" Value.nil = false := by
  refine ⟨by rfl, by rfl, by rfl, by rfl⟩

end Clusterapi.V19

/-! ## configmap v5: construction of the service -/

namespace V5.Configmap

/-- C19: New fails if and only if Guest is nil, Logger is nil or ProjectName is empty;
every error it returns is an invalid-config error (no service comes with it); otherwise
it returns a service that holds exactly the Guest, the Logger and the ProjectName of the
configuration. -/
theorem New_invalid_config_iff (config : Config) :
    ((∃ err, New config = Except.error err) ↔
        config.Guest = none ∨ config.Logger = none ∨ config.ProjectName = "")
    ∧ (∀ err, New config = Except.error err → IsInvalidConfig err = true)
    ∧ (¬ (config.Guest = none ∨ config.Logger = none ∨ config.ProjectName = "") →
        New config = Except.ok { guest := config.Guest, logger := config.Logger,
                                 projectName := config.ProjectName })
    ∧ (∀ s, New config = Except.ok s →
        s.guest = config.Guest ∧ s.logger = config.Logger
          ∧ s.projectName = config.ProjectName) := by
  unfold New
  by_cases hg : config.Guest = none
  · simp [hg, IsInvalidConfig]
  · by_cases hl : config.Logger = none
    · simp [hg, hl, IsInvalidConfig]
    · by_cases hp : config.ProjectName = ""
      · simp [hg, hl, hp, IsInvalidConfig]
      · simp only [hg, hl, hp, if_false, or_self, not_false_eq_true, forall_true_left]
        refine ⟨by simp, by simp, trivial, ?_⟩
        intro s hs
        cases hs
        exact ⟨rfl, rfl, rfl⟩

/-- The constructor on the empty configuration and on a complete one. -/
theorem New_examples :
    New {} = Except.error Error.invalidConfigError
    ∧ New { Guest := some ⟨1⟩, Logger := some ⟨2⟩, ProjectName := "" }
        = Except.error Error.invalidConfigError
    ∧ New { Guest := some ⟨1⟩, Logger := some ⟨2⟩, ProjectName := "cluster-operator" }
        = Except.ok { guest := some ⟨1⟩, logger := some ⟨2⟩,
                      projectName := "cluster-operator" } := by
  refine ⟨by rfl, by rfl, by rfl⟩

end V5.Configmap

/-! ## configmap v7: the current state over the deduplicated namespaces -/

namespace V7.Configmap

/-- The deduplicating insertion keeps a duplicate-free list duplicate-free and adds
exactly the inserted elements. -/
theorem dedup_foldl_spec (l init : List String) (hinit : init.Nodup) :
    (l.foldl (fun keys x => if x ∈ keys then keys else keys ++ [x]) init).Nodup
      ∧ ∀ x, x ∈ l.foldl (fun keys x => if x ∈ keys then keys else keys ++ [x]) init
          ↔ x ∈ init ∨ x ∈ l := by
  induction l generalizing init with
  | nil => exact ⟨hinit, by simp⟩
  | cons a rest ih =>
    simp only [List.foldl_cons]
    by_cases ha : a ∈ init
    · rw [if_pos ha]
      refine ⟨(ih init hinit).1, fun x => ?_⟩
      rw [(ih init hinit).2 x]
      constructor
      · rintro (h | h)
        · exact Or.inl h
        · exact Or.inr (List.mem_cons_of_mem _ h)
      · rintro (h | h)
        · exact Or.inl h
        · rcases List.mem_cons.1 h with h | h
          · exact Or.inl (h ▸ ha)
          · exact Or.inr h
    · rw [if_neg ha]
      have hnodup : (init ++ [a]).Nodup := by
        rw [List.nodup_append]
        refine ⟨hinit, List.nodup_singleton a, ?_⟩
        intro x hx hx'
        rw [List.mem_singleton] at hx'
        exact ha (hx' ▸ hx)
      refine ⟨(ih (init ++ [a]) hnodup).1, fun x => ?_⟩
      rw [(ih (init ++ [a]) hnodup).2 x]
      simp [or_assoc]

theorem namespaceKeys_nodup (config : ConfigMapConfig) : (namespaceKeys config).Nodup :=
  (dedup_foldl_spec config.Namespaces [NamespaceSystem] (List.nodup_singleton _)).1

theorem mem_namespaceKeys (config : ConfigMapConfig) (x : String) :
    x ∈ namespaceKeys config ↔ x = NamespaceSystem ∨ x ∈ config.Namespaces := by
  unfold namespaceKeys
  rw [(dedup_foldl_spec config.Namespaces [NamespaceSystem] (List.nodup_singleton _)).2 x]
  simp

/-- The calls of the loop, on every run: the calls made before, then one call per
namespace of a prefix of the namespaces to visit. -/
theorem listNamespaces_calls (k8s : K8sClient) (options : ListOptions)
    (order : List String) (current : List ConfigMap) (calls : List ListCall) :
    ∃ k, (listNamespaces k8s options order current calls).2
      = calls ++ (order.take k).map (fun x => ListCall.mk x options) := by
  induction order generalizing current calls with
  | nil => exact ⟨0, by simp [listNamespaces]⟩
  | cons x rest ih =>
    cases hlist : k8s.listConfigMaps x options with
    | error err =>
      refine ⟨1, ?_⟩
      simp [listNamespaces, hlist]
    | ok items =>
      obtain ⟨k, hk⟩ := ih (current ++ items) (calls ++ [⟨x, options⟩])
      refine ⟨k + 1, ?_⟩
      simp only [listNamespaces, hlist, hk, List.take_succ_cons, List.map_cons,
        List.append_assoc, List.singleton_append]

/-- The items a list call gives, none when the call fails. -/
theorem listNamespaces_success (k8s : K8sClient) (options : ListOptions)
    (order : List String) (current : List ConfigMap) (calls : List ListCall)
    (hok : ∀ x, x ∈ order → (k8s.listConfigMaps x options).isOk = true) :
    listNamespaces k8s options order current calls
      = (Except.ok (current ++ order.flatMap (fun x =>
            match k8s.listConfigMaps x options with
            | Except.ok items => items
            | Except.error _ => [])),
         calls ++ order.map (fun x => ListCall.mk x options)) := by
  induction order generalizing current calls with
  | nil => simp [listNamespaces]
  | cons x rest ih =>
    cases hlist : k8s.listConfigMaps x options with
    | error err =>
      have := hok x (List.mem_cons_self _ _)
      rw [hlist] at this
      exact Bool.noConfusion this
    | ok items =>
      simp only [listNamespaces, hlist, List.flatMap_cons, List.map_cons]
      rw [ih _ _ (fun y hy => hok y (List.mem_cons_of_mem _ hy))]
      simp

/-- Over duplicate-free namespaces the filtered lists of a store are disjoint: an item
occurs in their concatenation as often as in the store when its namespace is visited and
it passes the test, and not at all otherwise. -/
theorem count_flatMap_filter (present : List ConfigMap) (q : ConfigMap → Bool)
    (order : List String) (horder : order.Nodup) (cm : ConfigMap) :
    (order.flatMap (fun x =>
        present.filter (fun c => decide (c.Namespace = x) && q c))).count cm
      = if cm.Namespace ∈ order ∧ q cm = true then present.count cm else 0 := by
  induction order with
  | nil => simp
  | cons x rest ih =>
    rw [List.nodup_cons] at horder
    rw [List.flatMap_cons, List.count_append, ih horder.2]
    by_cases hx : cm.Namespace = x
    · have hrest : cm.Namespace ∉ rest := fun h => horder.1 (hx ▸ h)
      by_cases hq : q cm = true
      · rw [List.count_filter (by simp [hx, hq])]
        simp [hx, hq, horder.1]
      · have hzero : (present.filter (fun c => decide (c.Namespace = x) && q c)).count cm
            = 0 := by
          rw [List.count_eq_zero]
          intro hmem
          have := (List.mem_filter.1 hmem).2
          simp [hq] at this
        rw [hzero]
        simp [hq]
    · have hzero : (present.filter (fun c => decide (c.Namespace = x) && q c)).count cm
          = 0 := by
        rw [List.count_eq_zero]
        intro hmem
        have := (List.mem_filter.1 hmem).2
        simp [hx] at this
      rw [hzero]
      simp [hx]

/-- A concatenation over a list depends on the values of the function on the members of
the list only. -/
theorem flatMap_congr_mem (order : List String) (f g : String → List ConfigMap)
    (h : ∀ x, x ∈ order → f x = g x) : order.flatMap f = order.flatMap g := by
  induction order with
  | nil => rfl
  | cons x rest ih =>
    rw [List.flatMap_cons, List.flatMap_cons, h x (List.mem_cons_self _ _),
      ih (fun y hy => h y (List.mem_cons_of_mem _ hy))]

/-- C20, as stated, fails, in two ways. With the namespaces kube-system and giantswarm to
list and a tenant cluster whose list calls fail, the map is ranged over from kube-system
on, the first list call fails and ends GetCurrentState: giantswarm, a namespace of the
set, is never listed. And with the empty namespace name among config.Namespaces and a
tenant cluster that answers a list call for the empty name with the managed config maps
of every namespace, as an API server does, every list call succeeds and the one managed
config map of kube-system is returned twice, next to one of the namespace default. -/
theorem GetCurrentState_failed_call_ends_listing :
    (["kube-system", "giantswarm"].Perm (namespaceKeys { Namespaces := ["giantswarm"] })
      ∧ "giantswarm" ∈ ({ Namespaces := ["giantswarm"] } : ConfigMapConfig).Namespaces
      ∧ (GetCurrentState
          { guest := { NewK8sClient := fun _ _ =>
              Except.ok (K8sClient.mk (fun _ _ => Except.error (Error.other "timeout"))) },
            projectName := "cluster-operator" }
          { Namespaces := ["giantswarm"] } ["kube-system", "giantswarm"]).2
        = [⟨"kube-system", { LabelSelector :=
            "giantswarm.io/service-type=managed, giantswarm.io/managed-by=cluster-operator" }⟩]
      ∧ ((GetCurrentState
          { guest := { NewK8sClient := fun _ _ =>
              Except.ok (K8sClient.mk (fun _ _ => Except.error (Error.other "timeout"))) },
            projectName := "cluster-operator" }
          { Namespaces := ["giantswarm"] } ["kube-system", "giantswarm"]).2.map
            (fun call => call.namespace_)).count "giantswarm" = 0)
    ∧ (["kube-system", ""].Perm (namespaceKeys { Namespaces := [""] })
      ∧ (GetCurrentState
          { guest := { NewK8sClient := fun _ _ =>
              Except.ok (K8sClient.mk (fun namespace_ _ =>
                Except.ok (List.filter
                  (fun cm => (decide (namespace_ = "") || decide (cm.Namespace = namespace_))
                    && carriesManagedLabels "cluster-operator" cm.Labels)
                  [{ Name := "test-configmap", Namespace := "kube-system",
                     Labels := some ⟨[(Label.ServiceType, Label.ServiceTypeManaged),
                       (Label.ManagedBy, "cluster-operator")], by decide⟩ },
                   { Name := "other-configmap", Namespace := "default",
                     Labels := some ⟨[(Label.ServiceType, Label.ServiceTypeManaged),
                       (Label.ManagedBy, "cluster-operator")], by decide⟩ }]))) },
            projectName := "cluster-operator" }
          { Namespaces := [""] } ["kube-system", ""]).1
        = Except.ok
            [{ Name := "test-configmap", Namespace := "kube-system",
               Labels := some ⟨[(Label.ServiceType, Label.ServiceTypeManaged),
                 (Label.ManagedBy, "cluster-operator")], by decide⟩ },
             { Name := "test-configmap", Namespace := "kube-system",
               Labels := some ⟨[(Label.ServiceType, Label.ServiceTypeManaged),
                 (Label.ManagedBy, "cluster-operator")], by decide⟩ },
             { Name := "other-configmap", Namespace := "default",
               Labels := some ⟨[(Label.ServiceType, Label.ServiceTypeManaged),
                 (Label.ManagedBy, "cluster-operator")], by decide⟩ }]) := by
  refine ⟨⟨?_, by decide, by decide, by decide⟩, ?_, by rfl⟩
  · have hkeys : namespaceKeys { Namespaces := ["giantswarm"] }
        = ["kube-system", "giantswarm"] := by
      decide
    rw [hkeys]
  · have hkeys : namespaceKeys { Namespaces := [""] } = ["kube-system", ""] := by
      decide
    rw [hkeys]

/-- C20, amended: GetCurrentState lists only namespaces of the set made of kube-system and
config.Namespaces, each at most once and always with the selector string made of the
service type label, "=", managed, ", ", the managed-by label, "=" and the project name;
when the client is obtained and every list call succeeds it lists every namespace of the
set exactly once, also when config.Namespaces holds duplicates or kube-system, and
returns exactly the listed config maps; so when every list call answers with the config
maps of its namespace that carry both labels, a config map is returned as often as it
is present if it lies in a namespace of the set and carries both labels, and not at all
otherwise. -/
theorem GetCurrentState_lists_namespaces_once (s : Service) (config : ConfigMapConfig)
    (order : List String) (hperm : order.Perm (namespaceKeys config)) :
    (∀ call, call ∈ (GetCurrentState s config order).2 →
        call.options.LabelSelector
            = Label.ServiceType ++ "=" ++ Label.ServiceTypeManaged ++ ", "
                ++ Label.ManagedBy ++ "=" ++ s.projectName
        ∧ (call.namespace_ = NamespaceSystem ∨ call.namespace_ ∈ config.Namespaces))
    ∧ (∀ x, ((GetCurrentState s config order).2.map (fun call => call.namespace_)).count x ≤ 1)
    ∧ (∀ k8s, s.guest.NewK8sClient config.ClusterID config.GuestAPIDomain = Except.ok k8s →
        (∀ x, x ∈ order → (k8s.listConfigMaps x (listOptions s)).isOk = true) →
        (∀ x, ((GetCurrentState s config order).2.map (fun call => call.namespace_)).count x
            = if x = NamespaceSystem ∨ x ∈ config.Namespaces then 1 else 0)
        ∧ (GetCurrentState s config order).1
            = Except.ok (order.flatMap (fun x =>
                match k8s.listConfigMaps x (listOptions s) with
                | Except.ok items => items
                | Except.error _ => [])))
    ∧ (∀ (k8s : K8sClient) (present : List ConfigMap),
        s.guest.NewK8sClient config.ClusterID config.GuestAPIDomain = Except.ok k8s →
        (∀ x, x ∈ order → k8s.listConfigMaps x (listOptions s)
            = Except.ok (present.filter (fun cm =>
                decide (cm.Namespace = x) && carriesManagedLabels s.projectName cm.Labels))) →
        ∃ result, (GetCurrentState s config order).1 = Except.ok result
          ∧ ∀ cm, result.count cm
              = if (cm.Namespace = NamespaceSystem ∨ cm.Namespace ∈ config.Namespaces)
                    ∧ carriesManagedLabels s.projectName cm.Labels = true
                then present.count cm else 0) := by
  have hnodup : order.Nodup := hperm.nodup_iff.2 (namespaceKeys_nodup config)
  have hmem : ∀ x, x ∈ order ↔ x = NamespaceSystem ∨ x ∈ config.Namespaces := fun x =>
    (hperm.mem_iff).trans (mem_namespaceKeys config x)
  have hcalls : ∃ k, (GetCurrentState s config order).2
      = (order.take k).map (fun x => ListCall.mk x (listOptions s)) := by
    unfold GetCurrentState
    cases s.guest.NewK8sClient config.ClusterID config.GuestAPIDomain with
    | error err => exact ⟨0, by simp⟩
    | ok k8s =>
      obtain ⟨k, hk⟩ := listNamespaces_calls k8s (listOptions s) order [] []
      exact ⟨k, by simpa using hk⟩
  obtain ⟨k, hk⟩ := hcalls
  have hnames : (GetCurrentState s config order).2.map (fun call => call.namespace_)
      = order.take k := by
    rw [hk, List.map_map]
    exact List.map_id'' (fun _ => rfl) _
  have hsuccess : ∀ k8s,
      s.guest.NewK8sClient config.ClusterID config.GuestAPIDomain = Except.ok k8s →
      (∀ x, x ∈ order → (k8s.listConfigMaps x (listOptions s)).isOk = true) →
      GetCurrentState s config order
        = (Except.ok (order.flatMap (fun x =>
              match k8s.listConfigMaps x (listOptions s) with
              | Except.ok items => items
              | Except.error _ => [])),
           order.map (fun x => ListCall.mk x (listOptions s))) := by
    intro k8s hclient hok
    simp only [GetCurrentState, hclient]
    rw [listNamespaces_success k8s (listOptions s) order [] [] hok]
    simp
  refine ⟨?_, ?_, ?_, ?_⟩
  · intro call hcall
    rw [hk] at hcall
    obtain ⟨x, hx, rfl⟩ := List.mem_map.1 hcall
    exact ⟨rfl, (hmem x).1 (List.mem_of_mem_take hx)⟩
  · intro x
    rw [hnames]
    exact List.nodup_iff_count_le_one.1 ((List.take_sublist k order).nodup hnodup) x
  · intro k8s hclient hok
    have hrun := hsuccess k8s hclient hok
    refine ⟨fun x => ?_, by rw [hrun]⟩
    rw [hrun]
    have hmap : (order.map (fun x => ListCall.mk x (listOptions s))).map
        (fun call => call.namespace_) = order := by
      rw [List.map_map]
      exact List.map_id'' (fun _ => rfl) _
    rw [hmap]
    by_cases hx : x = NamespaceSystem ∨ x ∈ config.Namespaces
    · rw [if_pos hx]
      exact List.count_eq_one_of_mem hnodup ((hmem x).2 hx)
    · rw [if_neg hx]
      exact List.count_eq_zero.2 (fun h => hx ((hmem x).1 h))
  · intro k8s present hclient hanswers
    have hok : ∀ x, x ∈ order → (k8s.listConfigMaps x (listOptions s)).isOk = true := by
      intro x hx
      rw [hanswers x hx]
      rfl
    have hitems : order.flatMap (fun x =>
          match k8s.listConfigMaps x (listOptions s) with
          | Except.ok items => items
          | Except.error _ => [])
        = order.flatMap (fun x => present.filter (fun cm =>
            decide (cm.Namespace = x) && carriesManagedLabels s.projectName cm.Labels)) := by
      apply flatMap_congr_mem
      intro x hx
      rw [hanswers x hx]
    refine ⟨_, by rw [hsuccess k8s hclient hok], fun cm => ?_⟩
    rw [hitems, count_flatMap_filter present _ order hnodup cm]
    simp only [hmem]

/-- Witness of the amended C20: the configuration lists giantswarm twice and kube-system
itself, and the tenant cluster answers every list call with the config maps of the
namespace that carry both labels: no namespace is listed twice, and of the three present
config maps the two with both labels are returned once each, the third not at all. -/
theorem GetCurrentState_lists_namespaces_once_witness :
    ["giantswarm", "kube-system"].Perm
        (namespaceKeys { Namespaces := ["giantswarm", "kube-system", "giantswarm"] })
    ∧ (∀ x, ((GetCurrentState
        { guest := { NewK8sClient := fun _ _ =>
            Except.ok (K8sClient.mk (fun namespace_ _ =>
              Except.ok (List.filter
                (fun cm => decide (cm.Namespace = namespace_)
                  && carriesManagedLabels "cluster-operator" cm.Labels)
                [{ Name := "giantswarm-configmap", Namespace := "giantswarm",
                   Labels := some ⟨[(Label.ServiceType, Label.ServiceTypeManaged),
                     (Label.ManagedBy, "cluster-operator")], by decide⟩ },
                 { Name := "test-configmap", Namespace := "kube-system",
                   Labels := some ⟨[(Label.ServiceType, Label.ServiceTypeManaged),
                     (Label.ManagedBy, "cluster-operator")], by decide⟩ },
                 { Name := "test-configmap2", Namespace := "kube-system",
                   Labels := some ⟨[(Label.ManagedBy, "cluster-operator")],
                     by decide⟩ }]))) },
          projectName := "cluster-operator" }
        { Namespaces := ["giantswarm", "kube-system", "giantswarm"] }
        ["giantswarm", "kube-system"]).2.map (fun call => call.namespace_)).count x ≤ 1)
    ∧ ∃ result, (GetCurrentState
        { guest := { NewK8sClient := fun _ _ =>
            Except.ok (K8sClient.mk (fun namespace_ _ =>
              Except.ok (List.filter
                (fun cm => decide (cm.Namespace = namespace_)
                  && carriesManagedLabels "cluster-operator" cm.Labels)
                [{ Name := "giantswarm-configmap", Namespace := "giantswarm",
                   Labels := some ⟨[(Label.ServiceType, Label.ServiceTypeManaged),
                     (Label.ManagedBy, "cluster-operator")], by decide⟩ },
                 { Name := "test-configmap", Namespace := "kube-system",
                   Labels := some ⟨[(Label.ServiceType, Label.ServiceTypeManaged),
                     (Label.ManagedBy, "cluster-operator")], by decide⟩ },
                 { Name := "test-configmap2", Namespace := "kube-system",
                   Labels := some ⟨[(Label.ManagedBy, "cluster-operator")],
                     by decide⟩ }]))) },
          projectName := "cluster-operator" }
        { Namespaces := ["giantswarm", "kube-system", "giantswarm"] }
        ["giantswarm", "kube-system"]).1 = Except.ok result
      ∧ ∀ cm, result.count cm
          = if (cm.Namespace = NamespaceSystem
                ∨ cm.Namespace ∈ ["giantswarm", "kube-system", "giantswarm"])
              ∧ carriesManagedLabels "cluster-operator" cm.Labels = true
            then List.count cm
                [{ Name := "giantswarm-configmap", Namespace := "giantswarm",
                   Labels := some ⟨[(Label.ServiceType, Label.ServiceTypeManaged),
                     (Label.ManagedBy, "cluster-operator")], by decide⟩ },
                 { Name := "test-configmap", Namespace := "kube-system",
                   Labels := some ⟨[(Label.ServiceType, Label.ServiceTypeManaged),
                     (Label.ManagedBy, "cluster-operator")], by decide⟩ },
                 { Name := "test-configmap2", Namespace := "kube-system",
                   Labels := some ⟨[(Label.ManagedBy, "cluster-operator")],
                     by decide⟩ }]
            else 0 :=
  have hperm : ["giantswarm", "kube-system"].Perm
      (namespaceKeys { Namespaces := ["giantswarm", "kube-system", "giantswarm"] }) := by
    have hkeys : namespaceKeys { Namespaces := ["giantswarm", "kube-system", "giantswarm"] }
        = ["kube-system", "giantswarm"] := by decide
    rw [hkeys]
    exact List.Perm.swap _ _ _
  ⟨hperm,
    (GetCurrentState_lists_namespaces_once _
      { Namespaces := ["giantswarm", "kube-system", "giantswarm"] }
      ["giantswarm", "kube-system"] hperm).2.1,
    (GetCurrentState_lists_namespaces_once _
      { Namespaces := ["giantswarm", "kube-system", "giantswarm"] }
      ["giantswarm", "kube-system"] hperm).2.2.2 _ _ rfl (fun _ _ => rfl)⟩

/-- The selector that GetCurrentState builds for the project name of the tests is read by
parseSelector as the two requirements on the service type and on the manager. -/
theorem parseSelector_listOptions :
    parseSelector
        (listOptions { guest := guestMock [], projectName := "cluster-operator" }).LabelSelector
      = some [(Label.ServiceType, Label.ServiceTypeManaged),
          (Label.ManagedBy, "cluster-operator")] := by
  decide

/-- Whenever the selector of a project is read as the two requirements on the service type
and on the manager, the fake clientset answers a list call for a namespace with a
non-empty name by the config maps of that namespace that carry both labels. -/
theorem fakeK8sClient_listConfigMaps (present : List ConfigMap) (s : Service)
    (namespace_ : String)
    (hparse : parseSelector (listOptions s).LabelSelector
      = some [(Label.ServiceType, Label.ServiceTypeManaged), (Label.ManagedBy, s.projectName)])
    (hname : namespace_ ≠ NamespaceAll) :
    (fakeK8sClient present).listConfigMaps namespace_ (listOptions s)
      = Except.ok (present.filter (fun cm =>
          decide (cm.Namespace = namespace_)
            && carriesManagedLabels s.projectName cm.Labels)) := by
  simp only [fakeK8sClient, hparse]
  congr 1
  apply List.filter_congr
  intro cm _
  cases hlabels : cm.Labels with
  | none => simp [matchesRequirements, carriesManagedLabels, hname]
  | some m => simp [matchesRequirements, carriesManagedLabels, hname]

/-- Test table of GetCurrentState, case 6 (with the keys ranged over from kube-system on):
of three present config maps the one without the service-type label is not returned. -/
theorem GetCurrentState_test_case_6 :
    (GetCurrentState
      { guest := guestMock
          [{ Name := "giantswarm-configmap", Namespace := "giantswarm",
             Labels := some ⟨[(Label.ServiceType, Label.ServiceTypeManaged),
               (Label.ManagedBy, "cluster-operator")], by decide⟩ },
           { Name := "test-configmap", Namespace := "kube-system",
             Labels := some ⟨[(Label.ServiceType, Label.ServiceTypeManaged),
               (Label.ManagedBy, "cluster-operator")], by decide⟩ },
           { Name := "test-configmap2", Namespace := "kube-system",
             Labels := some ⟨[(Label.ManagedBy, "cluster-operator")], by decide⟩ }],
        projectName := "cluster-operator" }
      { Namespaces := ["giantswarm"] } ["kube-system", "giantswarm"]).1
    = Except.ok
        [{ Name := "test-configmap", Namespace := "kube-system",
           Labels := some ⟨[(Label.ServiceType, Label.ServiceTypeManaged),
             (Label.ManagedBy, "cluster-operator")], by decide⟩ },
         { Name := "giantswarm-configmap", Namespace := "giantswarm",
           Labels := some ⟨[(Label.ServiceType, Label.ServiceTypeManaged),
             (Label.ManagedBy, "cluster-operator")], by decide⟩ }] := by
  rfl

/-- The fake clientset on the empty namespace name: with it among config.Namespaces the
config map of kube-system is listed by two calls and returned twice. -/
theorem GetCurrentState_empty_namespace_name :
    (GetCurrentState
      { guest := guestMock
          [{ Name := "test-configmap", Namespace := "kube-system",
             Labels := some ⟨[(Label.ServiceType, Label.ServiceTypeManaged),
               (Label.ManagedBy, "cluster-operator")], by decide⟩ }],
        projectName := "cluster-operator" }
      { Namespaces := [""] } ["kube-system", ""]).1
    = Except.ok
        [{ Name := "test-configmap", Namespace := "kube-system",
           Labels := some ⟨[(Label.ServiceType, Label.ServiceTypeManaged),
             (Label.ManagedBy, "cluster-operator")], by decide⟩ },
         { Name := "test-configmap", Namespace := "kube-system",
           Labels := some ⟨[(Label.ServiceType, Label.ServiceTypeManaged),
             (Label.ManagedBy, "cluster-operator")], by decide⟩ }] := by
  rfl

end V7.Configmap

/-! ## chartconfig v5: the desired chart configs per provider -/

namespace V5.Chartconfig

/-- C21: once the object converts and the cluster config is prepared, GetDesiredState
returns the kube-state-metrics and the node-exporter chart configs, in that order,
followed by the nginx-ingress-controller and the external-dns chart configs if and only
if the provider of the resource is Azure: four chart configs for Azure and two for every
other provider, with pairwise distinct names. -/
theorem GetDesiredState_azure_only
    (prepareClusterConfig : ClusterConfig → ClusterGuestConfig → Except Error ClusterConfig)
    (r : Resource) (obj : Value) (clusterGuestConfig : ClusterGuestConfig)
    (clusterConfig : ClusterConfig)
    (hguest : r.toClusterGuestConfigFunc obj = Except.ok clusterGuestConfig)
    (hprepare : prepareClusterConfig r.baseClusterConfig clusterGuestConfig
      = Except.ok clusterConfig) :
    ∃ desired, GetDesiredState prepareClusterConfig r obj
        = Except.ok (Value.chartConfigs desired)
      ∧ desired = [newKubeStateMetricsChartConfig clusterConfig r.projectName,
            newNodeExporterChartConfig clusterConfig r.projectName]
          ++ (if r.provider = Label.ProviderAzure then
                [newIngressControllerChartConfig clusterConfig r.projectName,
                 newExternalDNSChartConfig clusterConfig r.projectName]
              else [])
      ∧ desired.length = (if r.provider = Label.ProviderAzure then 4 else 2)
      ∧ (desired.map (fun c => c.Name)).Nodup
      ∧ (newIngressControllerChartConfig clusterConfig r.projectName ∈ desired
          ↔ r.provider = Label.ProviderAzure)
      ∧ (newExternalDNSChartConfig clusterConfig r.projectName ∈ desired
          ↔ r.provider = Label.ProviderAzure) := by
  have hne1 : newIngressControllerChartConfig clusterConfig r.projectName
      ≠ newKubeStateMetricsChartConfig clusterConfig r.projectName := by
    intro h
    have hname : "kubernetes-nginx-ingress-controller-chart" = "kubernetes-kube-state-metrics-chart" :=
      congrArg (fun c : ChartConfig => c.Name) h
    exact absurd hname (by decide)
  have hne2 : newIngressControllerChartConfig clusterConfig r.projectName
      ≠ newNodeExporterChartConfig clusterConfig r.projectName := by
    intro h
    have hname : "kubernetes-nginx-ingress-controller-chart" = "kubernetes-node-exporter-chart" :=
      congrArg (fun c : ChartConfig => c.Name) h
    exact absurd hname (by decide)
  have hne3 : newExternalDNSChartConfig clusterConfig r.projectName
      ≠ newKubeStateMetricsChartConfig clusterConfig r.projectName := by
    intro h
    have hname : "kubernetes-external-dns-chart" = "kubernetes-kube-state-metrics-chart" :=
      congrArg (fun c : ChartConfig => c.Name) h
    exact absurd hname (by decide)
  have hne4 : newExternalDNSChartConfig clusterConfig r.projectName
      ≠ newNodeExporterChartConfig clusterConfig r.projectName := by
    intro h
    have hname : "kubernetes-external-dns-chart" = "kubernetes-node-exporter-chart" :=
      congrArg (fun c : ChartConfig => c.Name) h
    exact absurd hname (by decide)
  by_cases hazure : r.provider = Label.ProviderAzure
  · refine ⟨_, ?_, rfl, ?_, ?_, ?_, ?_⟩
    · simp [GetDesiredState, hguest, hprepare, hazure]
    · simp [hazure]
    · rw [if_pos hazure]
      show ["kubernetes-kube-state-metrics-chart", "kubernetes-node-exporter-chart",
        "kubernetes-nginx-ingress-controller-chart", "kubernetes-external-dns-chart"].Nodup
      decide
    · simp [hazure]
    · simp [hazure]
  · refine ⟨_, ?_, rfl, ?_, ?_, ?_, ?_⟩
    · simp [GetDesiredState, hguest, hprepare, hazure]
    · simp [hazure]
    · rw [if_neg hazure]
      show ["kubernetes-kube-state-metrics-chart", "kubernetes-node-exporter-chart"].Nodup
      decide
    · simp [hazure, hne1, hne2]
    · simp [hazure, hne3, hne4]

/-- Witness of C21: an Azure resource and a KVM resource over the same cluster. -/
theorem GetDesiredState_azure_only_witness :
    (({ toClusterGuestConfigFunc := fun _ => Except.ok { ID := "al9qy" },
        baseClusterConfig := {}, projectName := "cluster-operator",
        provider := "azure" } : Resource).toClusterGuestConfigFunc Value.nil).isOk = true
    ∧ ∃ desired, GetDesiredState (fun base guest => Except.ok { base with ClusterID := guest.ID })
        { toClusterGuestConfigFunc := fun _ => Except.ok { ID := "al9qy" },
          baseClusterConfig := {}, projectName := "cluster-operator", provider := "azure" }
        Value.nil = Except.ok (Value.chartConfigs desired)
      ∧ desired.length = 4 :=
  ⟨rfl,
    (GetDesiredState_azure_only (fun base guest => Except.ok { base with ClusterID := guest.ID })
      { toClusterGuestConfigFunc := fun _ => Except.ok { ID := "al9qy" },
        baseClusterConfig := {}, projectName := "cluster-operator", provider := "azure" }
      Value.nil { ID := "al9qy" } { ClusterID := "al9qy" } rfl rfl).imp
      (fun _ h => ⟨h.1, h.2.2.1⟩)⟩

/-- The desired state of a KVM resource: the two chart configs of every provider. -/
theorem GetDesiredState_kvm_example :
    GetDesiredState (fun base guest => Except.ok { base with ClusterID := guest.ID })
      { toClusterGuestConfigFunc := fun _ => Except.ok { ID := "al9qy" },
        baseClusterConfig := { Organization := "giantswarm" },
        projectName := "cluster-operator", provider := "kvm" }
      Value.nil
    = Except.ok (Value.chartConfigs
        [newKubeStateMetricsChartConfig { ClusterID := "al9qy", Organization := "giantswarm" }
           "cluster-operator",
         newNodeExporterChartConfig { ClusterID := "al9qy", Organization := "giantswarm" }
           "cluster-operator"]) := by
  rfl

end V5.Chartconfig

/-! ## Version bundles -/

/-- C22: under the semantic-version ordering the version 0.2.0 of the aws v2 bundle is
strictly smaller than the version 0.19.0 of the aws v19 bundle, and each of the bundles
aws v2, aws v19, azure v16 and kvm v16 carries the version 0.N.0 of its package vN, the
name cluster-operator and the provider of its package path. -/
theorem version_bundles_increase :
    Versionbundle.semverLess Aws.V2.VersionBundle.Version Aws.V19.VersionBundle.Version = true
    ∧ Versionbundle.semverLess Aws.V19.VersionBundle.Version Aws.V2.VersionBundle.Version
        = false
    ∧ Aws.V2.VersionBundle
        = { Name := "cluster-operator", Provider := "aws", Version := "0.2.0" }
    ∧ Aws.V19.VersionBundle
        = { Name := "cluster-operator", Provider := "aws", Version := "0.19.0" }
    ∧ Azure.V16.VersionBundle
        = { Name := "cluster-operator", Provider := "azure", Version := "0.16.0" }
    ∧ Kvm.V16.VersionBundle
        = { Name := "cluster-operator", Provider := "kvm", Version := "0.16.0" }
    ∧ Versionbundle.parseVersion Aws.V2.VersionBundle.Version = some [0, 2, 0]
    ∧ Versionbundle.parseVersion Aws.V19.VersionBundle.Version = some [0, 19, 0]
    ∧ Versionbundle.parseVersion Azure.V16.VersionBundle.Version = some [0, 16, 0]
    ∧ Versionbundle.parseVersion Kvm.V16.VersionBundle.Version = some [0, 16, 0] := by
  refine ⟨by decide, by decide, rfl, rfl, rfl, rfl, by decide, by decide, by decide,
    by decide⟩

/-! ## workercount v20: the worker counts -/

namespace Clusterapi.V20.Workercount

/-- The loop over the conditions of one node appends the node once for each condition of
type Ready with status True. -/
theorem ready_conditions_length (n : Node) (conditions : List NodeCondition)
    (ready : List Node) :
    (conditions.foldl (fun ready c =>
        if c.Type_ = NodeReady ∧ c.Status = ConditionTrue then ready ++ [n] else ready)
      ready).length
      = ready.length + (conditions.filter (fun c =>
          decide (c.Type_ = NodeReady ∧ c.Status = ConditionTrue))).length := by
  induction conditions generalizing ready with
  | nil => simp
  | cons c rest ih =>
    by_cases hc : c.Type_ = NodeReady ∧ c.Status = ConditionTrue
    · rw [List.foldl_cons, if_pos hc, ih, List.filter_cons_of_pos (by simpa using hc)]
      simp only [List.length_append, List.length_singleton, List.length_cons,
        List.length_nil]
      omega
    · rw [List.foldl_cons, if_neg hc, ih, List.filter_cons_of_neg (by simpa using hc)]

theorem ready_nodes_length_from (nodes : List Node) (ready : List Node) :
    (nodes.foldl (fun ready n =>
        n.Conditions.foldl (fun ready c =>
          if c.Type_ = NodeReady ∧ c.Status = ConditionTrue then ready ++ [n] else ready)
        ready) ready).length
      = ready.length + (nodes.map (fun n => (n.Conditions.filter (fun c =>
          decide (c.Type_ = NodeReady ∧ c.Status = ConditionTrue))).length)).sum := by
  induction nodes generalizing ready with
  | nil => simp
  | cons n rest ih =>
    simp only [List.foldl_cons, ih, ready_conditions_length, List.map_cons, List.sum_cons]
    omega

/-- The number of nodes recorded as ready is the number of conditions of type Ready with
status True over all nodes. -/
theorem readyNodes_length (nodes : List Node) :
    (readyNodes nodes).length
      = (nodes.map (fun n => (n.Conditions.filter (fun c =>
          decide (c.Type_ = NodeReady ∧ c.Status = ConditionTrue))).length)).sum := by
  unfold readyNodes
  rw [ready_nodes_length_from]
  simp

/-- When no node carries more than one condition of type Ready with status True, the
number of nodes recorded as ready is at most the number of nodes. -/
theorem readyNodes_length_le (nodes : List Node)
    (hone : ∀ n, n ∈ nodes → (n.Conditions.filter (fun c =>
      decide (c.Type_ = NodeReady ∧ c.Status = ConditionTrue))).length ≤ 1) :
    (readyNodes nodes).length ≤ nodes.length := by
  rw [readyNodes_length]
  induction nodes with
  | nil => simp
  | cons n rest ih =>
    simp only [List.map_cons, List.sum_cons, List.length_cons]
    have h1 := hone n (List.mem_cons_self _ _)
    have h2 := ih (fun m hm => hone m (List.mem_cons_of_mem _ hm))
    omega

/-- C23 fails on the code: for a node list of one node that carries two conditions of
type Ready with status True, EnsureCreated returns nil and writes 1 as the number of
nodes and 2 as the number of ready nodes to the controller context. -/
theorem EnsureCreated_counts_ready_conditions :
    (EnsureCreated { toClusterFunc := Key.ToCluster }
        { signals := {},
          cc := some { tenantK8s := some (TenantK8sClient.mk (fun _ => Except.ok
            [{ Name := "worker-1",
               Conditions := [{ Type_ := "Ready", Status := "True" },
                              { Type_ := "Ready", Status := "True" }] }])) } }
        (Value.clusterPtr { Name := "al9qy" })).1 = none
    ∧ ((EnsureCreated { toClusterFunc := Key.ToCluster }
        { signals := {},
          cc := some { tenantK8s := some (TenantK8sClient.mk (fun _ => Except.ok
            [{ Name := "worker-1",
               Conditions := [{ Type_ := "Ready", Status := "True" },
                              { Type_ := "Ready", Status := "True" }] }])) } }
        (Value.clusterPtr { Name := "al9qy" })).2.cc.map
          (fun cc => (cc.workerNodes, cc.workerReady))) = some (1, 2) :=
  ⟨rfl, rfl⟩

end Clusterapi.V20.Workercount

/-! ## tenantclients v18: both clients or none -/

namespace Clusterapi.V18.Tenantclients

/-- C24: ensure updates the controller context all-or-nothing: after every call either
the state is as before, or both tenant clients of the context are the newly created ones
and nil is returned; when the K8s client fails after the G8s client was created, the
state is as before, a timeout returning nil and any other error being returned. -/
theorem ensure_all_or_nothing (r : Resource) (st : State) (obj : Value) :
    ((ensure r st obj).2 = st ∨
      ∃ cr cc g8sClient k8sClient,
        r.toClusterFunc obj = Except.ok cr ∧ st.cc = some cc
        ∧ r.NewG8sClient (Key.ClusterID cr.toObjectMeta) (r.clusterAPIEndpoint cr)
            = Except.ok g8sClient
        ∧ r.NewK8sClient (Key.ClusterID cr.toObjectMeta) (r.clusterAPIEndpoint cr)
            = Except.ok k8sClient
        ∧ ensure r st obj
            = (none, { signals := st.signals,
                       cc := some { tenantG8s := some g8sClient,
                                    tenantK8s := some k8sClient } }))
    ∧ (∀ cr cc g8sClient err,
        r.toClusterFunc obj = Except.ok cr → st.cc = some cc
        → r.NewG8sClient (Key.ClusterID cr.toObjectMeta) (r.clusterAPIEndpoint cr)
            = Except.ok g8sClient
        → r.NewK8sClient (Key.ClusterID cr.toObjectMeta) (r.clusterAPIEndpoint cr)
            = Except.error err
        → ensure r st obj = (if IsTimeout err = true then none else some err, st)) := by
  constructor
  · unfold ensure
    cases hcr : r.toClusterFunc obj with
    | error err => exact Or.inl rfl
    | ok cr =>
      cases hcc : st.cc with
      | none => simp [FromContext, hcc]
      | some cc =>
        cases hg : r.NewG8sClient (Key.ClusterID cr.toObjectMeta) (r.clusterAPIEndpoint cr) with
        | error err =>
          left
          by_cases ht : IsTimeout err = true
          · simp [FromContext, hcc, hg, ht]
          · simp [FromContext, hcc, hg, ht]
        | ok g8sClient =>
          cases hk : r.NewK8sClient (Key.ClusterID cr.toObjectMeta)
              (r.clusterAPIEndpoint cr) with
          | error err =>
            left
            by_cases ht : IsTimeout err = true
            · simp [FromContext, hcc, hg, hk, ht]
            · simp [FromContext, hcc, hg, hk, ht]
          | ok k8sClient =>
            right
            exact ⟨cr, cc, g8sClient, k8sClient, rfl, rfl, hg, hk,
              by simp [FromContext, hcc, hg, hk]⟩
  · intro cr cc g8sClient err hcr hcc hg hk
    by_cases ht : IsTimeout err = true
    · simp [ensure, FromContext, hcr, hcc, hg, hk, ht]
    · simp [ensure, FromContext, hcr, hcc, hg, hk, ht]

/-- A pass in which the K8s client times out after the G8s client was created: nil is
returned and the clients of an earlier pass stay in the context. -/
theorem ensure_k8s_timeout_example :
    ensure
      { toClusterFunc := Key.ToCluster, clusterAPIEndpoint := fun _ => "api.al9qy.example.com",
        NewG8sClient := fun _ _ => Except.ok ⟨7⟩,
        NewK8sClient := fun _ _ => Except.error Error.timeout }
      { cc := some { tenantG8s := some ⟨1⟩, tenantK8s := some ⟨2⟩ } }
      (Value.clusterPtr { Name := "al9qy" })
    = (none, { cc := some { tenantG8s := some ⟨1⟩, tenantK8s := some ⟨2⟩ } }) := by
  rfl

/-- A pass in which both clients are created: both are written to the context. -/
theorem ensure_both_clients_example :
    ensure
      { toClusterFunc := Key.ToCluster, clusterAPIEndpoint := fun _ => "api.al9qy.example.com",
        NewG8sClient := fun _ _ => Except.ok ⟨7⟩,
        NewK8sClient := fun _ _ => Except.ok ⟨8⟩ }
      { cc := some { tenantG8s := some ⟨1⟩, tenantK8s := some ⟨2⟩ } }
      (Value.clusterPtr { Name := "al9qy" })
    = (none, { cc := some { tenantG8s := some ⟨7⟩, tenantK8s := some ⟨8⟩ } }) := by
  rfl

end Clusterapi.V18.Tenantclients

/-! ## machinedeploymentstatus: writing the status from the worker count -/

namespace Machinedeploymentstatus

/-- A Get that succeeds returns the first stored machine deployment of the name and
namespace, and no failure was injected. -/
theorem ctrlClientGet_ok (r : Resource) (st : State) (key : NamespacedName)
    (cr : MachineDeployment) (hget : ctrlClientGet r st key = Except.ok cr) :
    r.getError key = none
      ∧ st.machineDeployments.find?
          (fun m => decide (m.Name = key.Name ∧ m.Namespace = key.Namespace)) = some cr := by
  unfold ctrlClientGet at hget
  cases herr : r.getError key with
  | some err =>
    simp only [herr] at hget
    cases hget
  | none =>
    cases hfind : st.machineDeployments.find?
        (fun m => decide (m.Name = key.Name ∧ m.Namespace = key.Namespace)) with
    | none =>
      simp only [herr, hfind] at hget
      cases hget
    | some found =>
      simp only [herr, hfind, Except.ok.injEq] at hget
      exact ⟨rfl, by rw [hget]⟩

/-- After a status update that went through, the Get of the same name and namespace
returns the fetched object with the written status. -/
theorem ctrlClientGet_after_storeStatus (r : Resource) (st st' : State) (key : NamespacedName)
    (cr : MachineDeployment) (status : MachineDeploymentStatus)
    (hget : ctrlClientGet r st key = Except.ok cr)
    (hstore : st'.machineDeployments
      = storeStatus st.machineDeployments { cr with Status := status }) :
    ctrlClientGet r st' key = Except.ok { cr with Status := status } := by
  obtain ⟨herr, hfind⟩ := ctrlClientGet_ok r st key cr hget
  have hmatch := List.find?_some hfind
  simp only [decide_eq_true_eq] at hmatch
  have hfun : ((fun m : MachineDeployment =>
        decide (m.Name = key.Name ∧ m.Namespace = key.Namespace)) ∘
      (fun m : MachineDeployment =>
        if m.Name = cr.Name ∧ m.Namespace = cr.Namespace then { m with Status := status }
        else m))
      = (fun m : MachineDeployment =>
        decide (m.Name = key.Name ∧ m.Namespace = key.Namespace)) := by
    funext m
    simp only [Function.comp]
    split <;> rfl
  unfold ctrlClientGet
  rw [herr, hstore]
  simp only [storeStatus]
  rw [List.find?_map, hfun, hfind]
  simp

/-- The worker count of a key without entry is the zero value. -/
theorem workerCountAt_missing (workerCount : List (String × WorkerCount)) (key : String)
    (hmissing : ∀ e, e ∈ workerCount → e.1 ≠ key) :
    workerCountAt workerCount key = { Nodes := 0, Ready := 0 } := by
  unfold workerCountAt
  have hnone : workerCount.find? (fun e => decide (e.1 = key)) = none := by
    rw [List.find?_eq_none]
    intro e he
    simpa using hmissing e he
  rw [hnone]
  rfl

/-- C25: for a machine deployment that converts and is fetched, and a worker count that
is computed, ensure hands the status to the status update if and only if the fetched
status differs from the worker count of the machine-deployment label in Replicas or in
ReadyReplicas, a missing entry counting as 0 nodes and 0 ready; without a difference it
returns nil and leaves the state as it was; after an update that went through the stored
status equals the worker count and reconciliationCanceled is raised, and a second run
against the same worker count returns nil and leaves the state, its signals included, as
it was. Here count is the worker count of the label and cr1 the fetched object with the
status set from it. -/
theorem ensure_writes_iff_status_differs (r : Resource) (st : State) (obj : Value)
    (md cr cr1 : MachineDeployment) (workerCount : List (String × WorkerCount))
    (count : WorkerCount)
    (hmd : Key.ToMachineDeployment obj = Except.ok md)
    (hget : ctrlClientGet r st { Name := md.Name, Namespace := md.Namespace } = Except.ok cr)
    (hcount : r.workerCount cr = Except.ok workerCount)
    (hentry : count = workerCountAt workerCount (labelValue cr.Labels Label.MachineDeployment))
    (hcr1 : cr1 = { cr with Status := { Replicas := count.Nodes,
                                        ReadyReplicas := count.Ready } }) :
    ((ensure r st obj).2.statusUpdates ≠ st.statusUpdates ↔
        cr.Status.Replicas ≠ count.Nodes ∨ cr.Status.ReadyReplicas ≠ count.Ready)
    ∧ (cr.Status.Replicas ≠ count.Nodes ∨ cr.Status.ReadyReplicas ≠ count.Ready →
        (ensure r st obj).2.statusUpdates = st.statusUpdates ++ [cr1])
    ∧ (¬ (cr.Status.Replicas ≠ count.Nodes ∨ cr.Status.ReadyReplicas ≠ count.Ready) →
        ensure r st obj = (none, st))
    ∧ ((∀ e, e ∈ workerCount → e.1 ≠ labelValue cr.Labels Label.MachineDeployment) →
        count = { Nodes := 0, Ready := 0 })
    ∧ (cr.Status.Replicas ≠ count.Nodes ∨ cr.Status.ReadyReplicas ≠ count.Ready →
        r.statusUpdateError cr1 = none →
        (ensure r st obj).1 = none
        ∧ (ensure r st obj).2.signals.reconciliationCanceled = true
        ∧ cr1.Status = { Replicas := count.Nodes, ReadyReplicas := count.Ready }
        ∧ ctrlClientGet r (ensure r st obj).2 { Name := md.Name, Namespace := md.Namespace }
            = Except.ok cr1
        ∧ (r.workerCount cr1 = Except.ok workerCount →
            ensure r (ensure r st obj).2 obj = (none, (ensure r st obj).2))) := by
  subst hcr1
  subst hentry
  have hunchanged : ¬ (cr.Status.Replicas
        ≠ (workerCountAt workerCount (labelValue cr.Labels Label.MachineDeployment)).Nodes
      ∨ cr.Status.ReadyReplicas
        ≠ (workerCountAt workerCount (labelValue cr.Labels Label.MachineDeployment)).Ready) →
      ensure r st obj = (none, st) := by
    intro hnot
    have hreplicas : cr.Status.Replicas
        = (workerCountAt workerCount (labelValue cr.Labels Label.MachineDeployment)).Nodes := by
      by_contra h
      exact hnot (Or.inl h)
    have hready : cr.Status.ReadyReplicas
        = (workerCountAt workerCount (labelValue cr.Labels Label.MachineDeployment)).Ready := by
      by_contra h
      exact hnot (Or.inr h)
    exact ensure_unchanged r st obj md cr workerCount hmd hget hcount hreplicas hready
  have hupdates : (cr.Status.Replicas
        ≠ (workerCountAt workerCount (labelValue cr.Labels Label.MachineDeployment)).Nodes
      ∨ cr.Status.ReadyReplicas
        ≠ (workerCountAt workerCount (labelValue cr.Labels Label.MachineDeployment)).Ready) →
      (ensure r st obj).2.statusUpdates = st.statusUpdates ++
        [{ cr with Status :=
          { Replicas :=
              (workerCountAt workerCount (labelValue cr.Labels Label.MachineDeployment)).Nodes,
            ReadyReplicas :=
              (workerCountAt workerCount
                (labelValue cr.Labels Label.MachineDeployment)).Ready } }] := by
    intro hdiff
    rw [ensure_changed r st obj md cr workerCount hmd hget hcount hdiff]
    split <;> rfl
  refine ⟨?_, hupdates, hunchanged, workerCountAt_missing workerCount _, ?_⟩
  · constructor
    · intro hne
      by_contra hnot
      rw [hunchanged hnot] at hne
      exact hne rfl
    · intro hdiff heq
      rw [hupdates hdiff] at heq
      have hlen := congrArg List.length heq
      simp at hlen
  · intro hdiff hupdate
    have hrun := ensure_changed r st obj md cr workerCount hmd hget hcount hdiff
    rw [hupdate] at hrun
    have hget' := ctrlClientGet_after_storeStatus r st (ensure r st obj).2
      { Name := md.Name, Namespace := md.Namespace } cr
      { Replicas :=
          (workerCountAt workerCount (labelValue cr.Labels Label.MachineDeployment)).Nodes,
        ReadyReplicas :=
          (workerCountAt workerCount (labelValue cr.Labels Label.MachineDeployment)).Ready }
      hget (by rw [hrun])
    refine ⟨by rw [hrun], by rw [hrun]; rfl, rfl, hget', ?_⟩
    intro hcount'
    exact ensure_unchanged r (ensure r st obj).2 obj md _ workerCount hmd hget' hcount'
      rfl rfl

/-- Witness of C25: a stored machine deployment with 2 replicas and a worker count of 3
nodes, 2 of them ready, under its machine-deployment label. -/
theorem ensure_writes_iff_status_differs_witness :
    Key.ToMachineDeployment (Value.machineDeploymentPtr
        { Name := "al9qy-md", Namespace := "default" })
      = Except.ok { Name := "al9qy-md", Namespace := "default" }
    ∧ (ensure
        { workerCount := fun _ => Except.ok [("", { Nodes := 3, Ready := 2 })],
          getError := fun _ => none, statusUpdateError := fun _ => none }
        { machineDeployments :=
            [{ Name := "al9qy-md", Namespace := "default",
               Status := { Replicas := 2, ReadyReplicas := 2 } }] }
        (Value.machineDeploymentPtr { Name := "al9qy-md", Namespace := "default" })).2.statusUpdates
      = [] ++ [{ Name := "al9qy-md", Namespace := "default",
                 Status := { Replicas := 3, ReadyReplicas := 2 } }] :=
  ⟨rfl,
    (ensure_writes_iff_status_differs
      { workerCount := fun _ => Except.ok [("", { Nodes := 3, Ready := 2 })],
        getError := fun _ => none, statusUpdateError := fun _ => none }
      { machineDeployments :=
          [{ Name := "al9qy-md", Namespace := "default",
             Status := { Replicas := 2, ReadyReplicas := 2 } }] }
      (Value.machineDeploymentPtr { Name := "al9qy-md", Namespace := "default" })
      { Name := "al9qy-md", Namespace := "default" }
      { Name := "al9qy-md", Namespace := "default",
        Status := { Replicas := 2, ReadyReplicas := 2 } }
      { Name := "al9qy-md", Namespace := "default",
        Status := { Replicas := 3, ReadyReplicas := 2 } }
      [("", { Nodes := 3, Ready := 2 })] { Nodes := 3, Ready := 2 }
      rfl rfl rfl rfl rfl).2.1 (Or.inl (by decide))⟩

/-- Two runs of ensure against the same worker count: the first writes the status and
cancels the reconciliation, the second, started with fresh signals, does nothing. -/
theorem ensure_second_run_example :
    ensure
      { workerCount := fun _ => Except.ok [("", { Nodes := 3, Ready := 2 })],
        getError := fun _ => none, statusUpdateError := fun _ => none }
      { machineDeployments :=
          [{ Name := "al9qy-md", Namespace := "default",
             Status := { Replicas := 2, ReadyReplicas := 2 } }] }
      (Value.machineDeploymentPtr { Name := "al9qy-md", Namespace := "default" })
    = (none,
        { signals := { reconciliationCanceled := true },
          machineDeployments :=
            [{ Name := "al9qy-md", Namespace := "default",
               Status := { Replicas := 3, ReadyReplicas := 2 } }],
          statusUpdates :=
            [{ Name := "al9qy-md", Namespace := "default",
               Status := { Replicas := 3, ReadyReplicas := 2 } }] })
    ∧ ensure
      { workerCount := fun _ => Except.ok [("", { Nodes := 3, Ready := 2 })],
        getError := fun _ => none, statusUpdateError := fun _ => none }
      { machineDeployments :=
          [{ Name := "al9qy-md", Namespace := "default",
             Status := { Replicas := 3, ReadyReplicas := 2 } }] }
      (Value.machineDeploymentPtr { Name := "al9qy-md", Namespace := "default" })
    = (none,
        { machineDeployments :=
            [{ Name := "al9qy-md", Namespace := "default",
               Status := { Replicas := 3, ReadyReplicas := 2 } }] }) :=
  ⟨rfl, rfl⟩

end Machinedeploymentstatus

/-! ## certconfig v3: the server domain -/

namespace V3.Certconfig

theorem cutset_contains (c : Char) :
    ("\t .".data.contains c) = decide (c = '\t' ∨ c = ' ' ∨ c = '.') := by
  have hdata : "\t .".data = ['\t', ' ', '.'] := rfl
  rw [hdata, Bool.eq_iff_iff]
  simp only [List.contains, List.elem_iff, decide_eq_true_eq, List.mem_cons,
    List.not_mem_nil, or_false]

theorem TrimLeft_cutset (s : String) :
    Strings.TrimLeft s "\t ."
      = String.mk (s.data.dropWhile (fun c => decide (c = '\t' ∨ c = ' ' ∨ c = '.'))) := by
  unfold Strings.TrimLeft
  have hfun : (fun c => "\t .".data.contains c)
      = (fun c => decide (c = '\t' ∨ c = ' ' ∨ c = '.')) := funext cutset_contains
  rw [hfun]

theorem ContainsChar_iff (s : String) (c : Char) :
    Strings.ContainsChar s c = true ↔ c ∈ s.data := by
  simp [Strings.ContainsChar]

/-- C26: newServerDomain fails if and only if commonDomain contains no dot, and then with
an invalid-config error; otherwise it returns the certificate, a dot and commonDomain
without its leading tabs, spaces and dots; hence for a common domain that contains a dot
a further leading dot does not change the result. -/
theorem newServerDomain_spec (commonDomain cert : String) :
    ((∃ err, newServerDomain commonDomain cert = Except.error err) ↔ '.' ∉ commonDomain.data)
    ∧ (∀ err, newServerDomain commonDomain cert = Except.error err →
        IsInvalidConfig err = true)
    ∧ ('.' ∈ commonDomain.data →
        newServerDomain commonDomain cert
          = Except.ok (cert ++ "." ++ String.mk (commonDomain.data.dropWhile
              (fun c => decide (c = '\t' ∨ c = ' ' ∨ c = '.')))))
    ∧ ('.' ∈ commonDomain.data →
        newServerDomain ("." ++ commonDomain) cert = newServerDomain commonDomain cert) := by
  by_cases hdot : '.' ∈ commonDomain.data
  · have hcontains : Strings.ContainsChar commonDomain '.' = true :=
      (ContainsChar_iff commonDomain '.').2 hdot
    have hrun : newServerDomain commonDomain cert
        = Except.ok (cert ++ "." ++ String.mk (commonDomain.data.dropWhile
            (fun c => decide (c = '\t' ∨ c = ' ' ∨ c = '.')))) := by
      simp only [newServerDomain, hcontains, TrimLeft_cutset]
      rfl
    refine ⟨?_, ?_, fun _ => hrun, fun _ => ?_⟩
    · rw [hrun]
      simp [hdot]
    · intro err herr
      rw [hrun] at herr
      cases herr
    · have hdot' : '.' ∈ ("." ++ commonDomain).data := by
        rw [String.data_append]
        exact List.mem_append_left _ (by decide)
      have hcontains' : Strings.ContainsChar ("." ++ commonDomain) '.' = true :=
        (ContainsChar_iff _ '.').2 hdot'
      rw [hrun]
      simp only [newServerDomain, hcontains', TrimLeft_cutset, String.data_append]
      simp
  · have hcontains : Strings.ContainsChar commonDomain '.' = false := by
      cases h : Strings.ContainsChar commonDomain '.'
      · rfl
      · exact absurd ((ContainsChar_iff commonDomain '.').1 h) hdot
    have hrun : newServerDomain commonDomain cert = Except.error Error.invalidConfigError := by
      simp [newServerDomain, hcontains]
    refine ⟨?_, ?_, fun h => absurd h hdot, fun h => absurd h hdot⟩
    · rw [hrun]
      simp [hdot]
    · intro err herr
      rw [hrun] at herr
      cases herr
      rfl

/-- The server domains of a common domain with and without leading dots, and of a common
domain without any dot. -/
theorem newServerDomain_examples :
    newServerDomain "al9qy.k8s.example.com" "api"
        = Except.ok "api.al9qy.k8s.example.com"
    ∧ newServerDomain " ..al9qy.k8s.example.com" "api"
        = Except.ok "api.al9qy.k8s.example.com"
    ∧ newServerDomain "localhost" "api" = Except.error Error.invalidConfigError := by
  refine ⟨by rfl, by rfl, by rfl⟩

/-- The parent domain of a successful result is the trimmed common domain: it does not
begin with a dot, a space or a tab, and it is empty exactly when commonDomain consists of
tabs, spaces and dots only. -/
theorem newServerDomain_parent (commonDomain cert domain : String)
    (hok : newServerDomain commonDomain cert = Except.ok domain) :
    parentDomain domain cert
        = String.mk (commonDomain.data.dropWhile
            (fun c => decide (c = '\t' ∨ c = ' ' ∨ c = '.')))
    ∧ (∀ c, (parentDomain domain cert).data.head? = some c →
        c ≠ '.' ∧ c ≠ ' ' ∧ c ≠ '\t')
    ∧ (parentDomain domain cert = "" ↔
        ∀ c, c ∈ commonDomain.data → c = '\t' ∨ c = ' ' ∨ c = '.') := by
  have hparent : parentDomain domain cert
      = String.mk (commonDomain.data.dropWhile
          (fun c => decide (c = '\t' ∨ c = ' ' ∨ c = '.'))) := by
    unfold newServerDomain at hok
    by_cases hc : Strings.ContainsChar commonDomain '.' = true
    · simp only [hc, Bool.not_true, Bool.false_eq_true, if_false, Except.ok.injEq] at hok
      rw [← hok, TrimLeft_cutset]
      unfold parentDomain
      rw [String.data_append, String.data_append, List.append_assoc, List.drop_append]
      rfl
    · simp [hc] at hok
  refine ⟨hparent, ?_, ?_⟩
  · intro c hhead
    rw [hparent] at hhead
    simp only at hhead
    have hnot := List.head?_dropWhile_not
      (fun c => decide (c = '\t' ∨ c = ' ' ∨ c = '.')) commonDomain.data
    rw [hhead] at hnot
    have hcut := of_decide_eq_false hnot
    rw [not_or, not_or] at hcut
    exact ⟨hcut.2.2, hcut.2.1, hcut.1⟩
  · rw [hparent]
    constructor
    · intro hempty
      have hnil : commonDomain.data.dropWhile
          (fun c => decide (c = '\t' ∨ c = ' ' ∨ c = '.')) = [] :=
        congrArg String.data hempty
      rw [List.dropWhile_eq_nil_iff] at hnil
      intro c hc
      simpa using hnil c hc
    · intro hall
      have hnil : commonDomain.data.dropWhile
          (fun c => decide (c = '\t' ∨ c = ' ' ∨ c = '.')) = [] := by
        rw [List.dropWhile_eq_nil_iff]
        intro c hc
        simpa using hall c hc
      rw [hnil]

/-- C27 fails on the code: the common domain that is a single dot passes the test for a
dot, newServerDomain succeeds and returns the certificate and a dot with nothing behind:
the parent domain is empty. -/
theorem newServerDomain_empty_parent :
    newServerDomain "." "api" = Except.ok "api."
    ∧ parentDomain "api." "api" = ""
    ∧ newServerDomain " . ." "api" = Except.ok "api." := by
  refine ⟨by rfl, by rfl, by rfl⟩

end V3.Certconfig

/-! ## Equality predicate of clusterconfigmap v17: characterisation -/

namespace V17.Clusterconfigmap

/-- C28: equals is true exactly when Name and Namespace are equal and Annotations, Data
and Labels are deeply equal; two maps are deeply equal when both are nil or both are
non-nil with the same number of entries and every entry of the first an entry of the
second, so that a nil map and an empty non-nil map differ: a ConfigMap with nil
Annotations and the same ConfigMap with empty non-nil Annotations are not equal. -/
theorem equals_iff (a b : ConfigMap) (x y : Option StringMap) :
    (equals a b = true ↔
        a.Name = b.Name ∧ a.Namespace = b.Namespace
        ∧ deepEqualStringMap a.Annotations b.Annotations = true
        ∧ deepEqualStringMap a.Data b.Data = true
        ∧ deepEqualStringMap a.Labels b.Labels = true)
    ∧ (deepEqualStringMap x y = true ↔
        (x = none ∧ y = none) ∨
          ∃ m n, x = some m ∧ y = some n ∧ m.entries.length = n.entries.length
            ∧ ∀ e, e ∈ m.entries → e ∈ n.entries)
    ∧ deepEqualStringMap none (some StringMap.empty) = false
    ∧ deepEqualStringMap (some StringMap.empty) none = false
    ∧ equals { a with Annotations := none } { a with Annotations := some StringMap.empty }
        = false
    ∧ equals { a with Annotations := some StringMap.empty } { a with Annotations := none }
        = false := by
  refine ⟨?_, ?_, rfl, rfl, ?_, ?_⟩
  · unfold equals
    by_cases hn : a.Name = b.Name
    · by_cases hs : a.Namespace = b.Namespace
      · cases deepEqualStringMap a.Annotations b.Annotations <;>
          cases deepEqualStringMap a.Data b.Data <;>
          cases deepEqualStringMap a.Labels b.Labels <;> simp [hn, hs]
      · simp [hn, hs]
    · simp [hn]
  · cases x with
    | none =>
      cases y with
      | none => simp [deepEqualStringMap]
      | some n => simp [deepEqualStringMap]
    | some m =>
      cases y with
      | none => simp [deepEqualStringMap]
      | some n =>
        rw [deepEqualStringMap_some_iff]
        constructor
        · intro h
          exact Or.inr ⟨m, n, rfl, rfl, h.1, h.2⟩
        · rintro (⟨h, _⟩ | ⟨m', n', hm, hn, hlen, hsub⟩)
          · cases h
          · cases hm
            cases hn
            exact ⟨hlen, hsub⟩
  · simp [equals, deepEqualStringMap]
  · simp [equals, deepEqualStringMap]

end V17.Clusterconfigmap

end ClusterOperator
